import Mathlib

/-! # Millionaire Maker: filters, statistical profile, generator, auto-tune and reduction report

A shallow embedding of `src/frontend/App.js` and of the data endpoint of
`src/backend/server.js`.

Modelling conventions.

* Lottery numbers are JavaScript numbers holding integers; they are modelled by `Int`.
* Real-valued quantities (similarity thresholds, means, standard deviations, the quotients
  fed to `Math.floor` and `Math.ceil`) are modelled by exact rationals `ℚ`.  The rounding of
  IEEE doubles is outside the embedding, except in `finalScore` and in the loop of
  `combinations`, which are computed with the operations on doubles of the section on
  double-precision arithmetic.
* `[...xs].sort((a, b) => a - b)` is the ascending numeric sort `sortAsc`.
* A `Set` is a duplicate-free list in insertion order.
* `Math.floor(Math.random() * len)` is an arbitrary index below `len`: the random source is
  a stream `rand : Nat → Nat`, and the call that reads stream position `pos` yields
  `rand pos % len`.
* A `NaN` produced by arithmetic is `none` of an `Option`; every comparison with it is false.
* Loops whose termination is not structural carry a fuel argument; running out of fuel is a
  separate outcome, and the theorems show that it does not occur once the fuel is large enough.
-/

namespace MillionaireMaker

/-! ## Data model -/

/-- The three keys of `gameProperties`. -/
inductive GameId
  | dailyGrand
  | lottoMax
  | lotto649
  deriving DecidableEq

/-- One entry of `gameProperties`. -/
structure GameInfo where
  standardSize : Nat
  range : Nat
  grandRange : Option Nat
  deriving DecidableEq

/-- The table `gameProperties`. -/
def gameProperties : GameId → GameInfo
  | .dailyGrand => { standardSize := 5, range := 49, grandRange := some 7 }
  | .lottoMax => { standardSize := 7, range := 50, grandRange := none }
  | .lotto649 => { standardSize := 6, range := 49, grandRange := none }

/-- A historical draw.  `date` is the instant `new Date(draw.date)` as a timestamp; a `grand`
or `bonus` that is `null` or `undefined` is `none`. -/
structure Draw where
  date : Int
  main : List Int
  grand : Option Int
  bonus : Option Int
  deriving DecidableEq

/-- The result `{ mean, stdDev }` of `calculateMeanAndStdDev`. -/
structure MeanStdDev where
  mean : ℚ
  stdDev : ℚ

/-- The value of `rankStats`: mean, standard deviation and the `rankMap`
(`rankMap.get(num)` is `rankMap num`, `undefined` being `none`). -/
structure RankStats where
  mean : ℚ
  stdDev : ℚ
  rankMap : Int → Option Nat

/-- One entry `{ min, max }` of `positionalStats.bounds`. -/
structure Bound where
  min : Int
  max : Int
  deriving DecidableEq

/-- The twelve filter toggles and the two similarity thresholds held in component state. -/
structure FilterConfig where
  filterLimitSequentials : Bool
  filterCheckSimilarity : Bool
  filterCheckBalance : Bool
  filterUseStatisticalSum : Bool
  filterUsePositional : Bool
  filterUseDelta : Bool
  filterUseLastDigits : Bool
  filterUseConsecutive : Bool
  filterUseNumberGroups : Bool
  filterUseDigitSum : Bool
  filterUseRankSum : Bool
  filterUseArithmetic : Bool
  similarityThreshold : ℚ
  recentSimilarityThreshold : ℚ

/-- The memoised statistics read by the filters; `none` is `null`. -/
structure Profile where
  sumStats : Option MeanStdDev
  digitSumStats : Option MeanStdDev
  rankStats : Option RankStats
  positionalBounds : Option (List Bound)
  deltaStats : Option MeanStdDev
  lastDigitStats : Option (List ℚ)

/-- The component state captured by `generateSinglePickSet`. -/
structure AppState where
  selectedGame : GameId
  validDraws : List Draw
  cfg : FilterConfig
  stats : Profile

/-- The object `{ main, grand }` returned by `generateSinglePickSet`; `grand` is `none` when
the property is not set. -/
structure Combination where
  main : List Int
  grand : Option Int
  deriving DecidableEq

/-! ## Helper functions -/

/-- Ascending numeric sort, `[...numbers].sort((a, b) => a - b)`. -/
def sortAsc (numbers : List Int) : List Int :=
  numbers.insertionSort (· ≤ ·)

/-- The `for` loop of `containsTooManySequentials`, entered with the current value of
`sequentialCount` and the part of `sortedNumbers` from index `i` on. -/
def sequentialLoop (maxSequential : Nat) : List Int → Nat → Bool
  | a :: b :: rest, sequentialCount =>
    let count := if b = a + 1 then sequentialCount + 1 else 0
    if maxSequential ≤ count then true
    else sequentialLoop maxSequential (b :: rest) count
  | _, _ => false

/-- Source function `containsTooManySequentials(numbers, maxSequential)`. -/
def containsTooManySequentials (numbers : List Int) (maxSequential : Nat) : Bool :=
  sequentialLoop maxSequential (sortAsc numbers) 0

/-- The `for` loop of `isArithmeticProgression` from index `i` on; the list starts at
`sorted[i - 1]`. -/
def progressionLoop (diff : Int) : List Int → Bool
  | a :: b :: rest =>
    if b - a ≠ diff then false else progressionLoop diff (b :: rest)
  | _ => true

/-- Source function `isArithmeticProgression(numbers)`. -/
def isArithmeticProgression (numbers : List Int) : Bool :=
  if numbers.length < 3 then false
  else
    match sortAsc numbers with
    | s0 :: s1 :: rest =>
      let diff := s1 - s0
      if diff ≤ 1 then false else progressionLoop diff (s1 :: rest)
    | _ => false

/-- The inner loop of `isTooSimilar`: the number of entries of `main` that are in the set of
generated numbers. -/
def matchCount (generatedNumbers : List Int) (main : List Int) : Nat :=
  main.foldl (fun count num => if generatedNumbers.contains num then count + 1 else count) 0

/-- The outer loop of `isTooSimilar` over the historical draws. -/
def similarLoop (generatedNumbers : List Int) (numToMatch : Int) : List Draw → Bool
  | [] => false
  | historicalDraw :: rest =>
    if numToMatch ≤ (matchCount generatedNumbers historicalDraw.main : Int) then true
    else similarLoop generatedNumbers numToMatch rest

/-- The value `Math.ceil(generatedNumbers.length * (similarityThresholdValue / 100))`. -/
def numToMatch (generatedNumbers : List Int) (similarityThresholdValue : ℚ) : Int :=
  ⌈(generatedNumbers.length : ℚ) * (similarityThresholdValue / 100)⌉

/-- Source function `isTooSimilar(generatedNumbers, historicalDraws, similarityThresholdValue)`. -/
def isTooSimilar (generatedNumbers : List Int) (historicalDraws : List Draw)
    (similarityThresholdValue : ℚ) : Bool :=
  if historicalDraws.length = 0 then false
  else similarLoop generatedNumbers (numToMatch generatedNumbers similarityThresholdValue)
    historicalDraws

/-! ## Filter predicates of the component -/

/-- Source function `isBalancedOddEven(numbers)`; `num % 2` is the truncating remainder. -/
def isBalancedOddEven (numbers : List Int) : Bool :=
  let numCount : ℚ := numbers.length
  let oddCount : Int := (numbers.filter (fun num => Int.tmod num 2 ≠ 0)).length
  let floor : Int := ⌊numCount / 2⌋ - 1
  let ceil : Int := ⌈numCount / 2⌉ + 1
  decide (floor ≤ oddCount) && decide (oddCount ≤ ceil)

/-- Source function `isBalancedHighLow(numbers, rangeMax)`. -/
def isBalancedHighLow (numbers : List Int) (rangeMax : Nat) : Bool :=
  let numCount : ℚ := numbers.length
  let midPoint : Int := ⌈(rangeMax : ℚ) / 2⌉
  let lowCount : Int := (numbers.filter (fun num => num ≤ midPoint)).length
  let floor : Int := ⌊numCount / 2⌋ - 1
  let ceil : Int := ⌈numCount / 2⌉ + 1
  decide (floor ≤ lowCount) && decide (lowCount ≤ ceil)

/-- The test `sum >= mean - 1.5 * stdDev && sum <= mean + 1.5 * stdDev`. -/
def withinBand (mean stdDev : ℚ) (sum : ℚ) : Bool :=
  let factor : ℚ := 3 / 2
  let min := mean - factor * stdDev
  let max := mean + factor * stdDev
  decide (min ≤ sum) && decide (sum ≤ max)

/-- Source function `isSumWithinRange(numbers)`, with the state it closes over. -/
def isSumWithinRange (filterUseStatisticalSum : Bool) (sumStats : Option MeanStdDev)
    (numbers : List Int) : Bool :=
  match filterUseStatisticalSum, sumStats with
  | true, some st =>
    let sum : Int := numbers.foldl (fun acc num => acc + num) 0
    withinBand st.mean st.stdDev sum
  | _, _ => true

/-- The digits of `num.toString().split('')` fed to `parseInt` and summed; the sign of a
negative number parses to `NaN`, which is `none`. -/
def digitSum (num : Int) : Option Nat :=
  if num < 0 then none
  else some (((Nat.toDigits 10 num.toNat).map (fun d => d.toNat - '0'.toNat)).foldl
    (fun s d => s + d) 0)

/-- The `reduce` of `isDigitSumWithinRange` over the numbers; `none` is `NaN`. -/
def digitSumTotal (numbers : List Int) : Option Nat :=
  numbers.foldl (fun acc num =>
    match acc, digitSum num with
    | some a, some d => some (a + d)
    | _, _ => none) (some 0)

/-- Source function `isDigitSumWithinRange(numbers)`, with the state it closes over. -/
def isDigitSumWithinRange (filterUseDigitSum : Bool) (digitSumStats : Option MeanStdDev)
    (numbers : List Int) : Bool :=
  match filterUseDigitSum, digitSumStats with
  | true, some st =>
    match digitSumTotal numbers with
    | some sum => withinBand st.mean st.stdDev sum
    | none => false
  | _, _ => true

/-- Source function `isRankSumWithinRange(numbers)`, with the state it closes over; a number
absent from `rankMap` counts `0`. -/
def isRankSumWithinRange (filterUseRankSum : Bool) (rankStats : Option RankStats)
    (numbers : List Int) : Bool :=
  match filterUseRankSum, rankStats with
  | true, some st =>
    let sum : Nat := numbers.foldl (fun acc num => acc + (st.rankMap num).getD 0) 0
    withinBand st.mean st.stdDev sum
  | _, _ => true

/-- The `for` loop of `isWithinPositionalBounds` over the sorted numbers and their bounds. -/
def boundsLoop : List Int → List Bound → Bool
  | num :: nums, b :: bs =>
    if num < b.min ∨ num > b.max then false else boundsLoop nums bs
  | _, _ => true

/-- Source function `isWithinPositionalBounds(numbers, bounds)`. -/
def isWithinPositionalBounds (numbers : List Int) (bounds : Option (List Bound)) : Bool :=
  match bounds with
  | none => true
  | some bs =>
    if numbers.length ≠ bs.length then true
    else boundsLoop (sortAsc numbers) bs

/-- The delta sum: the loop adding `sorted[i+1] - sorted[i]`. -/
def deltaSumLoop : List Int → Int → Int
  | a :: b :: rest, deltaSum => deltaSumLoop (b :: rest) (deltaSum + (b - a))
  | _, deltaSum => deltaSum

/-- Source function `isDeltaSumValid(numbers, stats)`. -/
def isDeltaSumValid (numbers : List Int) (stats : Option MeanStdDev) : Bool :=
  match stats with
  | none => true
  | some st => withinBand st.mean st.stdDev (deltaSumLoop (sortAsc numbers) 0)

/-- The statement `counts[d]++` on an array of counters: an index outside the array leaves
its elements unchanged. -/
def incrementAt (counts : List Nat) (d : Int) : List Nat :=
  if 0 ≤ d ∧ d < counts.length then counts.set d.toNat (counts.getD d.toNat 0 + 1)
  else counts

/-- The value `Math.max(...counts)`; `none` is the `-Infinity` of an empty argument list. -/
def mathMax : List Nat → Option Nat
  | [] => none
  | c :: cs => some (cs.foldl Nat.max c)

/-- Source function `hasValidLastDigitDistribution(numbers, stats)`. -/
def hasValidLastDigitDistribution (numbers : List Int) (stats : Option (List ℚ)) : Bool :=
  match stats with
  | none => true
  | some _ =>
    let lastDigits := numbers.map (fun n => Int.tmod n 10)
    let counts := lastDigits.foldl incrementAt (List.replicate 10 0)
    if (match mathMax counts with | some m => decide (3 < m) | none => false) then false
    else if ((lastDigits.dedup.length : ℚ) < (numbers.length : ℚ) / 2) then false
    else true

/-- Source function `hasValidConsecutiveRepeat(numbers, lastDrawNumbers)`, with the toggle it
closes over. -/
def hasValidConsecutiveRepeat (filterUseConsecutive : Bool) (numbers : List Int)
    (lastDrawNumbers : Option (List Int)) : Bool :=
  match filterUseConsecutive, lastDrawNumbers with
  | true, some lastDraw =>
    let repeatCount := (numbers.filter (fun n => lastDraw.contains n)).length
    decide (repeatCount ≤ 2)
  | _, _ => true

/-- Source function `hasValidNumberGroupDistribution(numbers, rangeMax)`, with the toggle it
closes over. -/
def hasValidNumberGroupDistribution (filterUseNumberGroups : Bool) (numbers : List Int)
    (rangeMax : Nat) : Bool :=
  if !filterUseNumberGroups then true
  else
    let groups := numbers.foldl
      (fun groups n =>
        let groupIndex : Int := ⌊((n : ℚ) - 1) / 10⌋
        if groupIndex < groups.length then incrementAt groups groupIndex else groups)
      (List.replicate (⌈(rangeMax : ℚ) / 10⌉).toNat 0)
    if (match mathMax groups with
        | some m => decide ((numbers.length : Int) - 1 ≤ m)
        | none => false) then false
    else if (match mathMax groups with | some m => decide (4 < m) | none => false) then false
    else true

/-! ## The combination generator -/

/-- The constant `maxAttempts` of `generateSinglePickSet`. -/
def maxAttempts : Nat := 5000

/-- The inner `while` loop of `generateSinglePickSet`, entered with the set `picks`, the array
`availableNumbers` and the position `pos` of the next unread random value.  It returns the
final `picks` with the position reached, or `none` when the fuel runs out. -/
def samplePicks (numCount : Nat) (rand : Nat → Nat) :
    Nat → List Int → List Int → Nat → Option (List Int × Nat)
  | 0, picks, availableNumbers, pos =>
    if picks.length < numCount ∧ 0 < availableNumbers.length then none
    else some (picks, pos)
  | fuel + 1, picks, availableNumbers, pos =>
    if h : picks.length < numCount ∧ 0 < availableNumbers.length then
      let newPick :=
        availableNumbers.get ⟨rand pos % availableNumbers.length, Nat.mod_lt _ h.2⟩
      if !picks.contains newPick then
        samplePicks numCount rand fuel (picks ++ [newPick])
          (availableNumbers.filter (fun num => num ≠ newPick)) (pos + 1)
      else samplePicks numCount rand fuel picks availableNumbers (pos + 1)
    else some (picks, pos)

/-- The condition of the `do ... while` loop of `generateSinglePickSet`: true when the
candidate is discarded and another attempt is made. -/
def loopCondition (s : AppState) (lastYearDraws olderDraws : List Draw)
    (lastDrawNumbers : Option (List Int)) (isOpposite : Bool)
    (currentMainPicks : List Int) : Bool :=
  let numCount := (gameProperties s.selectedGame).standardSize
  let rangeMax := (gameProperties s.selectedGame).range
  decide (currentMainPicks.length < numCount) ||
  (!isOpposite && s.cfg.filterUseArithmetic && isArithmeticProgression currentMainPicks) ||
  (!isOpposite && s.cfg.filterLimitSequentials &&
    containsTooManySequentials currentMainPicks 3) ||
  (!isOpposite && s.cfg.filterCheckBalance && !isBalancedOddEven currentMainPicks) ||
  (!isOpposite && s.cfg.filterCheckBalance && !isBalancedHighLow currentMainPicks rangeMax) ||
  (!isOpposite && s.cfg.filterCheckSimilarity &&
    (isTooSimilar currentMainPicks lastYearDraws s.cfg.recentSimilarityThreshold ||
      isTooSimilar currentMainPicks olderDraws s.cfg.similarityThreshold)) ||
  (!isOpposite &&
    !isSumWithinRange s.cfg.filterUseStatisticalSum s.stats.sumStats currentMainPicks) ||
  (!isOpposite &&
    !isDigitSumWithinRange s.cfg.filterUseDigitSum s.stats.digitSumStats currentMainPicks) ||
  (!isOpposite &&
    !isRankSumWithinRange s.cfg.filterUseRankSum s.stats.rankStats currentMainPicks) ||
  (!isOpposite && s.cfg.filterUsePositional &&
    !isWithinPositionalBounds currentMainPicks s.stats.positionalBounds) ||
  (!isOpposite && s.cfg.filterUseDelta && !isDeltaSumValid currentMainPicks s.stats.deltaStats) ||
  (!isOpposite && s.cfg.filterUseLastDigits &&
    !hasValidLastDigitDistribution currentMainPicks s.stats.lastDigitStats) ||
  (!isOpposite &&
    !hasValidConsecutiveRepeat s.cfg.filterUseConsecutive currentMainPicks lastDrawNumbers) ||
  (!isOpposite &&
    !hasValidNumberGroupDistribution s.cfg.filterUseNumberGroups currentMainPicks rangeMax)

/-- How the `do ... while` loop of `generateSinglePickSet` ends, with the values of `attempts`
and of the random position at that point. -/
inductive LoopExit
  | outOfFuel
  | returnedNull (attempts pos : Nat)
  | finished (currentMainPicks : List Int) (attempts pos : Nat)
  deriving DecidableEq

/-- The `do ... while` loop of `generateSinglePickSet`, entered with the current values of
`attempts` and of the random position. -/
def attemptLoop (s : AppState) (lastYearDraws olderDraws : List Draw)
    (lastDrawNumbers : Option (List Int)) (isOpposite : Bool) (initialNumberPool : List Int)
    (rand : Nat → Nat) (innerFuel : Nat) : Nat → Nat → Nat → LoopExit
  | 0, _, _ => .outOfFuel
  | fuel + 1, attempts, pos =>
    let numCount := (gameProperties s.selectedGame).standardSize
    let attempts := attempts + 1
    if attempts > maxAttempts then .returnedNull attempts pos
    else
      let availableNumbers := initialNumberPool
      if availableNumbers.length < numCount then .returnedNull attempts pos
      else
        match samplePicks numCount rand innerFuel [] availableNumbers pos with
        | none => .outOfFuel
        | some (picks, pos) =>
          let currentMainPicks := sortAsc picks
          if loopCondition s lastYearDraws olderDraws lastDrawNumbers isOpposite
              currentMainPicks then
            attemptLoop s lastYearDraws olderDraws lastDrawNumbers isOpposite
              initialNumberPool rand innerFuel fuel attempts pos
          else .finished currentMainPicks attempts pos

/-- The window `lastYearDraws` of `generateSinglePickSet`. -/
def lastYearDrawsOf (historyForGame : List Draw) (oneYearAgo : Int) : List Draw :=
  historyForGame.filter (fun draw => decide (oneYearAgo ≤ draw.date))

/-- The window `olderDraws` of `generateSinglePickSet`. -/
def olderDrawsOf (historyForGame : List Draw) (oneYearAgo twoYearsAgo : Int) : List Draw :=
  historyForGame.filter
    (fun draw => decide (twoYearsAgo ≤ draw.date) && decide (draw.date < oneYearAgo))

/-- The value `lastDrawNumbers` of `generateSinglePickSet`. -/
def lastDrawNumbersOf (historyForGame : List Draw) : Option (List Int) :=
  historyForGame.getLast?.map (fun draw => draw.main)

/-- The array `possibleGrandNumbers`. -/
def possibleGrandNumbers : List Int := [1, 2, 3, 4, 5, 6, 7]

/-- The grand number chosen at the end of `generateSinglePickSet`.  The entries of
`lastThreeGrandNumbers` that are `null` are never equal to a possible grand number, like the
`undefined` ones that the source filters out. -/
def pickGrandNumber (historyForGame : List Draw) (rand : Nat → Nat) (pos : Nat) : Option Int :=
  let lastThreeGrandNumbers : List (Option Int) :=
    (historyForGame.drop (historyForGame.length - 3)).map (fun draw => draw.grand)
  let filtered := possibleGrandNumbers.filter
    (fun num => !lastThreeGrandNumbers.contains (some num))
  let availableGrandNumbers := if filtered.length = 0 then possibleGrandNumbers else filtered
  let randomIndex := rand pos % availableGrandNumbers.length
  availableGrandNumbers.get? randomIndex

/-- Source function `generateSinglePickSet(isOpposite, overridePool)`.  The instants
`oneYearAgo` and `twoYearsAgo` are read from the clock.  The result is `none` when a loop ran
out of fuel, `some none` when the function returns `null`, and `some (some c)` when it returns
the combination `c`. -/
def generateSinglePickSet (s : AppState) (oneYearAgo twoYearsAgo : Int) (rand : Nat → Nat)
    (outerFuel innerFuel : Nat) (isOpposite : Bool) (overridePool : List Int) :
    Option (Option Combination) :=
  let numCount := (gameProperties s.selectedGame).standardSize
  let historyForGame := s.validDraws
  let isDailyGrand := decide (s.selectedGame = GameId.dailyGrand)
  if historyForGame.length = 0 then some none
  else
    let lastYearDraws := lastYearDrawsOf historyForGame oneYearAgo
    let olderDraws := olderDrawsOf historyForGame oneYearAgo twoYearsAgo
    let lastDrawNumbers := lastDrawNumbersOf historyForGame
    match attemptLoop s lastYearDraws olderDraws lastDrawNumbers isOpposite overridePool rand
        innerFuel outerFuel 0 0 with
    | .outOfFuel => none
    | .returnedNull _ _ => some none
    | .finished currentMainPicks _ pos =>
      if currentMainPicks.length < numCount then some none
      else if isDailyGrand then
        some (some { main := currentMainPicks, grand := pickGrandNumber historyForGame rand pos })
      else some (some { main := currentMainPicks, grand := none })

/-! ## Candidates of successive attempts -/

/-- The random position at which attempt number `i` (counted from `0`) starts sampling, when
all earlier attempts were discarded. -/
def attemptStart (numCount : Nat) (pool : List Int) (rand : Nat → Nat) (innerFuel : Nat) :
    Nat → Nat
  | 0 => 0
  | i + 1 =>
    match samplePicks numCount rand innerFuel [] pool
        (attemptStart numCount pool rand innerFuel i) with
    | some (_, pos) => pos
    | none => attemptStart numCount pool rand innerFuel i

/-- The candidate combination evaluated by attempt number `i` (counted from `0`), when all
earlier attempts were discarded. -/
def candidate (numCount : Nat) (pool : List Int) (rand : Nat → Nat) (innerFuel : Nat)
    (i : Nat) : List Int :=
  match samplePicks numCount rand innerFuel [] pool
      (attemptStart numCount pool rand innerFuel i) with
  | some (picks, _) => sortAsc picks
  | none => []

/-! ## Concrete states and inputs -/

/-- All twelve toggles on, with the initial thresholds 60 and 49 of the component. -/
def allFiltersOn : FilterConfig :=
  { filterLimitSequentials := true, filterCheckSimilarity := true, filterCheckBalance := true,
    filterUseStatisticalSum := true, filterUsePositional := true, filterUseDelta := true,
    filterUseLastDigits := true, filterUseConsecutive := true, filterUseNumberGroups := true,
    filterUseDigitSum := true, filterUseRankSum := true, filterUseArithmetic := true,
    similarityThreshold := 60, recentSimilarityThreshold := 49 }

/-- The statistics of a history of fewer than 10 draws: all absent. -/
def noStatistics : Profile :=
  { sumStats := none, digitSumStats := none, rankStats := none, positionalBounds := none,
    deltaStats := none, lastDigitStats := none }

/-- The full pool `1..49`. -/
def fullPool49 : List Int := (List.range 49).map (fun i => (i : Int) + 1)

/-- The 6-of-49 game with no historical draw and every toggle on. -/
def emptyHistoryState : AppState :=
  { selectedGame := .lotto649, validDraws := [], cfg := allFiltersOn, stats := noStatistics }

/-- The 6-of-49 game with the single historical draw `1 2 3 4 5 6` and every toggle on. -/
def singleDrawState (date : Int) : AppState :=
  { selectedGame := .lotto649
    validDraws := [{ date := date, main := [1, 2, 3, 4, 5, 6], grand := none, bonus := none }]
    cfg := allFiltersOn
    stats := noStatistics }

/-- A sequence of random choices that picks `3 11 18 26 34 47` from the full pool. -/
def sampleChoices : Nat → Nat := fun i => [2, 9, 15, 22, 29, 41].getD i 0

/-- The daily-grand game with two historical draws and every toggle on. -/
def dailyGrandState : AppState :=
  { selectedGame := .dailyGrand
    validDraws :=
      [{ date := 10, main := [4, 9, 21, 30, 44], grand := some 2, bonus := none },
       { date := 20, main := [7, 15, 22, 38, 41], grand := some 5, bonus := none }]
    cfg := allFiltersOn
    stats := noStatistics }

/-! ## Double-precision arithmetic

A finite double is modelled by the rational number that it denotes, and an arithmetic operation
on doubles by the exact operation followed by `toDouble`, the rounding to the nearest double
with ties going to the even significand (IEEE 754 binary64, 53 significant bits).  Overflow,
subnormal numbers, infinities and `NaN` do not occur in the computations that use these
operations; a division by zero, which has the value `0` here, does not occur either. -/

/-- The number of times that `n` can be halved before it falls below 2, which is
`floor(log2 n)` for `n ≥ 1`; the first argument bounds the number of halvings and is always
taken large enough. -/
def log2Floor : Nat → Nat → Nat
  | 0, _ => 0
  | fuel + 1, n => if n < 2 then 0 else log2Floor fuel (n / 2) + 1

/-- The binary exponent of a positive rational `x`: the integer `e` with
`2 ^ e ≤ x < 2 ^ (e + 1)`. -/
def binaryExponent (x : ℚ) : Int :=
  if 1 ≤ x then (log2Floor ⌊x⌋.toNat ⌊x⌋.toNat : Nat)
  else
    let m : Nat := ⌈1 / x⌉.toNat
    let c : Nat := if m ≤ 1 then 0 else log2Floor (m - 1) (m - 1) + 1
    Int.negOfNat c

/-- The spacing `2 ^ (e - 52)` of the doubles with binary exponent `e`. -/
def ulp (e : Int) : ℚ :=
  if 52 ≤ e then ((2 ^ (e - 52).toNat : Nat) : ℚ) else 1 / ((2 ^ (52 - e).toNat : Nat) : ℚ)

/-- The integer nearest to `x`, the even one of the two when `x` lies half-way. -/
def roundHalfEven (x : ℚ) : Int :=
  if x - (⌊x⌋ : ℚ) < 1 / 2 then ⌊x⌋
  else if 1 / 2 < x - (⌊x⌋ : ℚ) then ⌊x⌋ + 1
  else if ⌊x⌋ % 2 = 0 then ⌊x⌋ else ⌊x⌋ + 1

/-- The double nearest to the rational `x`. -/
def toDouble (x : ℚ) : ℚ :=
  if x = 0 then 0
  else (roundHalfEven (x / ulp (binaryExponent |x|)) : ℚ) * ulp (binaryExponent |x|)

/-- The operator `+` on doubles. -/
def doubleAdd (a b : ℚ) : ℚ := toDouble (a + b)

/-- The operator `-` on doubles. -/
def doubleSub (a b : ℚ) : ℚ := toDouble (a - b)

/-- The operator `*` on doubles. -/
def doubleMul (a b : ℚ) : ℚ := toDouble (a * b)

/-- The operator `/` on doubles. -/
def doubleDiv (a b : ℚ) : ℚ := toDouble (a / b)

/-! ## The statistical profile

The values `gameProperties[selectedGame].range` and `.standardSize` are passed as `range` and
`standardSize`.  `Math.sqrt` is the parameter `sqrt`.  The function `calculateFrequencies` is
not part of the source files; the table it returns is the parameter `frequencies`, where
`frequencies[num]` is `frequencies num` and `undefined` is `none`. -/

/-- Source function `calculateMeanAndStdDev(arr)`, returning the pair `(mean, stdDev)`, over
any field of numbers with a square-root function. -/
def calculateMeanAndStdDev {K : Type} [Field K] (sqrt : K → K) (arr : List K) : K × K :=
  if arr.length = 0 then (0, 0)
  else
    let mean := arr.foldl (fun acc val => acc + val) 0 / (arr.length : K)
    let stdDev := sqrt (arr.foldl (fun acc val => acc + (val - mean) ^ 2) 0 / (arr.length : K))
    (mean, stdDev)

/-- The object `{ mean, stdDev }` made of a result of `calculateMeanAndStdDev`. -/
def toMeanStdDev (r : ℚ × ℚ) : MeanStdDev :=
  { mean := r.1, stdDev := r.2 }

/-- The array `Array.from({ length: range }, (_, i) => i + 1)`. -/
def allNumbers (range : Nat) : List Int :=
  (List.range range).map (fun i : Nat => (i : Int) + 1)

/-- The memo `validDraws`: the rows of `historicalData[selectedGame]` (`none` when it is
`undefined`) whose `main` has at least `standardSize` entries, in a stable ascending sort by
date.  A `main` array is always truthy. -/
def validDraws (historyForGame : Option (List Draw)) (standardSize : Nat) : List Draw :=
  match historyForGame with
  | none => []
  | some history =>
    if history.length = 0 then []
    else
      (history.filter (fun d => decide (standardSize ≤ d.main.length))).insertionSort
        (fun a b => a.date ≤ b.date)

/-- The memo `sumStats`. -/
def sumStats (sqrt : ℚ → ℚ) (validDraws : List Draw) : Option MeanStdDev :=
  if validDraws.length < 10 then none
  else
    let sums : List ℚ :=
      validDraws.map (fun draw : Draw =>
        ((draw.main.foldl (fun acc num => acc + num) 0 : Int) : ℚ))
    some (toMeanStdDev (calculateMeanAndStdDev sqrt sums))

/-- The memo `digitSumStats`.  The result `none` is `null`; `some none` is the object whose
`mean` and `stdDev` are `NaN`, which arises when the digit sum of some draw is `NaN`. -/
def digitSumStats (sqrt : ℚ → ℚ) (validDraws : List Draw) : Option (Option MeanStdDev) :=
  if validDraws.length < 10 then none
  else
    let sums : List (Option Nat) := validDraws.map (fun draw => digitSumTotal draw.main)
    if sums.all (fun x => x.isSome) then
      some (some (toMeanStdDev
        (calculateMeanAndStdDev sqrt (sums.map (fun x : Option Nat => ((x.getD 0 : Nat) : ℚ))))))
    else some none

/-- The loop `rankedNumbers.forEach((item, index) => rankMap.set(item.num, index + 1))` on an
empty `Map`. -/
def buildRankMap (rankedNumbers : List (Int × Nat)) : Int → Option Nat :=
  rankedNumbers.enum.foldl
    (fun rankMap entry => Function.update rankMap entry.2.1 (some (entry.1 + 1)))
    (fun _ => none)

/-- The array `rankedNumbers` of the memo `rankStats`: the pairs `{ num, freq }` of the numbers
`1..range` in a stable sort by descending frequency. -/
def rankedNumbers (frequencies : Int → Option Nat) (range : Nat) : List (Int × Nat) :=
  ((allNumbers range).map (fun num => (num, (frequencies num).getD 0))).insertionSort
    (fun a b => b.2 ≤ a.2)

/-- The value `rankMap.get(num) || range`. -/
def rankOrDefault (rankMap : Int → Option Nat) (range : Nat) (num : Int) : Nat :=
  match rankMap num with
  | some r => if r = 0 then range else r
  | none => range

/-- The memo `rankStats`. -/
def rankStats (sqrt : ℚ → ℚ) (frequencies : Int → Option Nat) (range : Nat)
    (validDraws : List Draw) : Option RankStats :=
  if validDraws.length < 10 then none
  else
    let rankMap := buildRankMap (rankedNumbers frequencies range)
    let rankSums : List ℚ := validDraws.map (fun draw : Draw =>
      ((draw.main.foldl (fun acc num => acc + rankOrDefault rankMap range num) 0 : Nat) : ℚ))
    let stats := calculateMeanAndStdDev sqrt rankSums
    some { mean := stats.1, stdDev := stats.2, rankMap := rankMap }

/-- The value `{ bounds, averages }` of the memo `positionalStats`. -/
structure PositionalStats where
  bounds : Option (List Bound)
  averages : Option (List ℚ)

/-- The statement `positions[index].push(num)`; `none` is the `TypeError` raised when
`positions[index]` is `undefined`. -/
def pushAt (positions : List (List Int)) (index : Nat) (num : Int) :
    Option (List (List Int)) :=
  if index < positions.length then
    some (positions.set index (positions.getD index [] ++ [num]))
  else none

/-- The statements `averages[num].sum += index + 1; averages[num].count++`; `none` is the
`TypeError` raised when `averages[num]` is `undefined`. -/
def addPosition (averages : List (Nat × Nat)) (num : Int) (index : Nat) :
    Option (List (Nat × Nat)) :=
  if 0 ≤ num ∧ num < averages.length then
    let d := averages.getD num.toNat (0, 0)
    some (averages.set num.toNat (d.1 + (index + 1), d.2 + 1))
  else none

/-- The value `Math.round(x)`. -/
def mathRound (x : ℚ) : Int :=
  ⌊x + 1 / 2⌋

/-- The memo `positionalStats`; `none` is a `TypeError` raised during its computation. -/
def positionalStats (sqrt : ℚ → ℚ) (standardSize range : Nat) (validDraws : List Draw) :
    Option PositionalStats :=
  if validDraws.length < 10 then some { bounds := none, averages := none }
  else do
    let positions ← validDraws.foldlM
      (fun positions draw =>
        (sortAsc draw.main).enum.foldlM
          (fun positions entry => pushAt positions entry.1 entry.2) positions)
      (List.replicate standardSize ([] : List Int))
    let averages ← validDraws.foldlM
      (fun averages draw =>
        (sortAsc draw.main).enum.foldlM
          (fun averages entry => addPosition averages entry.2 entry.1) averages)
      (List.replicate (range + 1) ((0, 0) : Nat × Nat))
    let finalAverages : List ℚ :=
      averages.map (fun d : Nat × Nat => if d.2 > 0 then (d.1 : ℚ) / (d.2 : ℚ) else 0)
    let bounds := positions.map (fun posArr =>
      let stats := calculateMeanAndStdDev sqrt (posArr.map (fun num : Int => (num : ℚ)))
      let factor : ℚ := 3 / 2
      ({ min := mathRound (stats.1 - factor * stats.2),
         max := mathRound (stats.1 + factor * stats.2) } : Bound))
    pure { bounds := some bounds, averages := some finalAverages }

/-- The memo `deltaStats`. -/
def deltaStats (sqrt : ℚ → ℚ) (validDraws : List Draw) : Option MeanStdDev :=
  if validDraws.length < 10 then none
  else
    let deltaSums : List ℚ :=
      validDraws.map (fun draw : Draw => ((deltaSumLoop (sortAsc draw.main) 0 : Int) : ℚ))
    some (toMeanStdDev (calculateMeanAndStdDev sqrt deltaSums))

/-- The memo `lastDigitStats`. -/
def lastDigitStats (standardSize : Nat) (validDraws : List Draw) : Option (List ℚ) :=
  if validDraws.length < 10 then none
  else
    let lastDigitCounts := validDraws.foldl
      (fun counts draw => draw.main.foldl (fun counts num => incrementAt counts (Int.tmod num 10))
        counts)
      (List.replicate 10 0)
    let totalDigits : ℚ := ((validDraws.length * standardSize : Nat) : ℚ)
    some (lastDigitCounts.map (fun count : Nat => (count : ℚ) / totalDigits))

/-- The value `{ hot, cold }` of the memo `hotColdNumbers`. -/
structure HotCold where
  hot : List Int
  cold : List Int
  deriving DecidableEq

/-- The array `hotColdCounts` of the memo `hotColdNumbers` after the counting loop over
`recentDraws`. -/
def hotColdCounts (range : Nat) (recentDraws : List Draw) : List Nat :=
  recentDraws.foldl (fun counts draw => draw.main.foldl incrementAt counts)
    (List.replicate (range + 1) 0)

/-- The array `numberData` of the memo `hotColdNumbers` after its sort: the pairs
`{ num, count }` of the numbers `1..range` in a stable sort by descending count. -/
def numberData (range : Nat) (recentDraws : List Draw) : List (Int × Nat) :=
  ((allNumbers range).map
    (fun num => (num, (hotColdCounts range recentDraws).getD num.toNat 0))).insertionSort
    (fun a b => b.2 ≤ a.2)

/-- The value `Math.floor(allNumbers.length * 0.2)`. -/
def hotCount (range : Nat) : Nat :=
  (⌊((allNumbers range).length : ℚ) * (2 / 10)⌋).toNat

/-- The memo `hotColdNumbers`.  When `hotCount` is `0`, `slice(-hotCount)` is `slice(0)`, the
whole array. -/
def hotColdNumbers (range : Nat) (validDraws : List Draw) : HotCold :=
  if validDraws.length < 20 then { hot := [], cold := [] }
  else
    let recentDraws := validDraws.drop (validDraws.length - 20)
    let numberData := numberData range recentDraws
    let hotCount := hotCount range
    { hot := (numberData.take hotCount).map (fun d => d.1)
      cold := (if hotCount = 0 then numberData
        else numberData.drop (numberData.length - hotCount)).map (fun d => d.1) }

/-- The value `{ avgGaps, currentGaps }` of the memo `gapStats`; an entry that is `undefined`
is an index past the end of the list. -/
structure GapStats where
  avgGaps : List ℚ
  currentGaps : List ℚ

/-- The value `finalScore` that the memo `dynamicWeightedPool` gives to `num`, computed in
doubles as `(rankScore * 0.5) + (hotColdScore * 0.2) + (dueScore * 0.3)`; the literals `0.5`
and `1.5` are doubles, `0.2` and `0.3` are rounded to doubles.  A comparison with `undefined`
is false. -/
def finalScore (range : Nat) (rankMap : Int → Option Nat) (hot cold : List Int)
    (gapStats : GapStats) (num : Int) : ℚ :=
  let rankScore : ℚ := doubleSub 1 (doubleDiv (rankOrDefault rankMap range num : ℚ) (range : ℚ))
  let hotColdScore : ℚ :=
    if hot.contains num then 1 / 2 else if cold.contains num then -1 / 2 else 0
  let dueScore : ℚ :=
    match gapStats.currentGaps.get? num.toNat, gapStats.avgGaps.get? num.toNat with
    | some current, some avg => if doubleMul avg (3 / 2) < current then 1 else 0
    | _, _ => 0
  doubleAdd
    (doubleAdd (doubleMul rankScore (1 / 2)) (doubleMul hotColdScore (toDouble (2 / 10))))
    (doubleMul dueScore (toDouble (3 / 10)))

/-- The memo `dynamicWeightedPool`.  The values `hotColdNumbers` and `gapStats` are objects,
hence truthy. -/
def dynamicWeightedPool (range : Nat) (rankStats : Option RankStats)
    (hotColdNumbers : HotCold) (gapStats : GapStats) : List Int :=
  match rankStats with
  | none => []
  | some rs =>
    let scores := (allNumbers range).map (fun num =>
      (num, finalScore range rs.rankMap hotColdNumbers.hot hotColdNumbers.cold gapStats num))
    (scores.insertionSort (fun a b => b.2 ≤ a.2)).map (fun s => s.1)

/-! ## The pool of `handleGenerateFilteredSamples` -/

/-- The state `poolStrategy`: `'dynamic'` or anything else. -/
inductive PoolStrategy
  | dynamic
  | frequency
  deriving DecidableEq

/-- The frequency-strategy pool: the numbers `1..range` in a stable sort by ascending
frequency, cut to `poolSize`. -/
def frequencyPool (frequencies : Int → Option Nat) (range poolSize : Nat) : List Int :=
  let allNumbersWithFreq := ((allNumbers range).map
    (fun num => (num, (frequencies num).getD 0))).insertionSort (fun a b => a.2 ≤ b.2)
  (allNumbersWithFreq.take poolSize).map (fun item => item.1)

/-- The array `poolToUse` of `handleGenerateFilteredSamples`. -/
def poolToUse (poolStrategy : PoolStrategy) (poolSize : Nat) (dynamicWeightedPool : List Int)
    (frequencies : Int → Option Nat) (range : Nat) : List Int :=
  match poolStrategy with
  | .dynamic => dynamicWeightedPool.take poolSize
  | .frequency => frequencyPool frequencies range poolSize

/-- The test `poolToUse.length < standardSize` on which `handleGenerateFilteredSamples` stops
with the message that the pool is too small. -/
def poolTooSmall (poolToUse : List Int) (standardSize : Nat) : Bool :=
  decide (poolToUse.length < standardSize)

/-- The predicate `isDigitSumWithinRange` applied to a value of the memo `digitSumStats`:
against statistics that are `NaN` every comparison is false. -/
def isDigitSumWithinRangeOf (filterUseDigitSum : Bool) (stats : Option (Option MeanStdDev))
    (numbers : List Int) : Bool :=
  match stats with
  | none => isDigitSumWithinRange filterUseDigitSum none numbers
  | some none => !filterUseDigitSum
  | some (some st) => isDigitSumWithinRange filterUseDigitSum (some st) numbers

/-! ## Further concrete inputs -/

/-- Rank statistics over `1..49` in which the number `n` has rank `n`, with mean 150 and
standard deviation 10. -/
def sampleRankStats : RankStats :=
  { mean := 150, stdDev := 10
    rankMap := fun n => if 1 ≤ n ∧ n ≤ 49 then some n.toNat else none }

/-- Ten draws of the 6-of-49 game, one per day. -/
def tenDraws : List Draw :=
  (List.range 10).map (fun i : Nat =>
    ({ date := (i : Int), main := [(i : Int) + 1, 12, 23, 31, 40, 49 - (i : Int)],
       grand := none, bonus := none } : Draw))

/-- Twenty draws of the 6-of-49 game, one per day. -/
def twentyDraws : List Draw :=
  (List.range 20).map (fun i : Nat =>
    ({ date := (i : Int), main := [(i : Int) + 1, 22, 23, 31, 40, 49 - (i : Int)],
       grand := none, bonus := none } : Draw))

/-- A frequency table that knows the numbers `7` and `3` only. -/
def sampleFrequencies : Int → Option Nat :=
  fun n => if n = 7 then some 5 else if n = 3 then some 2 else none

/-- A row with 7 entries, a repeated number and the number 0. -/
def malformedRow : Draw :=
  { date := 1, main := [0, 1, 1, 2, 3, 4, 5], grand := none, bonus := none }

/-- Ten rows `0 10 20 30 40 45` of the 6-of-49 game, one per day; the number 0 can come from an
empty field, which `Number` turns into 0. -/
def tenRowsWithZero : List Draw :=
  (List.range 10).map (fun i : Nat =>
    ({ date := (i : Int), main := [0, 10, 20, 30, 40, 45], grand := none, bonus := none } : Draw))

/-! ## The binomial coefficient and the similarity percentage -/

/-- The variable `res` of `combinations(n, k)` after `k` passes of its loop
`for (let i = 1; i <= k; i++) res = res * (n - i + 1) / i`, every operation being the one on
doubles. -/
def combinationsLoop (n : Int) (k : Nat) : ℚ :=
  (List.range k).foldl
    (fun res j =>
      doubleDiv (doubleMul res (doubleAdd (doubleSub (n : ℚ) ((j + 1 : Nat) : ℚ)) 1))
        ((j + 1 : Nat) : ℚ))
    1

/-- The loop of `combinations(n, k)` carried out in exact arithmetic instead of doubles. -/
def exactCombinationsLoop (n : Int) (k : Nat) : ℚ :=
  (List.range k).foldl
    (fun res j => res * ((n : ℚ) - ((j + 1 : Nat) : ℚ) + 1) / ((j + 1 : Nat) : ℚ)) 1

/-- Source function `combinations(n, k)` on integers.  The halving `n / 2` of a double and the
difference `n - k` of two integers below `2 ^ 53` are exact. -/
def combinations (n k : Int) : Int :=
  if k < 0 ∨ k > n then 0
  else if k = 0 ∨ k = n then 1
  else
    let k : Int := if (k : ℚ) > (n : ℚ) / 2 then n - k else k
    mathRound (combinationsLoop n k.toNat)

/-- Source function `calculateSimilarity(numbers, historicalDraws)`.  With an empty `numbers`
every `matchCount` is 0 and `similarity` is `NaN`, which is never greater than
`maxSimilarity`; the quotient `0 / 0` of the rationals, `0`, is not greater either. -/
def calculateSimilarity (numbers : List Int) (historicalDraws : List Draw) : ℚ :=
  if historicalDraws.length = 0 then 0
  else
    historicalDraws.foldl
      (fun maxSimilarity historicalDraw =>
        let matchCount := (historicalDraw.main.filter (fun num => numbers.contains num)).length
        let similarity : ℚ := (matchCount : ℚ) / (numbers.length : ℚ) * 100
        if similarity > maxSimilarity then similarity else maxSimilarity)
      0

/-! ## Strategic auto-tune

The function `calculateFrequencies(draws, range)` is the parameter `calculateFrequencies`.
The callback that `handleStrategicAutoTune` passes to `setTimeout` is run at once. -/

/-- The value `hitTarget` of `handleStrategicAutoTune`. -/
def hitTarget : GameId → Nat
  | .dailyGrand => 3
  | .lotto649 => 4
  | .lottoMax => 4

/-- The array `validDraws.filter(d => new Date(d.date) < new Date(draw.date))`. -/
def historyBeforeDraw (validDraws : List Draw) (draw : Draw) : List Draw :=
  validDraws.filter (fun d => decide (d.date < draw.date))

/-- The array `recentDrawsToAnalyze`, `validDraws.slice(-10)`. -/
def recentDrawsToAnalyze (validDraws : List Draw) : List Draw :=
  validDraws.drop (validDraws.length - 10)

/-- The value of `successfulDrawsCount` after the `forEach` of Phase 1 for the pool size
`currentPoolSize`. -/
def successfulDrawsCount (calculateFrequencies : List Draw → Nat → Int → Option Nat)
    (selectedGame : GameId) (validDraws : List Draw) (currentPoolSize : Nat) : Nat :=
  let range := (gameProperties selectedGame).range
  (recentDrawsToAnalyze validDraws).foldl
    (fun successfulDrawsCount recentDraw =>
      let historyBeforeDraw := historyBeforeDraw validDraws recentDraw
      if historyBeforeDraw.length < 20 then successfulDrawsCount
      else
        let frequencies := calculateFrequencies historyBeforeDraw range
        let numberPool := frequencyPool frequencies range currentPoolSize
        let inPoolNumbers := recentDraw.main.filter (fun num => numberPool.contains num)
        if hitTarget selectedGame ≤ inPoolNumbers.length then successfulDrawsCount + 1
        else successfulDrawsCount)
    0

/-- The two variables that the loop of Phase 1 updates. -/
structure PoolSearch where
  bestPoolSizeForStrategy : Nat
  maxSuccessfulDraws : Int
  deriving DecidableEq

/-- One pass of the loop of Phase 1, the count of the pool size being
`successfulDrawsCount currentPoolSize`. -/
def poolSearchStep (successfulDrawsCount : Nat → Nat) (st : PoolSearch)
    (currentPoolSize : Nat) : PoolSearch :=
  if (successfulDrawsCount currentPoolSize : Int) > st.maxSuccessfulDraws then
    { bestPoolSizeForStrategy := currentPoolSize
      maxSuccessfulDraws := successfulDrawsCount currentPoolSize }
  else st

/-- The pool sizes scanned by the loop
`for (let currentPoolSize = standardSize; currentPoolSize <= range; currentPoolSize++)`. -/
def scannedPoolSizes (standardSize range : Nat) : List Nat :=
  List.range' standardSize (range + 1 - standardSize)

/-- The loop of Phase 1 after its first `passes` passes. -/
def poolSearchAfter (successfulDrawsCount : Nat → Nat) (standardSize range passes : Nat) :
    PoolSearch :=
  ((scannedPoolSizes standardSize range).take passes).foldl (poolSearchStep successfulDrawsCount)
    { bestPoolSizeForStrategy := range, maxSuccessfulDraws := -1 }

/-- The loop of Phase 1, run to its end. -/
def poolSearch (successfulDrawsCount : Nat → Nat) (standardSize range : Nat) : PoolSearch :=
  (scannedPoolSizes standardSize range).foldl (poolSearchStep successfulDrawsCount)
    { bestPoolSizeForStrategy := range, maxSuccessfulDraws := -1 }

/-- Phase 1 of `handleStrategicAutoTune`. -/
def autoTunePhase1 (calculateFrequencies : List Draw → Nat → Int → Option Nat)
    (s : AppState) : PoolSearch :=
  poolSearch (successfulDrawsCount calculateFrequencies s.selectedGame s.validDraws)
    (gameProperties s.selectedGame).standardSize (gameProperties s.selectedGame).range

/-- The array `successfulDrawsInFinalPool` of Phase 2. -/
def successfulDrawsInFinalPool (calculateFrequencies : List Draw → Nat → Int → Option Nat)
    (s : AppState) : List Draw :=
  let range := (gameProperties s.selectedGame).range
  let bestPoolSizeForStrategy := (autoTunePhase1 calculateFrequencies s).bestPoolSizeForStrategy
  let finalPoolFrequencies := calculateFrequencies s.validDraws range
  let finalNumberPool := frequencyPool finalPoolFrequencies range bestPoolSizeForStrategy
  (recentDrawsToAnalyze s.validDraws).filter (fun draw =>
    let hits := (draw.main.filter (fun num => finalNumberPool.contains num)).length
    decide (hitTarget s.selectedGame ≤ hits))

/-- The object `failedFilterCounts` of Phase 2. -/
structure FailedFilterCounts where
  sequential : Nat
  balance : Nat
  sum : Nat
  positional : Nat
  similarity : Nat
  delta : Nat
  lastDigit : Nat
  consecutive : Nat
  group : Nat
  digitSum : Nat
  rankSum : Nat
  arithmetic : Nat
  deriving DecidableEq

/-- The body of the `forEach` of Phase 2 that updates `failedFilterCounts` for one qualifying
draw. -/
def countFailedFilters (s : AppState) (oneYearAgo twoYearsAgo : Int)
    (failedFilterCounts : FailedFilterCounts) (draw : Draw) : FailedFilterCounts :=
  let range := (gameProperties s.selectedGame).range
  let historyBeforeDraw := historyBeforeDraw s.validDraws draw
  let lastYearDraws := lastYearDrawsOf historyBeforeDraw oneYearAgo
  let olderDraws := olderDrawsOf historyBeforeDraw oneYearAgo twoYearsAgo
  let lastDrawNumbers := lastDrawNumbersOf historyBeforeDraw
  { sequential := failedFilterCounts.sequential +
      (if containsTooManySequentials draw.main 3 then 1 else 0)
    balance := failedFilterCounts.balance +
      (if !isBalancedOddEven draw.main || !isBalancedHighLow draw.main range then 1 else 0)
    sum := failedFilterCounts.sum +
      (if !isSumWithinRange s.cfg.filterUseStatisticalSum s.stats.sumStats draw.main then 1
        else 0)
    positional := failedFilterCounts.positional +
      (if !isWithinPositionalBounds draw.main s.stats.positionalBounds then 1 else 0)
    similarity := failedFilterCounts.similarity +
      (if isTooSimilar draw.main lastYearDraws s.cfg.recentSimilarityThreshold ||
          isTooSimilar draw.main olderDraws s.cfg.similarityThreshold then 1 else 0)
    delta := failedFilterCounts.delta +
      (if !isDeltaSumValid draw.main s.stats.deltaStats then 1 else 0)
    lastDigit := failedFilterCounts.lastDigit +
      (if !hasValidLastDigitDistribution draw.main s.stats.lastDigitStats then 1 else 0)
    consecutive := failedFilterCounts.consecutive +
      (if !hasValidConsecutiveRepeat s.cfg.filterUseConsecutive draw.main lastDrawNumbers then 1
        else 0)
    group := failedFilterCounts.group +
      (if !hasValidNumberGroupDistribution s.cfg.filterUseNumberGroups draw.main range then 1
        else 0)
    digitSum := failedFilterCounts.digitSum +
      (if !isDigitSumWithinRange s.cfg.filterUseDigitSum s.stats.digitSumStats draw.main then 1
        else 0)
    rankSum := failedFilterCounts.rankSum +
      (if !isRankSumWithinRange s.cfg.filterUseRankSum s.stats.rankStats draw.main then 1
        else 0)
    arithmetic := failedFilterCounts.arithmetic +
      (if isArithmeticProgression draw.main then 1 else 0) }

/-- The object `failedFilterCounts` after the `forEach` of Phase 2 over the qualifying
draws. -/
def failedFilterCounts (calculateFrequencies : List Draw → Nat → Int → Option Nat)
    (s : AppState) (oneYearAgo twoYearsAgo : Int) : FailedFilterCounts :=
  (successfulDrawsInFinalPool calculateFrequencies s).foldl
    (countFailedFilters s oneYearAgo twoYearsAgo)
    { sequential := 0, balance := 0, sum := 0, positional := 0, similarity := 0, delta := 0,
      lastDigit := 0, consecutive := 0, group := 0, digitSum := 0, rankSum := 0,
      arithmetic := 0 }

/-- The test `(count / successfulDrawsInFinalPool.length) > failureThreshold`, with
`failureThreshold = 0.5`. -/
def exceedsFailureThreshold (count length : Nat) : Bool :=
  decide ((count : ℚ) / (length : ℚ) > 1 / 2)

/-- The toggles after the twelve conditional calls `setFilter...(false)` that end Phase 2;
`length` is `successfulDrawsInFinalPool.length`. -/
def disableFailingFilters (cfg : FilterConfig) (failedFilterCounts : FailedFilterCounts)
    (length : Nat) : FilterConfig :=
  if length > 0 then
    { cfg with
      filterLimitSequentials :=
        if exceedsFailureThreshold failedFilterCounts.sequential length then false
        else cfg.filterLimitSequentials
      filterCheckBalance :=
        if exceedsFailureThreshold failedFilterCounts.balance length then false
        else cfg.filterCheckBalance
      filterUseStatisticalSum :=
        if exceedsFailureThreshold failedFilterCounts.sum length then false
        else cfg.filterUseStatisticalSum
      filterUsePositional :=
        if exceedsFailureThreshold failedFilterCounts.positional length then false
        else cfg.filterUsePositional
      filterCheckSimilarity :=
        if exceedsFailureThreshold failedFilterCounts.similarity length then false
        else cfg.filterCheckSimilarity
      filterUseDelta :=
        if exceedsFailureThreshold failedFilterCounts.delta length then false
        else cfg.filterUseDelta
      filterUseLastDigits :=
        if exceedsFailureThreshold failedFilterCounts.lastDigit length then false
        else cfg.filterUseLastDigits
      filterUseConsecutive :=
        if exceedsFailureThreshold failedFilterCounts.consecutive length then false
        else cfg.filterUseConsecutive
      filterUseNumberGroups :=
        if exceedsFailureThreshold failedFilterCounts.group length then false
        else cfg.filterUseNumberGroups
      filterUseDigitSum :=
        if exceedsFailureThreshold failedFilterCounts.digitSum length then false
        else cfg.filterUseDigitSum
      filterUseRankSum :=
        if exceedsFailureThreshold failedFilterCounts.rankSum length then false
        else cfg.filterUseRankSum
      filterUseArithmetic :=
        if exceedsFailureThreshold failedFilterCounts.arithmetic length then false
        else cfg.filterUseArithmetic }
  else cfg

/-- Whether one of the twelve filter toggles is on. -/
def anyFilterEnabled (cfg : FilterConfig) : Bool :=
  cfg.filterLimitSequentials || cfg.filterCheckSimilarity || cfg.filterCheckBalance ||
    cfg.filterUseStatisticalSum || cfg.filterUsePositional || cfg.filterUseDelta ||
    cfg.filterUseLastDigits || cfg.filterUseConsecutive || cfg.filterUseNumberGroups ||
    cfg.filterUseDigitSum || cfg.filterUseRankSum || cfg.filterUseArithmetic

/-- The value `finalTickets`:
`Math.max(5, Math.min(50, Math.round(10 * (5 / (maxSuccessfulDraws || 1)))))`. -/
def finalTickets (maxSuccessfulDraws : Int) : Int :=
  let divisor : Int := if maxSuccessfulDraws = 0 then 1 else maxSuccessfulDraws
  let recommendedTickets := mathRound (10 * (5 / (divisor : ℚ)))
  max 5 (min 50 recommendedTickets)

/-- The state that a completed run of `handleStrategicAutoTune` sets: the toggles, `poolSize`
and `numSetsToGenerate`, with the value of `maxSuccessfulDraws` that its message reports. -/
structure AutoTuneResult where
  cfg : FilterConfig
  poolSize : Nat
  numSetsToGenerate : Int
  maxSuccessfulDraws : Int

/-- Source function `handleStrategicAutoTune()`.  The instants `oneYearAgo` and `twoYearsAgo`
are read from the clock.  The result is `none` when the function returns early with a message
and sets nothing. -/
def handleStrategicAutoTune (calculateFrequencies : List Draw → Nat → Int → Option Nat)
    (s : AppState) (oneYearAgo twoYearsAgo : Int) : Option AutoTuneResult :=
  if s.validDraws.length < 20 then none
  else if (recentDrawsToAnalyze s.validDraws).length < 10 then none
  else
    let phase1 := autoTunePhase1 calculateFrequencies s
    let successfulDrawsInFinalPool := successfulDrawsInFinalPool calculateFrequencies s
    let failedFilterCounts := failedFilterCounts calculateFrequencies s oneYearAgo twoYearsAgo
    some
      { cfg := disableFailingFilters s.cfg failedFilterCounts successfulDrawsInFinalPool.length
        poolSize := phase1.bestPoolSizeForStrategy
        numSetsToGenerate := finalTickets phase1.maxSuccessfulDraws
        maxSuccessfulDraws := phase1.maxSuccessfulDraws }

/-! ## Combination reduction analysis

The scoring model `aiModel` is outside the source files.  The array `aiProbabilities` that it
returns is an input, `none` when no model is loaded (`aiModel` is `null`); the computation of
the features fed to the model is not part of the embedding.  The order of `numberPool` after
the call `numberPool.sort(() => 0.5 - Math.random())` of pass `i` is the input `shuffled i`. -/

/-- The constant `sampleSize` of `handleCombinationReductionAnalysis`. -/
def sampleSize : Nat := 10000

/-- The object `eliminationCounts`. -/
structure EliminationCounts where
  sequential : Nat
  balance : Nat
  sum : Nat
  positional : Nat
  similarity : Nat
  delta : Nat
  lastDigit : Nat
  ai : Nat
  consecutive : Nat
  group : Nat
  digitSum : Nat
  rankSum : Nat
  arithmetic : Nat
  deriving DecidableEq

/-- The value `randomSet.reduce((prod, num) => prod * aiProbabilities[num - 1], 1)`; an index
outside the array reads `undefined` and makes the product `NaN`, which is `none`. -/
def comboProb (aiProbabilities : List ℚ) (randomSet : List Int) : Option ℚ :=
  randomSet.foldl
    (fun (prod : Option ℚ) (num : Int) =>
      match prod, (if 1 ≤ num then aiProbabilities.get? (num - 1).toNat else none) with
      | some p, some q => some (p * q)
      | _, _ => none)
    (some 1)

/-- The `if ... else if` chain of the sampling loop, which attributes `randomSet` to the first
test that it fails. -/
def countElimination (s : AppState) (lastYearDraws olderDraws : List Draw)
    (lastDrawNumbers : Option (List Int)) (aiProbabilities : Option (List ℚ))
    (eliminationCounts : EliminationCounts) (randomSet : List Int) : EliminationCounts :=
  let range := (gameProperties s.selectedGame).range
  if s.cfg.filterUseArithmetic && isArithmeticProgression randomSet then
    { eliminationCounts with arithmetic := eliminationCounts.arithmetic + 1 }
  else if s.cfg.filterLimitSequentials && containsTooManySequentials randomSet 3 then
    { eliminationCounts with sequential := eliminationCounts.sequential + 1 }
  else if s.cfg.filterCheckBalance &&
      (!isBalancedOddEven randomSet || !isBalancedHighLow randomSet range) then
    { eliminationCounts with balance := eliminationCounts.balance + 1 }
  else if s.cfg.filterUseStatisticalSum &&
      !isSumWithinRange s.cfg.filterUseStatisticalSum s.stats.sumStats randomSet then
    { eliminationCounts with sum := eliminationCounts.sum + 1 }
  else if s.cfg.filterUseDigitSum &&
      !isDigitSumWithinRange s.cfg.filterUseDigitSum s.stats.digitSumStats randomSet then
    { eliminationCounts with digitSum := eliminationCounts.digitSum + 1 }
  else if s.cfg.filterUseRankSum &&
      !isRankSumWithinRange s.cfg.filterUseRankSum s.stats.rankStats randomSet then
    { eliminationCounts with rankSum := eliminationCounts.rankSum + 1 }
  else if s.cfg.filterUsePositional &&
      !isWithinPositionalBounds randomSet s.stats.positionalBounds then
    { eliminationCounts with positional := eliminationCounts.positional + 1 }
  else if s.cfg.filterCheckSimilarity &&
      (isTooSimilar randomSet lastYearDraws s.cfg.recentSimilarityThreshold ||
        isTooSimilar randomSet olderDraws s.cfg.similarityThreshold) then
    { eliminationCounts with similarity := eliminationCounts.similarity + 1 }
  else if s.cfg.filterUseDelta && !isDeltaSumValid randomSet s.stats.deltaStats then
    { eliminationCounts with delta := eliminationCounts.delta + 1 }
  else if s.cfg.filterUseLastDigits &&
      !hasValidLastDigitDistribution randomSet s.stats.lastDigitStats then
    { eliminationCounts with lastDigit := eliminationCounts.lastDigit + 1 }
  else if s.cfg.filterUseConsecutive &&
      !hasValidConsecutiveRepeat s.cfg.filterUseConsecutive randomSet lastDrawNumbers then
    { eliminationCounts with consecutive := eliminationCounts.consecutive + 1 }
  else if s.cfg.filterUseNumberGroups &&
      !hasValidNumberGroupDistribution s.cfg.filterUseNumberGroups randomSet range then
    { eliminationCounts with group := eliminationCounts.group + 1 }
  else
    match aiProbabilities with
    | some probabilities =>
      let threshold : ℚ := 1 / 10 ^ 10
      if (match comboProb probabilities randomSet with
          | some p => decide (p < threshold)
          | none => false) then
        { eliminationCounts with ai := eliminationCounts.ai + 1 }
      else eliminationCounts
    | none => eliminationCounts

/-- The object `eliminationCounts` after `passes` passes of the sampling loop. -/
def eliminationCountsAfter (s : AppState) (oneYearAgo twoYearsAgo : Int)
    (aiProbabilities : Option (List ℚ)) (shuffled : Nat → List Int) (passes : Nat) :
    EliminationCounts :=
  let standardSize := (gameProperties s.selectedGame).standardSize
  let lastYearDraws := lastYearDrawsOf s.validDraws oneYearAgo
  let olderDraws := olderDrawsOf s.validDraws oneYearAgo twoYearsAgo
  let lastDrawNumbers := lastDrawNumbersOf s.validDraws
  (List.range passes).foldl
    (fun eliminationCounts i =>
      let randomSet := sortAsc ((shuffled i).take standardSize)
      countElimination s lastYearDraws olderDraws lastDrawNumbers aiProbabilities
        eliminationCounts randomSet)
    { sequential := 0, balance := 0, sum := 0, positional := 0, similarity := 0, delta := 0,
      lastDigit := 0, ai := 0, consecutive := 0, group := 0, digitSum := 0, rankSum := 0,
      arithmetic := 0 }

/-- One entry `{ filter, remaining }` of `analysisSteps`. -/
structure AnalysisStep where
  filter : String
  remaining : Int
  deriving DecidableEq

/-- The object passed to `setReductionAnalysis`. -/
structure ReductionAnalysis where
  initial : Int
  steps : List AnalysisStep
  final : Int
  eliminationPercent : ℚ
  deriving DecidableEq

/-- The closure `processFilter(filterName, count, isEnabled)`, acting on the pair of
`remainingCombs` and `analysisSteps`. -/
def processFilter (state : ℚ × List AnalysisStep) (call : String × Nat × Bool) :
    ℚ × List AnalysisStep :=
  if call.2.2 then
    let reduction := state.1 * ((call.2.1 : ℚ) / (sampleSize : ℚ))
    let remainingCombs := state.1 - reduction
    (remainingCombs, state.2 ++ [{ filter := call.1, remaining := mathRound remainingCombs }])
  else state

/-- The thirteen calls of `processFilter`, in the order of the source, each with its arguments
`(filterName, count, isEnabled)`; `aiModel` is the value `!!aiModel`. -/
def processFilterCalls (cfg : FilterConfig) (aiModel : Bool)
    (eliminationCounts : EliminationCounts) : List (String × Nat × Bool) :=
  [("Arithmetic", eliminationCounts.arithmetic, cfg.filterUseArithmetic),
   ("Sequential", eliminationCounts.sequential, cfg.filterLimitSequentials),
   ("Balance", eliminationCounts.balance, cfg.filterCheckBalance),
   ("Statistical Sum", eliminationCounts.sum, cfg.filterUseStatisticalSum),
   ("Sum of Digits", eliminationCounts.digitSum, cfg.filterUseDigitSum),
   ("Sum of Ranks", eliminationCounts.rankSum, cfg.filterUseRankSum),
   ("Positional", eliminationCounts.positional, cfg.filterUsePositional),
   ("Similarity", eliminationCounts.similarity, cfg.filterCheckSimilarity),
   ("Delta System", eliminationCounts.delta, cfg.filterUseDelta),
   ("Last Digits", eliminationCounts.lastDigit, cfg.filterUseLastDigits),
   ("Consecutive Repeats", eliminationCounts.consecutive, cfg.filterUseConsecutive),
   ("Number Groups", eliminationCounts.group, cfg.filterUseNumberGroups),
   ("AI Analysis", eliminationCounts.ai, aiModel)]

/-- The report built from `totalCombinations` and the final `eliminationCounts`.  The quotient
`remainingCombs / totalCombinations` is taken in the rationals; `totalCombinations` is positive
for the three games. -/
def reductionReport (totalCombinations : Int) (cfg : FilterConfig) (aiModel : Bool)
    (eliminationCounts : EliminationCounts) : ReductionAnalysis :=
  let final := (processFilterCalls cfg aiModel eliminationCounts).foldl processFilter
    ((totalCombinations : ℚ), [])
  { initial := totalCombinations
    steps := final.2
    final := mathRound final.1
    eliminationPercent := (1 - final.1 / (totalCombinations : ℚ)) * 100 }

/-- The number of samples that the sampling loop attributed to some test: the sum of the
thirteen counters of `eliminationCounts`. -/
def attributedSamples (eliminationCounts : EliminationCounts) : Nat :=
  eliminationCounts.sequential + eliminationCounts.balance + eliminationCounts.sum +
    eliminationCounts.positional + eliminationCounts.similarity + eliminationCounts.delta +
    eliminationCounts.lastDigit + eliminationCounts.ai + eliminationCounts.consecutive +
    eliminationCounts.group + eliminationCounts.digitSum + eliminationCounts.rankSum +
    eliminationCounts.arithmetic

/-- The samples attributed to a filter whose step is enabled: the sum of `count` over the
calls of `processFilter` with `isEnabled` true. -/
def attributedToEnabled (cfg : FilterConfig) (aiModel : Bool)
    (eliminationCounts : EliminationCounts) : Nat :=
  (((processFilterCalls cfg aiModel eliminationCounts).filter (fun call => call.2.2)).map
    (fun call => call.2.1)).sum

/-- Source function `handleCombinationReductionAnalysis()`.  The instants `oneYearAgo` and
`twoYearsAgo` are read from the clock.  The result is `none` when the function returns early
with a message; otherwise it is the object passed to `setReductionAnalysis`. -/
def handleCombinationReductionAnalysis (s : AppState) (oneYearAgo twoYearsAgo : Int)
    (aiProbabilities : Option (List ℚ)) (shuffled : Nat → List Int) :
    Option ReductionAnalysis :=
  if s.validDraws.length = 0 then none
  else
    let gameInfo := gameProperties s.selectedGame
    let totalCombinations := combinations gameInfo.range gameInfo.standardSize
    let eliminationCounts :=
      eliminationCountsAfter s oneYearAgo twoYearsAgo aiProbabilities shuffled sampleSize
    some (reductionReport totalCombinations s.cfg aiProbabilities.isSome eliminationCounts)

/-! ## The data endpoint of `src/backend/server.js`

`String.prototype.toLowerCase` is the parameter `toLowerCase`.  The database is the parameter
`runQuery`: for the SQL text passed to `pool.query` it gives the value `formattedData` made of
the rows returned, or `none` when the query or the formatting of its rows throws. -/

/-- The body of a response: `{ error: message }` or the array `formattedData`. -/
inductive ResponseBody (Payload : Type)
  | error (message : String)
  | data (formattedData : Payload)

/-- What one call of the handler does: the SQL texts passed to `pool.query`, and the status
and body of the response. -/
structure HandlerRun (Payload : Type) where
  queries : List String
  status : Nat
  body : ResponseBody Payload

/-- The array of table names that the handler accepts. -/
def tableNames : List String := ["lottomax", "lotto649", "dailygrand"]

/-- The handler of `GET /api/data/:game`, applied to the route parameter `game`. -/
def getData {Payload : Type} (toLowerCase : String → String)
    (runQuery : String → Option Payload) (game : String) : HandlerRun Payload :=
  let tableName := toLowerCase game
  if !tableNames.contains tableName then
    { queries := [], status := 400, body := .error "Invalid game specified." }
  else
    let text := "SELECT * FROM " ++ tableName ++ " ORDER BY draw_date ASC"
    match runQuery text with
    | some formattedData => { queries := [text], status := 200, body := .data formattedData }
    | none => { queries := [text], status := 500, body := .error "Database query failed" }

/-! ## Inputs of the auto-tune and of the reduction analysis -/

/-- Thirty draws of the 6-of-49 game, one per day. -/
def thirtyDraws : List Draw :=
  (List.range 30).map (fun i : Nat =>
    ({ date := (i : Int), main := [(i : Int) + 1, 32, 33, 41, 45, 49 - (i : Int) % 4],
       grand := none, bonus := none } : Draw))

/-- Only the arithmetic and the sequential toggle on. -/
def arithmeticAndSequentialOn : FilterConfig :=
  { filterLimitSequentials := true, filterCheckSimilarity := false, filterCheckBalance := false,
    filterUseStatisticalSum := false, filterUsePositional := false, filterUseDelta := false,
    filterUseLastDigits := false, filterUseConsecutive := false, filterUseNumberGroups := false,
    filterUseDigitSum := false, filterUseRankSum := false, filterUseArithmetic := true,
    similarityThreshold := 60, recentSimilarityThreshold := 49 }

/-- All twelve toggles off. -/
def allFiltersOff : FilterConfig :=
  { filterLimitSequentials := false, filterCheckSimilarity := false,
    filterCheckBalance := false, filterUseStatisticalSum := false,
    filterUsePositional := false, filterUseDelta := false, filterUseLastDigits := false,
    filterUseConsecutive := false, filterUseNumberGroups := false, filterUseDigitSum := false,
    filterUseRankSum := false, filterUseArithmetic := false,
    similarityThreshold := 60, recentSimilarityThreshold := 49 }

/-- The 6-of-49 game with the twenty draws `twentyDraws` and the given toggles.  The
statistics are left absent: they are read only by tests whose toggle is on, and the
configurations used with this state switch those toggles off. -/
def reductionState (cfg : FilterConfig) : AppState :=
  { selectedGame := .lotto649, validDraws := twentyDraws, cfg := cfg, stats := noStatistics }

/-- An order of `1..49` that starts with `5, 10, 15, 20, 25, 30`. -/
def progressionFirst : List Int :=
  [5, 10, 15, 20, 25, 30] ++
    (allNumbers 49).filter (fun n : Int => !decide (n ∈ ([5, 10, 15, 20, 25, 30] : List Int)))

/-- Shuffles that alternate between the ascending order `1, 2, ..., 49` and the order
`progressionFirst`. -/
def alternatingShuffles : Nat → List Int :=
  fun i => if i % 2 = 0 then allNumbers 49 else progressionFirst

/-- The array returned by a scoring model that gives every number of `1..49` the probability
`0.01`. -/
def lowProbabilities : List ℚ := List.replicate 49 (1 / 100)

/-- The 6-of-49 game with the valid draws of `thirtyDraws`, every toggle on and no
statistics. -/
def thirtyDrawsState : AppState :=
  { selectedGame := .lotto649, validDraws := validDraws (some thirtyDraws) 6,
    cfg := allFiltersOn, stats := noStatistics }

/-- A frequency table for the range `1..50` in which the number 2 has rank 4 and the number 1
has rank 14: the numbers 3, 4, 5 come first, then 2, then 6 to 14, then 1, then 41 to 49. -/
def tieFrequencies : Int → Option Nat :=
  fun n =>
    if 3 ≤ n ∧ n ≤ 5 then some 100
    else if n = 2 then some 90
    else if 6 ≤ n ∧ n ≤ 14 then some 80
    else if n = 1 then some 75
    else if 41 ≤ n ∧ n ≤ 49 then some 60
    else if 31 ≤ n ∧ n ≤ 40 then some 40
    else some 50

/-- Rank statistics of the range `1..50` whose rank map is built from `tieFrequencies`. -/
def tieRankStats : RankStats :=
  { mean := 180, stdDev := 30, rankMap := buildRankMap (rankedNumbers tieFrequencies 50) }

/-- Ten hot and ten cold numbers of the range `1..50`; the number 1 is hot, the number 2 is
neither. -/
def tieHotCold : HotCold :=
  { hot := [1, 41, 42, 43, 44, 45, 46, 47, 48, 49]
    cold := [31, 32, 33, 34, 35, 36, 37, 38, 39, 40] }

/-- Gaps of the range `1..50` in which no number is due. -/
def tieGapStats : GapStats :=
  { avgGaps := List.replicate 51 10, currentGaps := List.replicate 51 3 }

/-! ## Lemmas on sorting and the two pattern checks -/

theorem sortAsc_sorted (numbers : List Int) : (sortAsc numbers).Sorted (· ≤ ·) :=
  List.sorted_insertionSort _ numbers

theorem sortAsc_perm (numbers : List Int) : (sortAsc numbers).Perm numbers :=
  List.perm_insertionSort _ numbers

theorem sortAsc_length (numbers : List Int) : (sortAsc numbers).length = numbers.length :=
  (sortAsc_perm numbers).length_eq

theorem mem_sortAsc {numbers : List Int} {x : Int} : x ∈ sortAsc numbers ↔ x ∈ numbers :=
  (sortAsc_perm numbers).mem_iff

theorem sortAsc_eq_of_sorted {numbers s : List Int} (hp : s.Perm numbers)
    (hs : s.Sorted (· ≤ ·)) : sortAsc numbers = s :=
  List.eq_of_perm_of_sorted ((sortAsc_perm numbers).trans hp.symm) (sortAsc_sorted numbers) hs

theorem progressionLoop_iff (diff : Int) (l : List Int) :
    progressionLoop diff l = true ↔
      ∀ i, i + 1 < l.length → l.getD (i + 1) 0 - l.getD i 0 = diff := by
  induction l with
  | nil => simp [progressionLoop]
  | cons a t ih =>
    cases t with
    | nil => simp [progressionLoop]
    | cons b rest =>
      rw [progressionLoop]
      by_cases hd : b - a = diff
      · simp only [hd, ne_eq, not_true_eq_false, if_false, ih]
        constructor
        · intro h i hi
          cases i with
          | zero => simpa using hd
          | succ j =>
            have := h j (by simpa using hi)
            simpa using this
        · intro h j hj
          have := h (j + 1) (by simpa using hj)
          simpa using this
      · simp only [ne_eq, hd, not_false_eq_true, if_true]
        constructor
        · intro h; cases h
        · intro h
          exact absurd (by simpa using h 0 (by simp)) hd

theorem isArithmeticProgression_eq_true_iff (numbers : List Int) :
    isArithmeticProgression numbers = true ↔
      3 ≤ numbers.length ∧
      (∀ i, i + 1 < (sortAsc numbers).length →
        (sortAsc numbers).getD (i + 1) 0 - (sortAsc numbers).getD i 0 =
          (sortAsc numbers).getD 1 0 - (sortAsc numbers).getD 0 0) ∧
      1 < (sortAsc numbers).getD 1 0 - (sortAsc numbers).getD 0 0 := by
  unfold isArithmeticProgression
  by_cases hlen : numbers.length < 3
  · simp only [hlen, if_true]
    constructor
    · intro h; cases h
    · rintro ⟨h, -⟩; omega
  · have hl := sortAsc_length numbers
    simp only [hlen, if_false]
    match hs : sortAsc numbers with
    | [] => rw [hs] at hl; simp at hl; omega
    | [_] => rw [hs] at hl; simp at hl; omega
    | s0 :: s1 :: rest =>
      simp only []
      by_cases hd : s1 - s0 ≤ 1
      · simp only [hd, if_true]
        constructor
        · intro h; cases h
        · rintro ⟨-, -, h⟩
          simp at h; omega
      · simp only [hd, if_false, progressionLoop_iff]
        constructor
        · intro h
          refine ⟨by omega, ?_, by simp; omega⟩
          intro i hi
          cases i with
          | zero => simp
          | succ j =>
            have := h j (by simpa using hi)
            simpa using this
        · rintro ⟨-, h, -⟩ j hj
          have := h (j + 1) (by simpa using hj)
          simpa using this

theorem progression_sorted (a d : Int) (n : Nat) (hd : 0 ≤ d) :
    ((List.range n).map (fun i : Nat => a + d * (i : Int))).Sorted (· ≤ ·) := by
  unfold List.Sorted
  rw [List.pairwise_map]
  refine (List.pairwise_lt_range n).imp ?_
  intro i j hij
  have : (i : Int) ≤ j := by exact_mod_cast hij.le
  nlinarith

theorem progression_getD (a d : Int) (n i : Nat) (hi : i < n) :
    ((List.range n).map (fun i : Nat => a + d * (i : Int))).getD i 0 = a + d * (i : Int) := by
  simp [List.getD_eq_getElem?_getD, hi]

/-- Membership in the run of already counted numbers `a - count, ..., a` or in the rest. -/
theorem sequentialLoop_iff (m : Nat) (hm : 1 ≤ m) (rest : List Int) :
    ∀ (a : Int) (count : Nat), count < m → (a :: rest).Sorted (· < ·) →
      (sequentialLoop m (a :: rest) count = true ↔
        ∃ n : Int, ∀ j : Nat, j ≤ m →
          ((a - (count : Int) ≤ n + (j : Int) ∧ n + (j : Int) ≤ a) ∨ n + (j : Int) ∈ rest)) := by
  induction rest with
  | nil =>
    intro a count hc _
    simp only [sequentialLoop, List.not_mem_nil, or_false]
    constructor
    · intro h; cases h
    · rintro ⟨n, hn⟩
      have h0 := hn 0 (Nat.zero_le _)
      have h1 := hn m le_rfl
      simp at h0
      omega
  | cons b rest ih =>
    intro a count hc hs
    have hab : a < b := by
      have := List.rel_of_sorted_cons hs b (List.mem_cons_self _ _)
      exact this
    have hs' : (b :: rest).Sorted (· < ·) := hs.of_cons
    have hrest : ∀ x ∈ rest, b < x := fun x hx => List.rel_of_sorted_cons hs' x hx
    rw [sequentialLoop]
    by_cases hb : b = a + 1
    · simp only [hb, if_true]
      by_cases hmc : m ≤ count + 1
      · simp only [hmc, if_true, true_iff]
        refine ⟨a - (count : Int), fun j hj => ?_⟩
        by_cases hj' : j ≤ count
        · left; omega
        · right
          have : a - (count : Int) + (j : Int) = a + 1 := by omega
          rw [this]; exact List.mem_cons_self _ _
      · simp only [hmc, if_false]
        rw [← hb, ih b (count + 1) (by omega) hs']
        apply exists_congr; intro n
        apply forall_congr'; intro j
        apply imp_congr_right; intro _
        simp only [List.mem_cons]
        push_cast
        constructor
        · rintro (h | h)
          · by_cases hx : n + (j : Int) = b
            · right; left; exact hx
            · left; omega
          · right; right; exact h
        · rintro (h | h | h)
          · left; omega
          · left; omega
          · right; exact h
    · have hab' : a + 1 < b := by omega
      have hm0 : ¬ m ≤ 0 := by omega
      simp only [hb, if_false, hm0]
      rw [ih b 0 (by omega) hs']
      constructor
      · rintro ⟨n, hn⟩
        exact ⟨n, fun j hj => by
          rcases hn j hj with h | h
          · right
            have : n + (j : Int) = b := by simp at h; omega
            rw [this]; exact List.mem_cons_self _ _
          · right; exact List.mem_cons_of_mem _ h⟩
      · rintro ⟨n, hn⟩
        have hnot : ∀ j : Nat, j ≤ m → n + (j : Int) ≠ a + 1 := by
          intro j hj hEq
          rcases hn j hj with h | h
          · omega
          · rcases List.mem_cons.1 h with h | h
            · omega
            · have := hrest _ h; omega
        have hna : a < n := by
          by_contra hcon
          have hn0 := hn 0 (Nat.zero_le _)
          have hnm := hn m le_rfl
          by_cases hle : n + (m : Int) ≤ a
          · have h0 : a - (count : Int) ≤ n := by
              rcases hn0 with h | h
              · simpa using h.1
              · rcases List.mem_cons.1 h with h | h
                · simp at h; omega
                · have := hrest _ h; simp at this; omega
            omega
          · have hj : (a + 1 - n).toNat ≤ m := by omega
            have := hnot (a + 1 - n).toNat hj
            omega
        refine ⟨n, fun j hj => ?_⟩
        rcases hn j hj with h | h
        · omega
        · rcases List.mem_cons.1 h with h | h
          · left; omega
          · right; exact h

theorem containsTooManySequentials_iff (numbers : List Int) (m : Nat)
    (hnd : numbers.Nodup) (hm : 1 ≤ m) :
    containsTooManySequentials numbers m = true ↔
      ∃ n : Int, ∀ j : Nat, j ≤ m → n + (j : Int) ∈ numbers := by
  unfold containsTooManySequentials
  have hsorted : (sortAsc numbers).Sorted (· < ·) :=
    (sortAsc_sorted numbers).lt_of_le ((sortAsc_perm numbers).nodup_iff.2 hnd)
  have hmem : ∀ x, x ∈ sortAsc numbers ↔ x ∈ numbers := fun x => mem_sortAsc
  match hs : sortAsc numbers with
  | [] =>
    simp only [sequentialLoop]
    constructor
    · intro h; cases h
    · rintro ⟨n, hn⟩
      have := (hmem _).2 (hn 0 (Nat.zero_le _))
      rw [hs] at this
      cases this
  | a :: rest =>
    rw [hs] at hsorted
    rw [sequentialLoop_iff m hm rest a 0 (by omega) hsorted]
    apply exists_congr; intro n
    apply forall_congr'; intro j
    apply imp_congr_right; intro _
    rw [← hmem, hs, List.mem_cons]
    constructor
    · rintro (h | h)
      · left; simp at h; omega
      · right; exact h
    · rintro (h | h)
      · left; simp; omega
      · right; exact h

/-! ## Lemmas on balance and similarity -/

theorem tmod_two_ne_zero_iff_odd (n : Int) : Int.tmod n 2 ≠ 0 ↔ Odd n := by
  rw [Int.odd_iff, ne_eq, ← Int.dvd_iff_tmod_eq_zero, Int.dvd_iff_emod_eq_zero]
  omega

theorem matchCount_foldl (generatedNumbers main : List Int) (count : Nat) :
    main.foldl (fun count num => if generatedNumbers.contains num then count + 1 else count)
        count =
      count + (main.filter (fun num => decide (num ∈ generatedNumbers))).length := by
  induction main generalizing count with
  | nil => simp
  | cons x xs ih =>
    rw [List.foldl_cons, ih]
    by_cases hx : x ∈ generatedNumbers
    · simp [hx]; omega
    · simp [hx]

theorem matchCount_eq (generatedNumbers main : List Int) :
    matchCount generatedNumbers main =
      (main.filter (fun num => decide (num ∈ generatedNumbers))).length := by
  unfold matchCount
  rw [matchCount_foldl]; simp

theorem similarLoop_iff (generatedNumbers : List Int) (k : Int) (draws : List Draw) :
    similarLoop generatedNumbers k draws = true ↔
      ∃ d ∈ draws, k ≤ (matchCount generatedNumbers d.main : Int) := by
  induction draws with
  | nil => simp [similarLoop]
  | cons d ds ih =>
    rw [similarLoop]
    by_cases hd : k ≤ (matchCount generatedNumbers d.main : Int)
    · simp [hd]
    · simp only [hd, if_false, ih, List.mem_cons, exists_eq_or_imp, false_or]

theorem isTooSimilar_eq_true_iff (generatedNumbers : List Int) (draws : List Draw) (t : ℚ) :
    isTooSimilar generatedNumbers draws t = true ↔
      ∃ d ∈ draws, ⌈(generatedNumbers.length : ℚ) * t / 100⌉ ≤
        (((d.main.filter (fun num => decide (num ∈ generatedNumbers))).length : Nat) : Int) := by
  unfold isTooSimilar numToMatch
  have hmul : (generatedNumbers.length : ℚ) * (t / 100) = (generatedNumbers.length : ℚ) * t / 100 := by
    ring
  by_cases h0 : draws.length = 0
  · have : draws = [] := List.length_eq_zero.1 h0
    subst this
    simp
  · simp only [h0, if_false, similarLoop_iff, matchCount_eq, hmul]

/-! ## Lemmas on the generator loops -/

theorem samplePicks_spec (numCount : Nat) (rand : Nat → Nat) (fuel : Nat) :
    ∀ (picks availableNumbers : List Int) (pos : Nat) (result : List Int) (pos' : Nat),
      samplePicks numCount rand fuel picks availableNumbers pos = some (result, pos') →
      (picks.Nodup → result.Nodup) ∧
      (∀ x ∈ result, x ∈ picks ∨ x ∈ availableNumbers) ∧
      (picks.length ≤ numCount → result.length ≤ numCount) := by
  induction fuel with
  | zero =>
    intro picks availableNumbers pos result pos' h
    rw [samplePicks] at h
    split at h
    · cases h
    · simp only [Option.some.injEq, Prod.mk.injEq] at h
      obtain ⟨rfl, -⟩ := h
      exact ⟨id, fun x hx => Or.inl hx, id⟩
  | succ fuel ih =>
    intro picks availableNumbers pos result pos' h
    rw [samplePicks] at h
    split at h
    · rename_i hc
      have hmem : availableNumbers.get
          ⟨rand pos % availableNumbers.length, Nat.mod_lt _ hc.2⟩ ∈ availableNumbers :=
        List.get_mem _ _ _
      simp only [] at h
      split at h
      · rename_i hnot
        have hnot' : availableNumbers.get
            ⟨rand pos % availableNumbers.length, Nat.mod_lt _ hc.2⟩ ∉ picks := by
          simpa using hnot
        obtain ⟨h1, h2, h3⟩ := ih _ _ _ _ _ h
        refine ⟨fun hnd => h1 ?_, fun x hx => ?_, fun _ => h3 ?_⟩
        · exact List.Nodup.append hnd (List.nodup_singleton _) (by simpa using hnot')
        · rcases h2 x hx with hx | hx
          · rcases List.mem_append.1 hx with hx | hx
            · exact Or.inl hx
            · rw [List.mem_singleton] at hx
              exact Or.inr (hx ▸ hmem)
          · exact Or.inr (List.mem_of_mem_filter hx)
        · simp only [List.length_append, List.length_singleton]
          omega
      · exact ih _ _ _ _ _ h
    · simp only [Option.some.injEq, Prod.mk.injEq] at h
      obtain ⟨rfl, -⟩ := h
      exact ⟨id, fun x hx => Or.inl hx, id⟩

theorem samplePicks_terminates (numCount : Nat) (rand : Nat → Nat) (fuel : Nat) :
    ∀ (picks availableNumbers : List Int) (pos : Nat),
      availableNumbers.length ≤ fuel → (∀ x ∈ picks, x ∉ availableNumbers) →
      ∃ result pos', samplePicks numCount rand fuel picks availableNumbers pos =
          some (result, pos') ∧ pos' + picks.length = pos + result.length ∧
          pos' ≤ pos + availableNumbers.length := by
  induction fuel with
  | zero =>
    intro picks availableNumbers pos hlen _
    refine ⟨picks, pos, ?_, rfl, Nat.le_add_right _ _⟩
    rw [samplePicks]
    have : ¬ (picks.length < numCount ∧ 0 < availableNumbers.length) := by omega
    simp only [this, if_false]
  | succ fuel ih =>
    intro picks availableNumbers pos hlen hdis
    rw [samplePicks]
    split
    · rename_i hc
      have hmem : availableNumbers.get
          ⟨rand pos % availableNumbers.length, Nat.mod_lt _ hc.2⟩ ∈ availableNumbers :=
        List.get_mem _ _ _
      have hnot : availableNumbers.get
          ⟨rand pos % availableNumbers.length, Nat.mod_lt _ hc.2⟩ ∉ picks :=
        fun hin => hdis _ hin hmem
      have hlt : (availableNumbers.filter (fun num => decide (num ≠ availableNumbers.get
          ⟨rand pos % availableNumbers.length, Nat.mod_lt _ hc.2⟩))).length <
          availableNumbers.length := by
        apply List.length_filter_lt_length_iff_exists.2
        exact ⟨_, hmem, by simp⟩
      have hcontains : (!picks.contains (availableNumbers.get
          ⟨rand pos % availableNumbers.length, Nat.mod_lt _ hc.2⟩)) = true := by
        simpa using hnot
      simp only [hcontains, if_true]
      obtain ⟨result, pos', h1, h2, h3⟩ := ih (picks ++ [availableNumbers.get
          ⟨rand pos % availableNumbers.length, Nat.mod_lt _ hc.2⟩])
        (availableNumbers.filter (fun num => decide (num ≠ availableNumbers.get
          ⟨rand pos % availableNumbers.length, Nat.mod_lt _ hc.2⟩))) (pos + 1)
        (by omega)
        (by
          intro x hx hx'
          rw [List.mem_filter] at hx'
          rcases List.mem_append.1 hx with hx | hx
          · exact hdis x hx hx'.1
          · rw [List.mem_singleton] at hx
            simp [hx] at hx')
      simp only [List.length_append, List.length_singleton] at h2
      exact ⟨result, pos', h1, by omega, by omega⟩
    · exact ⟨picks, pos, rfl, rfl, Nat.le_add_right _ _⟩

theorem attemptLoop_finished (s : AppState) (lastYearDraws olderDraws : List Draw)
    (lastDrawNumbers : Option (List Int)) (isOpposite : Bool) (pool : List Int)
    (rand : Nat → Nat) (innerFuel : Nat) (fuel : Nat) :
    ∀ (attempts pos : Nat) (main : List Int) (attempts' pos' : Nat),
      attemptLoop s lastYearDraws olderDraws lastDrawNumbers isOpposite pool rand innerFuel
          fuel attempts pos = .finished main attempts' pos' →
      loopCondition s lastYearDraws olderDraws lastDrawNumbers isOpposite main = false ∧
      (∃ picks : List Int, main = sortAsc picks ∧ picks.Nodup ∧ (∀ x ∈ picks, x ∈ pool) ∧
        picks.length ≤ (gameProperties s.selectedGame).standardSize) ∧
      attempts < attempts' ∧ attempts' ≤ maxAttempts := by
  induction fuel with
  | zero =>
    intro attempts pos main attempts' pos' h
    rw [attemptLoop] at h
    cases h
  | succ fuel ih =>
    intro attempts pos main attempts' pos' h
    rw [attemptLoop] at h
    simp only [] at h
    split at h
    · cases h
    · rename_i hatt
      split at h
      · cases h
      · split at h
        · cases h
        · rename_i picks pos1 hsample
          obtain ⟨h1, h2, h3⟩ := samplePicks_spec _ _ _ _ _ _ _ _ hsample
          split at h
          · obtain ⟨g1, g2, g3, g4⟩ := ih _ _ _ _ _ h
            exact ⟨g1, g2, by omega, g4⟩
          · rename_i hcond
            simp only [LoopExit.finished.injEq] at h
            obtain ⟨rfl, rfl, rfl⟩ := h
            refine ⟨by simpa using hcond, ⟨picks, rfl, h1 List.nodup_nil, ?_, h3 (by simp)⟩,
              by omega, by omega⟩
            intro x hx
            rcases h2 x hx with hx | hx
            · cases hx
            · exact hx

theorem attemptLoop_returnedNull (s : AppState) (lastYearDraws olderDraws : List Draw)
    (lastDrawNumbers : Option (List Int)) (isOpposite : Bool) (pool : List Int)
    (rand : Nat → Nat) (innerFuel : Nat) (fuel : Nat) :
    ∀ (attempts pos : Nat) (attempts' pos' : Nat),
      attemptLoop s lastYearDraws olderDraws lastDrawNumbers isOpposite pool rand innerFuel
          fuel attempts pos = .returnedNull attempts' pos' →
      attempts < attempts' ∧ (attempts ≤ maxAttempts → attempts' ≤ maxAttempts + 1) := by
  induction fuel with
  | zero =>
    intro attempts pos attempts' pos' h
    rw [attemptLoop] at h
    cases h
  | succ fuel ih =>
    intro attempts pos attempts' pos' h
    rw [attemptLoop] at h
    simp only [] at h
    split at h
    · simp only [LoopExit.returnedNull.injEq] at h
      omega
    · split at h
      · simp only [LoopExit.returnedNull.injEq] at h
        omega
      · split at h
        · cases h
        · split at h
          · obtain ⟨g1, g2⟩ := ih _ _ _ _ h
            exact ⟨by omega, fun _ => g2 (by omega)⟩
          · cases h

theorem attemptLoop_terminates (s : AppState) (lastYearDraws olderDraws : List Draw)
    (lastDrawNumbers : Option (List Int)) (isOpposite : Bool) (pool : List Int)
    (rand : Nat → Nat) (innerFuel : Nat) (hInner : pool.length ≤ innerFuel) (fuel : Nat) :
    ∀ (attempts pos : Nat), 1 ≤ fuel → maxAttempts + 1 ≤ fuel + attempts →
      attemptLoop s lastYearDraws olderDraws lastDrawNumbers isOpposite pool rand innerFuel
          fuel attempts pos ≠ .outOfFuel := by
  induction fuel with
  | zero => intro attempts pos h1; omega
  | succ fuel ih =>
    intro attempts pos _ hf
    rw [attemptLoop]
    simp only []
    split
    · simp
    · rename_i hatt
      split
      · simp
      · obtain ⟨result, pos', hs, -, -⟩ :=
          samplePicks_terminates (gameProperties s.selectedGame).standardSize rand innerFuel []
            pool pos hInner (by simp)
        rw [hs]
        simp only []
        split
        · exact ih _ _ (by omega) (by omega)
        · simp

theorem attemptLoop_all_discarded (s : AppState) (lastYearDraws olderDraws : List Draw)
    (lastDrawNumbers : Option (List Int)) (isOpposite : Bool) (pool : List Int)
    (rand : Nat → Nat) (innerFuel : Nat) (hInner : pool.length ≤ innerFuel)
    (hall : ∀ i, i < maxAttempts →
      loopCondition s lastYearDraws olderDraws lastDrawNumbers isOpposite
        (candidate (gameProperties s.selectedGame).standardSize pool rand innerFuel i) = true)
    (fuel : Nat) :
    ∀ (attempts : Nat), 1 ≤ fuel → maxAttempts + 1 ≤ fuel + attempts →
      ∃ attempts' pos', attemptLoop s lastYearDraws olderDraws lastDrawNumbers isOpposite pool
        rand innerFuel fuel attempts
        (attemptStart (gameProperties s.selectedGame).standardSize pool rand innerFuel attempts)
          = .returnedNull attempts' pos' := by
  induction fuel with
  | zero => intro attempts h1; omega
  | succ fuel ih =>
    intro attempts _ hf
    rw [attemptLoop]
    simp only []
    split
    · exact ⟨_, _, rfl⟩
    · rename_i hatt
      split
      · exact ⟨_, _, rfl⟩
      · obtain ⟨result, pos', hs, -, -⟩ :=
          samplePicks_terminates (gameProperties s.selectedGame).standardSize rand innerFuel []
            pool (attemptStart (gameProperties s.selectedGame).standardSize pool rand innerFuel
              attempts) hInner (by simp)
        have hcand := hall attempts (by omega)
        have hnext : attemptStart (gameProperties s.selectedGame).standardSize pool rand
            innerFuel (attempts + 1) = pos' := by
          rw [attemptStart, hs]
        unfold candidate at hcand
        rw [hs] at hcand
        simp only [] at hcand
        rw [hs]
        simp only [hcand, if_true]
        rw [← hnext]
        exact ih _ (by omega) (by omega)

theorem samplePicks_fuel_succ (numCount : Nat) (rand : Nat → Nat) (fuel : Nat) :
    ∀ (picks availableNumbers : List Int) (pos : Nat) (r : List Int × Nat),
      samplePicks numCount rand fuel picks availableNumbers pos = some r →
      samplePicks numCount rand (fuel + 1) picks availableNumbers pos = some r := by
  induction fuel with
  | zero =>
    intro picks availableNumbers pos r h
    rw [samplePicks] at h
    rw [samplePicks]
    split at h
    · cases h
    · rename_i hc
      rw [dif_neg hc]
      exact h
  | succ fuel ih =>
    intro picks availableNumbers pos r h
    rw [samplePicks] at h
    rw [samplePicks]
    split at h
    · rename_i hc
      rw [dif_pos hc]
      simp only [] at h ⊢
      split at h
      · rename_i hnot
        rw [if_pos hnot]
        exact ih _ _ _ _ h
      · rename_i hnot
        rw [if_neg hnot]
        exact ih _ _ _ _ h
    · rename_i hc
      rw [dif_neg hc]
      exact h

theorem samplePicks_fuel_mono (numCount : Nat) (rand : Nat → Nat) (fuel fuel' : Nat)
    (hle : fuel ≤ fuel') (picks availableNumbers : List Int) (pos : Nat) (r : List Int × Nat)
    (h : samplePicks numCount rand fuel picks availableNumbers pos = some r) :
    samplePicks numCount rand fuel' picks availableNumbers pos = some r := by
  induction hle with
  | refl => exact h
  | step _ ih => exact samplePicks_fuel_succ _ _ _ _ _ _ _ ih

theorem attemptLoop_fuel_mono (s : AppState) (lastYearDraws olderDraws : List Draw)
    (lastDrawNumbers : Option (List Int)) (isOpposite : Bool) (pool : List Int)
    (rand : Nat → Nat) (innerFuel innerFuel' : Nat) (hInner : innerFuel ≤ innerFuel')
    (fuel : Nat) :
    ∀ (fuel' attempts pos : Nat), fuel ≤ fuel' →
      attemptLoop s lastYearDraws olderDraws lastDrawNumbers isOpposite pool rand innerFuel
          fuel attempts pos ≠ .outOfFuel →
      attemptLoop s lastYearDraws olderDraws lastDrawNumbers isOpposite pool rand innerFuel'
          fuel' attempts pos =
        attemptLoop s lastYearDraws olderDraws lastDrawNumbers isOpposite pool rand innerFuel
          fuel attempts pos := by
  induction fuel with
  | zero =>
    intro fuel' attempts pos _ h
    rw [attemptLoop] at h
    exact absurd rfl h
  | succ fuel ih =>
    intro fuel' attempts pos hle h
    obtain ⟨fuel'', rfl⟩ : ∃ k, fuel' = k + 1 := ⟨fuel' - 1, by omega⟩
    rw [attemptLoop] at h ⊢
    rw [attemptLoop]
    simp only [] at h ⊢
    split
    · rfl
    · rename_i hatt
      rw [if_neg hatt] at h
      split
      · rfl
      · rename_i hlen
        rw [if_neg hlen] at h
        cases hs : samplePicks (gameProperties s.selectedGame).standardSize rand innerFuel []
            pool pos with
        | none =>
          rw [hs] at h
          exact absurd rfl h
        | some r =>
          obtain ⟨picks, pos1⟩ := r
          rw [hs] at h
          rw [samplePicks_fuel_mono _ _ _ _ hInner _ _ _ _ hs]
          simp only [] at h ⊢
          split
          · rename_i hcond
            rw [if_pos hcond] at h
            exact ih _ _ _ (by omega) h
          · rfl

theorem generateSinglePickSet_fuel_mono (s : AppState) (oneYearAgo twoYearsAgo : Int)
    (rand : Nat → Nat) (outerFuel innerFuel outerFuel' innerFuel' : Nat) (isOpposite : Bool)
    (pool : List Int) (hOuter : outerFuel ≤ outerFuel') (hInner : innerFuel ≤ innerFuel')
    (hloop : attemptLoop s (lastYearDrawsOf s.validDraws oneYearAgo)
      (olderDrawsOf s.validDraws oneYearAgo twoYearsAgo) (lastDrawNumbersOf s.validDraws)
      isOpposite pool rand innerFuel outerFuel 0 0 ≠ .outOfFuel) :
    generateSinglePickSet s oneYearAgo twoYearsAgo rand outerFuel' innerFuel' isOpposite pool =
      generateSinglePickSet s oneYearAgo twoYearsAgo rand outerFuel innerFuel isOpposite pool := by
  unfold generateSinglePickSet
  simp only []
  rw [attemptLoop_fuel_mono s _ _ _ isOpposite pool rand innerFuel innerFuel' hInner outerFuel
    outerFuel' 0 0 hOuter hloop]

theorem generateSinglePickSet_some (s : AppState) (oneYearAgo twoYearsAgo : Int)
    (rand : Nat → Nat) (outerFuel innerFuel : Nat) (isOpposite : Bool) (pool : List Int)
    (c : Combination)
    (h : generateSinglePickSet s oneYearAgo twoYearsAgo rand outerFuel innerFuel isOpposite pool
      = some (some c)) :
    s.validDraws.length ≠ 0 ∧
    (gameProperties s.selectedGame).standardSize ≤ c.main.length ∧
    ∃ attempts pos,
      attemptLoop s (lastYearDrawsOf s.validDraws oneYearAgo)
        (olderDrawsOf s.validDraws oneYearAgo twoYearsAgo) (lastDrawNumbersOf s.validDraws)
        isOpposite pool rand innerFuel outerFuel 0 0 = .finished c.main attempts pos := by
  unfold generateSinglePickSet at h
  simp only [] at h
  split at h
  · simp at h
  · rename_i hne
    split at h
    · cases h
    · simp at h
    · rename_i main attempts pos hloop
      split at h
      · simp at h
      · rename_i hlen
        split at h
        · simp only [Option.some.injEq] at h
          subst h
          exact ⟨hne, by simpa using hlen, attempts, pos, hloop⟩
        · simp only [Option.some.injEq] at h
          subst h
          exact ⟨hne, by simpa using hlen, attempts, pos, hloop⟩

theorem generateSinglePickSet_of_finished (s : AppState) (oneYearAgo twoYearsAgo : Int)
    (rand : Nat → Nat) (outerFuel innerFuel : Nat) (isOpposite : Bool) (pool : List Int)
    (main : List Int) (attempts pos : Nat) (hv : s.validDraws.length ≠ 0)
    (hloop : attemptLoop s (lastYearDrawsOf s.validDraws oneYearAgo)
      (olderDrawsOf s.validDraws oneYearAgo twoYearsAgo) (lastDrawNumbersOf s.validDraws)
      isOpposite pool rand innerFuel outerFuel 0 0 = .finished main attempts pos)
    (hlen : (gameProperties s.selectedGame).standardSize ≤ main.length)
    (hgame : s.selectedGame ≠ GameId.dailyGrand) :
    generateSinglePickSet s oneYearAgo twoYearsAgo rand outerFuel innerFuel isOpposite pool
      = some (some { main := main, grand := none }) := by
  have hlen' : ¬ main.length < (gameProperties s.selectedGame).standardSize := by omega
  unfold generateSinglePickSet
  simp only [hv, hloop, hlen', hgame, if_false, decide_False]
  simp

theorem samplePicks_duplicates (p : Nat) :
    samplePicks 6 (fun _ => 0) 6 [] [1, 1, 1, 1, 1, 1] p = some ([1], p + 1) := by
  rw [samplePicks]
  simp only [List.length_nil, List.length_cons]
  rw [dif_pos (by decide)]
  simp only [Nat.zero_mod, List.get_eq_getElem, List.getElem_cons_zero, List.contains_nil,
    Bool.not_false, if_true, List.nil_append]
  have hf : List.filter (fun num : Int => decide (num ≠ 1)) [1, 1, 1, 1, 1, 1] = [] := by decide
  rw [hf, samplePicks]
  simp

theorem isTooSimilar_single_draw (date : Int) (window : List Draw) (t : ℚ)
    (hw : window = [] ∨
      window = [{ date := date, main := [1, 2, 3, 4, 5, 6], grand := none, bonus := none }])
    (ht : numToMatch [3, 11, 18, 26, 34, 47] t ≥ 2) :
    isTooSimilar [3, 11, 18, 26, 34, 47] window t = false := by
  have hm : matchCount [3, 11, 18, 26, 34, 47] [1, 2, 3, 4, 5, 6] = 1 := by decide
  rcases hw with rfl | rfl
  · rfl
  · unfold isTooSimilar
    simp only [List.length_cons, List.length_nil, similarLoop, hm]
    have hn : ¬ numToMatch [3, 11, 18, 26, 34, 47] t ≤ ((1 : Nat) : Int) := by
      push_cast; omega
    rw [if_neg (by decide), if_neg hn]

theorem loopCondition_single_draw (date : Int) (lastYearDraws olderDraws : List Draw)
    (h1 : lastYearDraws = [] ∨ lastYearDraws =
      [{ date := date, main := [1, 2, 3, 4, 5, 6], grand := none, bonus := none }])
    (h2 : olderDraws = [] ∨ olderDraws =
      [{ date := date, main := [1, 2, 3, 4, 5, 6], grand := none, bonus := none }]) :
    loopCondition (singleDrawState date) lastYearDraws olderDraws (some [1, 2, 3, 4, 5, 6])
      false [3, 11, 18, 26, 34, 47] = false := by
  have f1 : isArithmeticProgression [3, 11, 18, 26, 34, 47] = false := by decide
  have f2 : containsTooManySequentials [3, 11, 18, 26, 34, 47] 3 = false := by decide
  have f3 : isBalancedOddEven [3, 11, 18, 26, 34, 47] = true := by decide!
  have f4 : isBalancedHighLow [3, 11, 18, 26, 34, 47] 49 = true := by decide!
  have f5 : isTooSimilar [3, 11, 18, 26, 34, 47] lastYearDraws 49 = false :=
    isTooSimilar_single_draw date _ _ h1 (by decide!)
  have f6 : isTooSimilar [3, 11, 18, 26, 34, 47] olderDraws 60 = false :=
    isTooSimilar_single_draw date _ _ h2 (by decide!)
  have f7 : hasValidConsecutiveRepeat true [3, 11, 18, 26, 34, 47] (some [1, 2, 3, 4, 5, 6])
      = true := by decide
  have f8 : hasValidNumberGroupDistribution true [3, 11, 18, 26, 34, 47] 49 = true := by
    decide!
  simp [loopCondition, singleDrawState, allFiltersOn, noStatistics, gameProperties, f1, f2, f3,
    f4, f5, f6, f7, f8, isSumWithinRange, isDigitSumWithinRange, isRankSumWithinRange,
    isWithinPositionalBounds, isDeltaSumValid, hasValidLastDigitDistribution]

/-! ## Lemmas on stable sorting and the numbers `1..range` -/

theorem orderedInsert_pairwise_stable {α : Type} (r : α → α → Prop) [DecidableRel r]
    (htot : ∀ a b, r a b ∨ r b a) (htrans : ∀ a b c, r a b → r b c → r a c)
    (R : α → α → Prop) (a : α) :
    ∀ s : List α, (∀ c ∈ s, R a c) →
      s.Pairwise (fun x y => r x y ∧ (r y x → R x y)) →
      (s.orderedInsert r a).Pairwise (fun x y => r x y ∧ (r y x → R x y)) := by
  intro s
  induction s with
  | nil => intro _ _; simp
  | cons b t ih =>
    intro hR hs
    rw [List.pairwise_cons] at hs
    rw [List.orderedInsert]
    by_cases hab : r a b
    · rw [if_pos hab, List.pairwise_cons]
      refine ⟨?_, List.pairwise_cons.2 hs⟩
      intro c hc
      refine ⟨?_, fun _ => hR c hc⟩
      rcases List.mem_cons.1 hc with rfl | hc'
      · exact hab
      · exact htrans _ _ _ hab (hs.1 c hc').1
    · rw [if_neg hab, List.pairwise_cons]
      refine ⟨?_, ih (fun c hc => hR c (List.mem_cons_of_mem _ hc)) hs.2⟩
      intro c hc
      rcases (List.mem_orderedInsert r).1 hc with rfl | hc'
      · exact ⟨(htot c b).resolve_left hab, fun h => absurd h hab⟩
      · exact hs.1 c hc'

theorem insertionSort_pairwise_stable {α : Type} (r : α → α → Prop) [DecidableRel r]
    (htot : ∀ a b, r a b ∨ r b a) (htrans : ∀ a b c, r a b → r b c → r a c)
    (R : α → α → Prop) (l : List α) (hl : l.Pairwise R) :
    (l.insertionSort r).Pairwise (fun x y => r x y ∧ (r y x → R x y)) := by
  induction l with
  | nil => simp
  | cons a l ih =>
    rw [List.pairwise_cons] at hl
    rw [List.insertionSort]
    exact orderedInsert_pairwise_stable r htot htrans R a _
      (fun c hc => hl.1 c ((List.mem_insertionSort r).1 hc)) (ih hl.2)

theorem mem_allNumbers {range : Nat} {n : Int} :
    n ∈ allNumbers range ↔ 1 ≤ n ∧ n ≤ range := by
  unfold allNumbers
  simp only [List.mem_map, List.mem_range]
  constructor
  · rintro ⟨i, hi, rfl⟩
    constructor <;> omega
  · rintro ⟨h1, h2⟩
    exact ⟨(n - 1).toNat, by omega, by omega⟩

theorem allNumbers_length (range : Nat) : (allNumbers range).length = range := by
  simp [allNumbers]

theorem allNumbers_pairwise (range : Nat) : (allNumbers range).Pairwise (· < ·) := by
  unfold allNumbers
  rw [List.pairwise_map]
  refine (List.pairwise_lt_range range).imp ?_
  intro i j hij
  omega

theorem allNumbers_nodup (range : Nat) : (allNumbers range).Nodup :=
  (allNumbers_pairwise range).imp (fun h => ne_of_lt h)

/-- The numbers `1..range` paired with a key and put in a stable sort: the keys are in order,
equal keys keep the ascending order of the numbers, and the numbers are a rearrangement of
`1..range`. -/
theorem sortedWithKey_spec {K : Type} (key : Int → K) (r : K → K → Prop) [DecidableRel r]
    (htot : ∀ a b, r a b ∨ r b a) (htrans : ∀ a b c, r a b → r b c → r a c) (range : Nat) :
    let sorted := ((allNumbers range).map (fun num => (num, key num))).insertionSort
      (fun a b => r a.2 b.2)
    (sorted.map (fun s => s.1)).Perm (allNumbers range) ∧
    (∀ s ∈ sorted, s.2 = key s.1) ∧
    sorted.length = range ∧
    (sorted.map (fun s => s.1)).Pairwise
      (fun a b => r (key a) (key b) ∧ (r (key b) (key a) → a < b)) := by
  intro sorted
  have hperm : sorted.Perm ((allNumbers range).map (fun num => (num, key num))) :=
    List.perm_insertionSort _ _
  have hkey : ∀ s ∈ sorted, s.2 = key s.1 := by
    intro s hs
    have := hperm.mem_iff.1 hs
    rw [List.mem_map] at this
    obtain ⟨n, -, rfl⟩ := this
    rfl
  refine ⟨?_, hkey, ?_, ?_⟩
  · have := hperm.map (fun s => s.1)
    simpa [List.map_map, Function.comp_def] using this
  · rw [hperm.length_eq]
    simp [allNumbers_length]
  · have hpw : ((allNumbers range).map (fun num => (num, key num))).Pairwise
        (fun a b => a.1 < b.1) := by
      rw [List.pairwise_map]
      exact allNumbers_pairwise range
    have hst := insertionSort_pairwise_stable (fun a b : Int × K => r a.2 b.2)
      (fun a b => htot a.2 b.2) (fun a b c => htrans a.2 b.2 c.2) (fun a b => a.1 < b.1) _ hpw
    rw [List.pairwise_map]
    refine List.Pairwise.imp_of_mem ?_ hst
    intro a b ha hb hab
    rw [← hkey a ha, ← hkey b hb]
    exact hab

/-! ## Lemmas on the rank map -/

theorem rankFold_not_mem (l : List (Int × Nat)) :
    ∀ (k : Nat) (m : Int → Option Nat) (n : Int), n ∉ l.map (fun e => e.1) →
      (l.enumFrom k).foldl
        (fun (rankMap : Int → Option Nat) (entry : Nat × Int × Nat) =>
          Function.update rankMap entry.2.1 (some (entry.1 + 1))) m n
        = m n := by
  induction l with
  | nil => intro k m n _; rfl
  | cons x xs ih =>
    intro k m n hn
    simp only [List.map_cons, List.mem_cons, not_or] at hn
    rw [List.enumFrom_cons, List.foldl_cons, ih _ _ _ hn.2]
    exact Function.update_noteq hn.1 _ _

theorem rankFold_get (l : List (Int × Nat)) :
    ∀ (k : Nat) (m : Int → Option Nat), (l.map (fun e => e.1)).Nodup →
      ∀ (i : Nat) (h : i < l.length),
        (l.enumFrom k).foldl
          (fun (rankMap : Int → Option Nat) (entry : Nat × Int × Nat) =>
            Function.update rankMap entry.2.1 (some (entry.1 + 1))) m
          (l.get ⟨i, h⟩).1 = some (k + i + 1) := by
  induction l with
  | nil => intro k m _ i h; simp at h
  | cons x xs ih =>
    intro k m hnd i h
    rw [List.map_cons, List.nodup_cons] at hnd
    rw [List.enumFrom_cons, List.foldl_cons]
    cases i with
    | zero =>
      simp only [List.get_eq_getElem, List.getElem_cons_zero]
      rw [rankFold_not_mem _ _ _ _ hnd.1]
      simp
    | succ j =>
      have hj : j < xs.length := by simpa using h
      have := ih (k + 1) (Function.update m x.1 (some (k + 1))) hnd.2 j hj
      simp only [List.get_eq_getElem, List.getElem_cons_succ] at this ⊢
      rw [this]
      congr 1
      omega

theorem buildRankMap_get (l : List (Int × Nat)) (hnd : (l.map (fun e => e.1)).Nodup)
    (i : Nat) (h : i < l.length) : buildRankMap l (l.get ⟨i, h⟩).1 = some (i + 1) := by
  unfold buildRankMap
  rw [List.enum, rankFold_get l 0 _ hnd i h]
  simp

theorem buildRankMap_not_mem (l : List (Int × Nat)) (n : Int)
    (hn : n ∉ l.map (fun e => e.1)) : buildRankMap l n = none := by
  unfold buildRankMap
  rw [List.enum, rankFold_not_mem l 0 _ n hn]

theorem rankedNumbers_spec (frequencies : Int → Option Nat) (range : Nat) :
    ((rankedNumbers frequencies range).map (fun s => s.1)).Perm (allNumbers range) ∧
    (rankedNumbers frequencies range).length = range := by
  have h := sortedWithKey_spec (fun num => (frequencies num).getD 0) (fun a b : Nat => b ≤ a)
    (fun a b => le_total b a) (fun a b c hab hbc => le_trans hbc hab) range
  exact ⟨h.1, h.2.2.1⟩

/-- The rank map built from the ranked numbers is a bijection between `1..range` and the ranks
`1..range`, and has no other key. -/
theorem buildRankMap_bijection (frequencies : Int → Option Nat) (range : Nat) :
    (∀ n : Int, 1 ≤ n → n ≤ range →
      ∃ r : Nat, buildRankMap (rankedNumbers frequencies range) n = some r ∧
        1 ≤ r ∧ r ≤ range) ∧
    (∀ n m : Int, 1 ≤ n → n ≤ range → 1 ≤ m → m ≤ range →
      buildRankMap (rankedNumbers frequencies range) n =
        buildRankMap (rankedNumbers frequencies range) m → n = m) ∧
    (∀ r : Nat, 1 ≤ r → r ≤ range →
      ∃ n : Int, 1 ≤ n ∧ n ≤ range ∧
        buildRankMap (rankedNumbers frequencies range) n = some r) ∧
    (∀ n : Int, ¬ (1 ≤ n ∧ n ≤ range) →
      buildRankMap (rankedNumbers frequencies range) n = none) := by
  obtain ⟨hperm, hlen⟩ := rankedNumbers_spec frequencies range
  have hnd : ((rankedNumbers frequencies range).map (fun s => s.1)).Nodup :=
    hperm.nodup_iff.2 (allNumbers_nodup range)
  have hidx : ∀ n : Int, 1 ≤ n → n ≤ range →
      ∃ (i : Nat) (h : i < (rankedNumbers frequencies range).length),
        ((rankedNumbers frequencies range).get ⟨i, h⟩).1 = n := by
    intro n h1 h2
    have hmem : n ∈ (rankedNumbers frequencies range).map (fun s => s.1) :=
      hperm.mem_iff.2 (mem_allNumbers.2 ⟨h1, h2⟩)
    rw [List.mem_map] at hmem
    obtain ⟨s, hs, rfl⟩ := hmem
    obtain ⟨⟨i, hi⟩, rfl⟩ := List.mem_iff_get.1 hs
    exact ⟨i, hi, rfl⟩
  refine ⟨?_, ?_, ?_, ?_⟩
  · intro n h1 h2
    obtain ⟨i, hi, rfl⟩ := hidx n h1 h2
    exact ⟨i + 1, buildRankMap_get _ hnd i hi, by omega, by omega⟩
  · intro n m hn1 hn2 hm1 hm2 heq
    obtain ⟨i, hi, rfl⟩ := hidx n hn1 hn2
    obtain ⟨j, hj, rfl⟩ := hidx m hm1 hm2
    rw [buildRankMap_get _ hnd i hi, buildRankMap_get _ hnd j hj] at heq
    have hij : i = j := by simpa using heq
    subst hij
    rfl
  · intro r h1 h2
    have hi : r - 1 < (rankedNumbers frequencies range).length := by omega
    have hmem : ((rankedNumbers frequencies range).get ⟨r - 1, hi⟩).1 ∈ allNumbers range :=
      hperm.mem_iff.1 (List.mem_map.2 ⟨_, List.get_mem _ _ _, rfl⟩)
    rw [mem_allNumbers] at hmem
    refine ⟨_, hmem.1, hmem.2, ?_⟩
    rw [buildRankMap_get _ hnd (r - 1) hi]
    congr 1
    omega
  · intro n hn
    apply buildRankMap_not_mem
    intro hmem
    exact hn (mem_allNumbers.1 (hperm.mem_iff.1 hmem))

/-! ## Lemmas on counting arrays and the hot and cold numbers -/

theorem incrementAt_length (counts : List Nat) (d : Int) :
    (incrementAt counts d).length = counts.length := by
  unfold incrementAt
  split <;> simp

theorem incrementAt_getD (counts : List Nat) (d : Int) (i : Nat) (hi : i < counts.length) :
    (incrementAt counts d).getD i 0 = counts.getD i 0 + (if d = (i : Int) then 1 else 0) := by
  unfold incrementAt
  by_cases hd : 0 ≤ d ∧ d < counts.length
  · rw [if_pos hd]
    by_cases hdi : d = (i : Int)
    · subst hdi
      simp [List.getD_eq_getElem?_getD, List.getElem?_set, hi]
    · have hne : d.toNat ≠ i := by omega
      simp [List.getD_eq_getElem?_getD, List.getElem?_set, hne, hdi]
  · rw [if_neg hd]
    have hdi : d ≠ (i : Int) := by
      intro h
      apply hd
      omega
    simp [hdi]

theorem foldl_incrementAt (l : List Int) :
    ∀ counts : List Nat, (l.foldl incrementAt counts).length = counts.length ∧
      ∀ i : Nat, i < counts.length →
        (l.foldl incrementAt counts).getD i 0 = counts.getD i 0 + l.count (i : Int) := by
  induction l with
  | nil => intro counts; simp
  | cons d l ih =>
    intro counts
    obtain ⟨h1, h2⟩ := ih (incrementAt counts d)
    rw [List.foldl_cons]
    refine ⟨by rw [h1, incrementAt_length], ?_⟩
    intro i hi
    rw [h2 i (by rw [incrementAt_length]; exact hi), incrementAt_getD counts d i hi]
    by_cases hdi : d = (i : Int)
    · subst hdi
      simp
      omega
    · have : ¬ ((i : Int) = d) := fun h => hdi h.symm
      simp [hdi, List.count_cons, this]

theorem hotColdCounts_spec (recentDraws : List Draw) :
    ∀ counts : List Nat,
      (recentDraws.foldl (fun counts draw => draw.main.foldl incrementAt counts) counts).length
        = counts.length ∧
      ∀ i : Nat, i < counts.length →
        (recentDraws.foldl (fun counts draw => draw.main.foldl incrementAt counts) counts).getD
          i 0 = counts.getD i 0 + (recentDraws.map (fun d => d.main.count (i : Int))).sum := by
  induction recentDraws with
  | nil => intro counts; simp
  | cons d ds ih =>
    intro counts
    obtain ⟨g1, g2⟩ := foldl_incrementAt d.main counts
    obtain ⟨h1, h2⟩ := ih (d.main.foldl incrementAt counts)
    rw [List.foldl_cons]
    refine ⟨by rw [h1, g1], ?_⟩
    intro i hi
    rw [h2 i (by rw [g1]; exact hi), g2 i hi]
    simp only [List.map_cons, List.sum_cons]
    omega

theorem hotColdCounts_getD (range : Nat) (recentDraws : List Draw) (n : Int) (h1 : 1 ≤ n)
    (h2 : n ≤ range) :
    (hotColdCounts range recentDraws).getD n.toNat 0 =
      (recentDraws.map (fun d => d.main.count n)).sum := by
  unfold hotColdCounts
  have h := (hotColdCounts_spec recentDraws (List.replicate (range + 1) 0)).2 n.toNat
    (by simp; omega)
  rw [h]
  have hn : ((n.toNat : Nat) : Int) = n := by omega
  have hlt : n.toNat < range + 1 := by omega
  simp [hn, List.getD_eq_getElem?_getD, List.getElem?_replicate, hlt]

theorem hotCount_eq (range : Nat) : hotCount range = range / 5 := by
  unfold hotCount
  rw [allNumbers_length]
  obtain ⟨q, hq⟩ : ∃ q : Nat, q = range / 5 := ⟨_, rfl⟩
  rw [← hq]
  have hfloor : ⌊(range : ℚ) * (2 / 10)⌋ = Int.ofNat q := by
    rw [Int.floor_eq_iff]
    have h := Nat.div_add_mod range 5
    have hlt := Nat.mod_lt range (show 5 > 0 by decide)
    rw [← hq] at h
    have hcast : (range : ℚ) = 5 * (q : ℚ) + ((range % 5 : Nat) : ℚ) := by
      exact_mod_cast h.symm
    have hr0 : (0 : ℚ) ≤ ((range % 5 : Nat) : ℚ) := by positivity
    have hr5 : ((range % 5 : Nat) : ℚ) < 5 := by exact_mod_cast hlt
    simp only [Int.ofNat_eq_coe, Int.cast_natCast]
    constructor <;> linarith
  rw [hfloor]
  rfl

theorem numberData_spec (range : Nat) (recentDraws : List Draw) :
    ((numberData range recentDraws).map (fun d => d.1)).Perm (allNumbers range) ∧
    (numberData range recentDraws).length = range ∧
    ((numberData range recentDraws).map (fun d => d.1)).Pairwise
      (fun a b =>
        (recentDraws.map (fun d => d.main.count b)).sum <
            (recentDraws.map (fun d => d.main.count a)).sum ∨
        ((recentDraws.map (fun d => d.main.count a)).sum =
            (recentDraws.map (fun d => d.main.count b)).sum ∧ a < b)) := by
  have h := sortedWithKey_spec
    (fun num : Int => (hotColdCounts range recentDraws).getD num.toNat 0)
    (fun a b : Nat => b ≤ a) (fun a b => le_total b a) (fun a b c hab hbc => le_trans hbc hab)
    range
  refine ⟨h.1, h.2.2.1, ?_⟩
  refine List.Pairwise.imp_of_mem ?_ h.2.2.2
  intro a b ha hb hab
  have ha' := mem_allNumbers.1 (h.1.mem_iff.1 ha)
  have hb' := mem_allNumbers.1 (h.1.mem_iff.1 hb)
  simp only [hotColdCounts_getD range recentDraws a ha'.1 ha'.2,
    hotColdCounts_getD range recentDraws b hb'.1 hb'.2] at hab
  rcases Nat.lt_or_ge ((recentDraws.map (fun d => d.main.count b)).sum)
      ((recentDraws.map (fun d => d.main.count a)).sum) with hlt | hge
  · exact Or.inl hlt
  · exact Or.inr ⟨le_antisymm hge hab.1, hab.2 hge⟩

/-! ## Lemmas on the pools -/

theorem frequencyPool_sorted (frequencies : Int → Option Nat) (range : Nat) :
    let sorted := (((allNumbers range).map
      (fun num => (num, (frequencies num).getD 0))).insertionSort
        (fun a b => a.2 ≤ b.2)).map (fun item => item.1)
    sorted.Perm (allNumbers range) ∧
    sorted.Pairwise (fun a b =>
      (frequencies a).getD 0 < (frequencies b).getD 0 ∨
      ((frequencies a).getD 0 = (frequencies b).getD 0 ∧ a < b)) := by
  intro sorted
  have h := sortedWithKey_spec (fun num : Int => (frequencies num).getD 0)
    (fun a b : Nat => a ≤ b) (fun a b => le_total a b) (fun a b c hab hbc => le_trans hab hbc)
    range
  refine ⟨h.1, ?_⟩
  refine List.Pairwise.imp ?_ h.2.2.2
  intro a b hab
  rcases Nat.lt_or_ge ((frequencies a).getD 0) ((frequencies b).getD 0) with hlt | hge
  · exact Or.inl hlt
  · exact Or.inr ⟨le_antisymm hab.1 hge, hab.2 hge⟩

theorem finalScore_eq (range : Nat) (rankMap : Int → Option Nat) (hot cold : List Int)
    (gapStats : GapStats) (num : Int) (r : Nat) (hr : rankMap num = some r) (hr1 : 1 ≤ r) :
    finalScore range rankMap hot cold gapStats num =
      doubleAdd
        (doubleAdd (doubleMul (doubleSub 1 (doubleDiv (r : ℚ) (range : ℚ))) (1 / 2))
          (doubleMul (if num ∈ hot then 1 / 2 else if num ∈ cold then -1 / 2 else 0)
            (toDouble (2 / 10))))
        (doubleMul
          (match gapStats.currentGaps.get? num.toNat, gapStats.avgGaps.get? num.toNat with
            | some current, some avg => if doubleMul avg (3 / 2) < current then 1 else 0
            | _, _ => 0)
          (toDouble (3 / 10))) := by
  unfold finalScore rankOrDefault
  have hr0 : r ≠ 0 := by omega
  have hc : ∀ l : List Int, (l.contains num = true) = (num ∈ l) := by
    intro l
    simp
  simp only [hr, hr0, if_false, hc]

/-! ## Lemmas on the grand number -/

theorem filteredGrandNumbers_length (lastThree : List (Option Int))
    (h : lastThree.length ≤ 3) :
    4 ≤ (possibleGrandNumbers.filter
      (fun num => !lastThree.contains (some num))).length := by
  have hsplit := List.length_eq_length_filter_add (l := possibleGrandNumbers)
    (fun num => lastThree.contains (some num))
  have hlen : possibleGrandNumbers.length = 7 := rfl
  have hnd : possibleGrandNumbers.Nodup := by decide
  have hle : (possibleGrandNumbers.filter
      (fun num => lastThree.contains (some num))).length ≤ lastThree.length := by
    have hnd' : ((possibleGrandNumbers.filter
        (fun num => lastThree.contains (some num))).map some).Nodup :=
      (hnd.filter _).map (Option.some_injective _)
    have hsub : (possibleGrandNumbers.filter
        (fun num => lastThree.contains (some num))).map some ⊆ lastThree := by
      intro x hx
      rw [List.mem_map] at hx
      obtain ⟨n, hn, rfl⟩ := hx
      have := (List.mem_filter.1 hn).2
      simpa using this
    have := (List.subperm_of_subset hnd' hsub).length_le
    simpa using this
  beta_reduce at hsplit
  omega

theorem pickGrandNumber_spec (historyForGame : List Draw) (rand : Nat → Nat) (pos : Nat) :
    ∃ g : Int, pickGrandNumber historyForGame rand pos = some g ∧ 1 ≤ g ∧ g ≤ 7 ∧
      ∀ d ∈ historyForGame.drop (historyForGame.length - 3), d.grand ≠ some g := by
  have hlen : ((historyForGame.drop (historyForGame.length - 3)).map
      (fun draw => draw.grand)).length ≤ 3 := by
    simp only [List.length_map, List.length_drop]
    omega
  have h4 := filteredGrandNumbers_length _ hlen
  unfold pickGrandNumber
  simp only []
  have hne : ¬ (possibleGrandNumbers.filter (fun num =>
      !((historyForGame.drop (historyForGame.length - 3)).map
        (fun draw => draw.grand)).contains (some num))).length = 0 := by omega
  rw [if_neg hne]
  have hidx : rand pos % (possibleGrandNumbers.filter (fun num =>
      !((historyForGame.drop (historyForGame.length - 3)).map
        (fun draw => draw.grand)).contains (some num))).length <
      (possibleGrandNumbers.filter (fun num =>
      !((historyForGame.drop (historyForGame.length - 3)).map
        (fun draw => draw.grand)).contains (some num))).length :=
    Nat.mod_lt _ (by omega)
  refine ⟨(possibleGrandNumbers.filter (fun num =>
      !((historyForGame.drop (historyForGame.length - 3)).map
        (fun draw => draw.grand)).contains (some num))).get ⟨_, hidx⟩, ?_, ?_⟩
  · rw [List.get?_eq_get hidx]
  · have hmem := List.get_mem (possibleGrandNumbers.filter (fun num =>
      !((historyForGame.drop (historyForGame.length - 3)).map
        (fun draw => draw.grand)).contains (some num))) _ hidx
    rw [List.mem_filter] at hmem
    obtain ⟨hposs, hnot⟩ := hmem
    have hrange : ∀ x ∈ possibleGrandNumbers, 1 ≤ x ∧ x ≤ 7 := by decide
    refine ⟨(hrange _ hposs).1, (hrange _ hposs).2, ?_⟩
    intro d hd heq
    have : (some ((possibleGrandNumbers.filter (fun num =>
      !((historyForGame.drop (historyForGame.length - 3)).map
        (fun draw => draw.grand)).contains (some num))).get ⟨_, hidx⟩)) ∈
        (historyForGame.drop (historyForGame.length - 3)).map (fun draw => draw.grand) := by
      rw [← heq]
      exact List.mem_map.2 ⟨d, hd, rfl⟩
    have hnot' : some ((possibleGrandNumbers.filter (fun num =>
      !((historyForGame.drop (historyForGame.length - 3)).map
        (fun draw => draw.grand)).contains (some num))).get ⟨_, hidx⟩) ∉
        (historyForGame.drop (historyForGame.length - 3)).map (fun draw => draw.grand) := by
      simpa using hnot
    exact hnot' this

theorem generateSinglePickSet_grand (s : AppState) (oneYearAgo twoYearsAgo : Int)
    (rand : Nat → Nat) (outerFuel innerFuel : Nat) (isOpposite : Bool) (pool : List Int)
    (c : Combination) (hgame : s.selectedGame = GameId.dailyGrand)
    (h : generateSinglePickSet s oneYearAgo twoYearsAgo rand outerFuel innerFuel isOpposite pool
      = some (some c)) :
    ∃ pos, c.grand = pickGrandNumber s.validDraws rand pos := by
  unfold generateSinglePickSet at h
  simp only [hgame, decide_True, if_true] at h
  split at h
  · simp at h
  · split at h
    · cases h
    · simp at h
    · rename_i main attempts pos hloop
      split at h
      · simp at h
      · simp only [Option.some.injEq] at h
        subst h
        exact ⟨pos, rfl⟩

/-! ## Lemmas on the mean and the standard deviation -/

theorem foldl_add_eq_sum {K : Type} [Field K] (l : List K) :
    ∀ a : K, l.foldl (fun acc val => acc + val) a = a + l.sum := by
  induction l with
  | nil => intro a; simp
  | cons x xs ih =>
    intro a
    rw [List.foldl_cons, ih, List.sum_cons]
    ring

theorem foldl_sq_eq_sum {K : Type} [Field K] (m : K) (l : List K) :
    ∀ a : K, l.foldl (fun acc val => acc + (val - m) ^ 2) a =
      a + (l.map (fun v => (v - m) ^ 2)).sum := by
  induction l with
  | nil => intro a; simp
  | cons x xs ih =>
    intro a
    rw [List.foldl_cons, ih, List.map_cons, List.sum_cons]
    ring

theorem calculateMeanAndStdDev_cons {K : Type} [Field K] (sqrt : K → K) (x : K)
    (xs : List K) :
    calculateMeanAndStdDev sqrt (x :: xs) =
      ((x :: xs).sum / ((x :: xs).length : K),
        sqrt (((x :: xs).map
          (fun v => (v - (x :: xs).sum / ((x :: xs).length : K)) ^ 2)).sum /
            ((x :: xs).length : K))) := by
  unfold calculateMeanAndStdDev
  have hlen : ¬ (x :: xs).length = 0 := by simp
  rw [if_neg hlen]
  simp only [foldl_add_eq_sum, foldl_sq_eq_sum, zero_add]

theorem sum_sq_nonneg (m : ℝ) (l : List ℝ) : 0 ≤ (l.map (fun v => (v - m) ^ 2)).sum := by
  induction l with
  | nil => simp
  | cons x xs ih =>
    rw [List.map_cons, List.sum_cons]
    positivity

theorem sum_sq_eq_zero_iff (m : ℝ) (l : List ℝ) :
    (l.map (fun v => (v - m) ^ 2)).sum = 0 ↔ ∀ v ∈ l, v = m := by
  induction l with
  | nil => simp
  | cons x xs ih =>
    rw [List.map_cons, List.sum_cons]
    have h1 : 0 ≤ (x - m) ^ 2 := by positivity
    have h2 := sum_sq_nonneg m xs
    constructor
    · intro h
      have hx : (x - m) ^ 2 = 0 := by linarith
      have hxs : (xs.map (fun v => (v - m) ^ 2)).sum = 0 := by linarith
      intro v hv
      rcases List.mem_cons.1 hv with rfl | hv'
      · have := pow_eq_zero_iff (n := 2) (by decide) |>.1 hx
        linarith
      · exact ih.1 hxs v hv'
    · intro h
      have hx : x = m := h x (List.mem_cons_self _ _)
      have hxs := ih.2 (fun v hv => h v (List.mem_cons_of_mem _ hv))
      rw [hxs, hx]
      simp

theorem sum_eq_of_all_eq (x : ℝ) (l : List ℝ) (h : ∀ v ∈ l, v = x) :
    l.sum = (l.length : ℝ) * x := by
  induction l with
  | nil => simp
  | cons y ys ih =>
    rw [List.sum_cons, ih (fun v hv => h v (List.mem_cons_of_mem _ hv)),
      h y (List.mem_cons_self _ _)]
    push_cast [List.length_cons]
    ring

/-! ## Lemmas on the valid draws -/

theorem mem_validDraws (history : List Draw) (standardSize : Nat) (d : Draw) :
    d ∈ validDraws (some history) standardSize ↔ d ∈ history ∧ standardSize ≤ d.main.length := by
  unfold validDraws
  simp only []
  split
  · rename_i h0
    have : history = [] := List.length_eq_zero.1 h0
    subst this
    simp
  · rw [List.mem_insertionSort, List.mem_filter]
    simp

theorem validDraws_sorted (history : List Draw) (standardSize : Nat) :
    (validDraws (some history) standardSize).Pairwise (fun a b => a.date ≤ b.date) := by
  unfold validDraws
  simp only []
  split
  · exact List.Pairwise.nil
  · have h := insertionSort_pairwise_stable (fun a b : Draw => a.date ≤ b.date)
      (fun a b => le_total a.date b.date) (fun a b c hab hbc => le_trans hab hbc)
      (fun _ _ => True)
      (history.filter (fun d => decide (standardSize ≤ d.main.length)))
      (List.pairwise_of_forall (fun _ _ => trivial))
    exact h.imp (fun hab => hab.1)

/-! ## Lemmas on double-precision arithmetic -/

theorem log2Floor_le (fuel n b : Nat) (h : n < 2 ^ (b + 1)) : log2Floor fuel n ≤ b := by
  induction fuel generalizing n b with
  | zero => simp [log2Floor]
  | succ fuel ih =>
    rw [log2Floor]
    split_ifs with h2
    · omega
    · have hb : 1 ≤ b := by
        by_contra hb0
        have hb1 : b = 0 := by omega
        subst hb1
        simp at h
        omega
      have hhalf : n / 2 < 2 ^ (b - 1 + 1) := by
        have hpow : 2 ^ (b + 1) = 2 * 2 ^ (b - 1 + 1) := by
          rw [show b + 1 = (b - 1 + 1) + 1 by omega, pow_succ]
          ring
        rw [hpow] at h
        omega
      have := ih (n / 2) (b - 1) hhalf
      omega

theorem roundHalfEven_intCast (z : Int) : roundHalfEven (z : ℚ) = z := by
  unfold roundHalfEven
  rw [Int.floor_intCast, if_pos (by norm_num)]

theorem ulp_of_le (e : Int) (h : e ≤ 52) :
    ulp e = 1 / ((2 ^ (52 - e).toNat : Nat) : ℚ) := by
  unfold ulp
  split_ifs with h52
  · have he : e = 52 := le_antisymm h h52
    subst he
    norm_num
  · rfl

theorem toDouble_intCast (z : Int) (h : |z| < 2 ^ 53) : toDouble (z : ℚ) = z := by
  unfold toDouble
  by_cases hz : z = 0
  · subst hz
    simp
  · have hz0 : ((z : ℚ)) ≠ 0 := by exact_mod_cast hz
    rw [if_neg hz0]
    have habs : |(z : ℚ)| = ((z.natAbs : Nat) : ℚ) := by
      rw [← Int.cast_abs, Int.abs_eq_natAbs, Int.cast_natCast]
    have hpos : 1 ≤ z.natAbs := by omega
    have hlt : z.natAbs < 2 ^ (52 + 1) := by
      have : ((z.natAbs : Nat) : Int) < 2 ^ 53 := by
        rw [← Int.abs_eq_natAbs]
        exact h
      exact_mod_cast this
    have hexp : binaryExponent |(z : ℚ)| = ((log2Floor z.natAbs z.natAbs : Nat) : Int) := by
      unfold binaryExponent
      rw [habs, if_pos (by exact_mod_cast hpos), Int.floor_natCast, Int.toNat_natCast]
    have hle : binaryExponent |(z : ℚ)| ≤ 52 := by
      rw [hexp]
      exact_mod_cast log2Floor_le z.natAbs z.natAbs 52 hlt
    rw [ulp_of_le _ hle]
    have hpow : (((2 ^ (52 - binaryExponent |(z : ℚ)|).toNat : Nat) : ℚ)) ≠ 0 := by
      positivity
    have hquot : (z : ℚ) / (1 / ((2 ^ (52 - binaryExponent |(z : ℚ)|).toNat : Nat) : ℚ)) =
        ((z * ((2 ^ (52 - binaryExponent |(z : ℚ)|).toNat : Nat) : Int) : Int) : ℚ) := by
      push_cast
      field_simp
    rw [hquot, roundHalfEven_intCast]
    push_cast
    field_simp

theorem toDouble_natCast (n : Nat) (h : n < 2 ^ 53) : toDouble (n : ℚ) = n := by
  have := toDouble_intCast (n : Int) (by
    rw [abs_of_nonneg (Int.natCast_nonneg n)]
    exact_mod_cast h)
  simpa using this

/-! ## Lemmas on the binomial coefficient -/

theorem exactCombinationsLoop_succ (n : Int) (k : Nat) :
    exactCombinationsLoop n (k + 1) =
      exactCombinationsLoop n k * ((n : ℚ) - ((k + 1 : Nat) : ℚ) + 1) / ((k + 1 : Nat) : ℚ) := by
  unfold exactCombinationsLoop
  rw [List.range_succ, List.foldl_append]
  rfl

theorem choose_succ_cast (n i : Nat) (h : i + 1 ≤ n) :
    ((n.choose (i + 1) : ℚ)) * ((i : ℚ) + 1) = (n.choose i : ℚ) * ((n : ℚ) - (i : ℚ)) := by
  have h1 := Nat.choose_succ_right_eq n i
  have h2 : ((n.choose (i + 1) * (i + 1) : Nat) : ℚ) = ((n.choose i * (n - i) : Nat) : ℚ) := by
    rw [h1]
  rw [Nat.cast_mul, Nat.cast_mul, Nat.cast_sub (by omega)] at h2
  push_cast at h2
  exact h2

theorem exactCombinationsLoop_eq_choose (n i : Nat) (h : i ≤ n) :
    exactCombinationsLoop (n : Int) i = (n.choose i : ℚ) := by
  induction i with
  | zero => simp [exactCombinationsLoop]
  | succ i ih =>
    rw [exactCombinationsLoop_succ, ih (by omega)]
    have hc := choose_succ_cast n i h
    have hpos : ((i : ℚ) + 1) ≠ 0 := by positivity
    rw [div_eq_iff (by push_cast; exact hpos)]
    push_cast
    rw [hc]
    ring

theorem combinationsLoop_succ (n : Int) (k : Nat) :
    combinationsLoop n (k + 1) =
      doubleDiv (doubleMul (combinationsLoop n k)
        (doubleAdd (doubleSub (n : ℚ) ((k + 1 : Nat) : ℚ)) 1)) ((k + 1 : Nat) : ℚ) := by
  unfold combinationsLoop
  rw [List.range_succ, List.foldl_append]
  rfl

theorem combinationsLoop_eq_choose (n i : Nat) (h : i ≤ n)
    (hrep : ∀ j : Nat, j < i → n.choose j * (n - j) < 2 ^ 53) :
    combinationsLoop (n : Int) i = (n.choose i : ℚ) := by
  induction i with
  | zero => simp [combinationsLoop]
  | succ i ih =>
    rw [combinationsLoop_succ, ih (by omega) (fun j hj => hrep j (by omega))]
    have hn : n < 2 ^ 53 := by
      have := hrep 0 (by omega)
      simpa using this
    have hprod := hrep i (by omega)
    have hsub : doubleSub (((n : Int) : ℚ)) ((i + 1 : Nat) : ℚ) = ((n - (i + 1) : Nat) : ℚ) := by
      unfold doubleSub
      have : (((n : Int) : ℚ)) - ((i + 1 : Nat) : ℚ) = ((n - (i + 1) : Nat) : ℚ) := by
        rw [Nat.cast_sub h]
        push_cast
        ring
      rw [this]
      exact toDouble_natCast _ (by omega)
    have hadd : doubleAdd ((n - (i + 1) : Nat) : ℚ) 1 = ((n - i : Nat) : ℚ) := by
      unfold doubleAdd
      have : ((n - (i + 1) : Nat) : ℚ) + 1 = ((n - i : Nat) : ℚ) := by
        have : n - i = (n - (i + 1)) + 1 := by omega
        rw [this]
        push_cast
        ring
      rw [this]
      exact toDouble_natCast _ (by omega)
    have hmul : doubleMul (n.choose i : ℚ) ((n - i : Nat) : ℚ) =
        ((n.choose i * (n - i) : Nat) : ℚ) := by
      unfold doubleMul
      rw [← Nat.cast_mul]
      exact toDouble_natCast _ hprod
    have hchoose : n.choose (i + 1) * (i + 1) = n.choose i * (n - i) :=
      Nat.choose_succ_right_eq n i
    have hle : n.choose (i + 1) < 2 ^ 53 := by
      have : n.choose (i + 1) ≤ n.choose (i + 1) * (i + 1) := Nat.le_mul_of_pos_right _ (by omega)
      omega
    have hdiv : doubleDiv ((n.choose i * (n - i) : Nat) : ℚ) ((i + 1 : Nat) : ℚ) =
        (n.choose (i + 1) : ℚ) := by
      unfold doubleDiv
      have : ((n.choose i * (n - i) : Nat) : ℚ) / ((i + 1 : Nat) : ℚ) =
          (n.choose (i + 1) : ℚ) := by
        rw [← hchoose]
        push_cast
        field_simp
      rw [this]
      exact toDouble_natCast _ hle
    rw [hsub, hadd, hmul, hdiv]

theorem mathRound_intCast (z : Int) : mathRound (z : ℚ) = z := by
  unfold mathRound
  rw [Int.floor_eq_iff]
  constructor <;> norm_num

theorem mathRound_natCast (z : Nat) : mathRound (z : ℚ) = z := by
  have := mathRound_intCast (z : Int)
  simpa using this

theorem mathRound_mono {x y : ℚ} (h : x ≤ y) : mathRound x ≤ mathRound y := by
  unfold mathRound
  exact Int.floor_mono (by linarith)

theorem half_lt_iff (n k : Int) : ((k : ℚ) > (n : ℚ) / 2) ↔ n < 2 * k := by
  rw [gt_iff_lt, div_lt_iff₀ (by norm_num)]
  constructor
  · intro h
    have : ((n : ℚ)) < ((2 * k : Int) : ℚ) := by
      push_cast
      linarith
    exact_mod_cast this
  · intro h
    have : ((n : ℚ)) < ((2 * k : Int) : ℚ) := by exact_mod_cast h
    push_cast at this
    linarith

theorem combinations_eq_choose (n k : Nat) (h : k ≤ n)
    (hrep : ∀ j : Nat, j < min k (n - k) → n.choose j * (n - j) < 2 ^ 53) :
    combinations (n : Int) (k : Int) = (n.choose k : Int) := by
  unfold combinations
  rw [if_neg (by omega)]
  by_cases h0 : (k : Int) = 0 ∨ (k : Int) = n
  · rw [if_pos h0]
    rcases h0 with h0 | h0
    · have : k = 0 := by omega
      subst this
      simp
    · have : k = n := by omega
      subst this
      simp
  · rw [if_neg h0]
    by_cases hhalf : ((k : Int) : ℚ) > ((n : Int) : ℚ) / 2
    · simp only [if_pos hhalf]
      have hlt := (half_lt_iff n k).1 hhalf
      have ht : ((n : Int) - (k : Int)).toNat = n - k := by omega
      rw [ht, combinationsLoop_eq_choose n (n - k) (by omega)
        (fun j hj => hrep j (by omega)), mathRound_natCast, Nat.choose_symm h]
    · simp only [if_neg hhalf]
      have hge : ¬ (n : Int) < 2 * (k : Int) := fun hlt => hhalf ((half_lt_iff n k).2 hlt)
      rw [Int.toNat_natCast, combinationsLoop_eq_choose n k h
        (fun j hj => hrep j (by omega)), mathRound_natCast]

theorem combinations_of_out_of_range (n k : Int) (h : k < 0 ∨ k > n) : combinations n k = 0 := by
  unfold combinations
  rw [if_pos h]

theorem combinations_symm (n k : Int) : combinations n (n - k) = combinations n k := by
  by_cases h : k < 0 ∨ k > n
  · rw [combinations_of_out_of_range n k h, combinations_of_out_of_range n (n - k) (by omega)]
  · unfold combinations
    rw [if_neg h, if_neg (by omega)]
    by_cases h0 : k = 0 ∨ k = n
    · rw [if_pos h0, if_pos (by omega)]
    · rw [if_neg h0, if_neg (by omega)]
      have hk : (if ((n - k : Int) : ℚ) > (n : ℚ) / 2 then n - (n - k) else n - k) =
          (if (k : ℚ) > (n : ℚ) / 2 then n - k else k) := by
        by_cases h1 : (k : ℚ) > (n : ℚ) / 2
        · have h1i := (half_lt_iff n k).1 h1
          rw [if_pos h1, if_neg (fun h2 => by
            have := (half_lt_iff n (n - k)).1 h2
            omega)]
        · have h1i : ¬ n < 2 * k := fun hlt => h1 ((half_lt_iff n k).2 hlt)
          rw [if_neg h1]
          by_cases h2 : ((n - k : Int) : ℚ) > (n : ℚ) / 2
          · rw [if_pos h2]
            omega
          · have h2i : ¬ n < 2 * (n - k) := fun hlt => h2 ((half_lt_iff n (n - k)).2 hlt)
            rw [if_neg h2]
            omega
      simp only [hk]

theorem combinations_pos (selectedGame : GameId) :
    0 < combinations (gameProperties selectedGame).range
      (gameProperties selectedGame).standardSize := by
  cases selectedGame <;> decide!

/-! ## Lemmas on the delta sum and the similarity percentage -/

theorem deltaSumLoop_eq (a : Int) (l : List Int) (acc : Int) :
    deltaSumLoop (a :: l) acc = acc + ((a :: l).getLast (List.cons_ne_nil a l) - a) := by
  induction l generalizing a acc with
  | nil => simp [deltaSumLoop]
  | cons b t ih =>
    rw [deltaSumLoop, ih, List.getLast_cons (List.cons_ne_nil b t)]
    ring

theorem sorted_le_getLast (s : List Int) (hs : s.Sorted (· ≤ ·)) (hne : s ≠ []) :
    ∀ x ∈ s, x ≤ s.getLast hne := by
  induction s with
  | nil => exact absurd rfl hne
  | cons a t ih =>
    intro x hx
    cases t with
    | nil =>
      have : x = a := by simpa using hx
      subst this
      simp
    | cons b u =>
      have hs2 : (b :: u).Sorted (· ≤ ·) := hs.of_cons
      rw [List.getLast_cons (List.cons_ne_nil b u)]
      rcases List.mem_cons.1 hx with rfl | hx
      · exact le_trans (List.rel_of_sorted_cons hs b (List.mem_cons_self _ _))
          (ih hs2 (List.cons_ne_nil b u) b (List.mem_cons_self _ _))
      · exact ih hs2 (List.cons_ne_nil b u) x hx

theorem deltaSum_sortAsc (numbers : List Int) (lo hi : Int) (hlo : lo ∈ numbers)
    (hhi : hi ∈ numbers) (hmin : ∀ x ∈ numbers, lo ≤ x) (hmax : ∀ x ∈ numbers, x ≤ hi) :
    deltaSumLoop (sortAsc numbers) 0 = hi - lo := by
  have hs := sortAsc_sorted numbers
  cases hsort : sortAsc numbers with
  | nil =>
    have : lo ∈ sortAsc numbers := mem_sortAsc.2 hlo
    rw [hsort] at this
    exact absurd this (List.not_mem_nil _)
  | cons a t =>
    rw [hsort] at hs
    have hmem : ∀ x, x ∈ a :: t ↔ x ∈ numbers := by
      intro x
      rw [← hsort]
      exact mem_sortAsc
    have ha : a = lo := by
      have h1 : lo ≤ a := hmin a ((hmem a).1 (List.mem_cons_self _ _))
      have h2 : a ≤ lo := by
        rcases List.mem_cons.1 ((hmem lo).2 hlo) with h | h
        · exact le_of_eq h.symm
        · exact List.rel_of_sorted_cons hs lo h
      exact le_antisymm h2 h1
    have hl : (a :: t).getLast (List.cons_ne_nil a t) = hi := by
      have h1 : (a :: t).getLast (List.cons_ne_nil a t) ≤ hi :=
        hmax _ ((hmem _).1 (List.getLast_mem _))
      have h2 := sorted_le_getLast (a :: t) hs (List.cons_ne_nil a t) hi ((hmem hi).2 hhi)
      exact le_antisymm h1 h2
    rw [deltaSumLoop_eq, hl, ha]
    ring

theorem withinBand_iff (mean stdDev sum : ℚ) :
    withinBand mean stdDev sum = true ↔
      mean - 3 / 2 * stdDev ≤ sum ∧ sum ≤ mean + 3 / 2 * stdDev := by
  unfold withinBand
  simp

theorem similarityFold_ge_iff (f : Draw → ℚ) (t : ℚ) (draws : List Draw) (m : ℚ) :
    t ≤ draws.foldl (fun maxSimilarity historicalDraw =>
        if f historicalDraw > maxSimilarity then f historicalDraw else maxSimilarity) m ↔
      t ≤ m ∨ ∃ d ∈ draws, t ≤ f d := by
  induction draws generalizing m with
  | nil => simp
  | cons d ds ih =>
    rw [List.foldl_cons, ih]
    by_cases h : f d > m
    · rw [if_pos h]
      constructor
      · rintro (h1 | ⟨e, he, h1⟩)
        · exact Or.inr ⟨d, List.mem_cons_self _ _, h1⟩
        · exact Or.inr ⟨e, List.mem_cons_of_mem _ he, h1⟩
      · rintro (h1 | ⟨e, he, h1⟩)
        · exact Or.inl (le_trans h1 (le_of_lt h))
        · rcases List.mem_cons.1 he with rfl | he
          · exact Or.inl h1
          · exact Or.inr ⟨e, he, h1⟩
    · rw [if_neg h]
      constructor
      · rintro (h1 | ⟨e, he, h1⟩)
        · exact Or.inl h1
        · exact Or.inr ⟨e, List.mem_cons_of_mem _ he, h1⟩
      · rintro (h1 | ⟨e, he, h1⟩)
        · exact Or.inl h1
        · rcases List.mem_cons.1 he with rfl | he
          · exact Or.inl (le_trans h1 (not_lt.1 h))
          · exact Or.inr ⟨e, he, h1⟩

theorem calculateSimilarity_ge_iff (numbers : List Int) (draws : List Draw) (t : ℚ)
    (ht : 0 < t) :
    t ≤ calculateSimilarity numbers draws ↔
      ∃ d ∈ draws, t ≤ (((d.main.filter (fun num => decide (num ∈ numbers))).length : Nat) : ℚ)
        / (numbers.length : ℚ) * 100 := by
  unfold calculateSimilarity
  by_cases h0 : draws.length = 0
  · have : draws = [] := List.length_eq_zero.1 h0
    subst this
    simp
    exact ht
  · rw [if_neg h0]
    have h := similarityFold_ge_iff
      (fun d : Draw => (((d.main.filter (fun num => numbers.contains num)).length : Nat) : ℚ)
        / (numbers.length : ℚ) * 100) t draws 0
    have hc : ∀ d : Draw, (d.main.filter (fun num => numbers.contains num)) =
        d.main.filter (fun num => decide (num ∈ numbers)) := by
      intro d
      congr 1
      funext num
      simp
    simp only [hc] at h ⊢
    rw [h]
    constructor
    · rintro (h1 | h1)
      · exact absurd h1 (not_le.2 ht)
      · exact h1
    · exact Or.inr
/-! ## Lemmas on the auto-tune -/

theorem poolSearchStep_max_le (count : Nat → Nat) (st : PoolSearch) (c : Nat) :
    st.maxSuccessfulDraws ≤ (poolSearchStep count st c).maxSuccessfulDraws := by
  unfold poolSearchStep
  split_ifs with h
  · exact le_of_lt h
  · exact le_rfl

theorem poolSearch_foldl_max_le (count : Nat → Nat) (l : List Nat) (st : PoolSearch) :
    st.maxSuccessfulDraws ≤ (l.foldl (poolSearchStep count) st).maxSuccessfulDraws := by
  induction l generalizing st with
  | nil => exact le_rfl
  | cons c t ih =>
    rw [List.foldl_cons]
    exact le_trans (poolSearchStep_max_le count st c) (ih _)

theorem poolSearch_foldl_spec (count : Nat → Nat) (l : List Nat) (st0 : PoolSearch) :
    (l.foldl (poolSearchStep count) st0 = st0 ∧
      ∀ c ∈ l, (count c : Int) ≤ st0.maxSuccessfulDraws) ∨
    (∃ l1 l2 : List Nat,
      l = l1 ++ (l.foldl (poolSearchStep count) st0).bestPoolSizeForStrategy :: l2 ∧
      (l.foldl (poolSearchStep count) st0).maxSuccessfulDraws =
        count (l.foldl (poolSearchStep count) st0).bestPoolSizeForStrategy ∧
      st0.maxSuccessfulDraws < (l.foldl (poolSearchStep count) st0).maxSuccessfulDraws ∧
      (∀ c ∈ l1, (count c : Int) < (l.foldl (poolSearchStep count) st0).maxSuccessfulDraws) ∧
      ∀ c ∈ l2, (count c : Int) ≤ (l.foldl (poolSearchStep count) st0).maxSuccessfulDraws) := by
  induction l generalizing st0 with
  | nil => exact Or.inl ⟨rfl, by simp⟩
  | cons a t ih =>
    rw [List.foldl_cons]
    by_cases h : (count a : Int) > st0.maxSuccessfulDraws
    · have hstep : poolSearchStep count st0 a =
          { bestPoolSizeForStrategy := a, maxSuccessfulDraws := count a } := by
        unfold poolSearchStep
        rw [if_pos h]
      rcases ih (poolSearchStep count st0 a) with ⟨heq, hle⟩ | ⟨l1, l2, hl, hmax, hlt, h1, h2⟩
      · right
        rw [heq, hstep]
        refine ⟨[], t, rfl, rfl, h, by simp, ?_⟩
        intro c hc
        have := hle c hc
        rwa [hstep] at this
      · right
        refine ⟨a :: l1, l2, by rw [List.cons_append, ← hl], hmax, ?_, ?_, h2⟩
        · exact lt_of_le_of_lt (poolSearchStep_max_le count st0 a) hlt
        · intro c hc
          rcases List.mem_cons.1 hc with rfl | hc
          · have hc2 : (poolSearchStep count st0 c).maxSuccessfulDraws = (count c : Int) := by
              rw [hstep]
            rw [← hc2]
            exact hlt
          · exact h1 c hc
    · have hstep : poolSearchStep count st0 a = st0 := by
        unfold poolSearchStep
        rw [if_neg h]
      rw [hstep]
      rcases ih st0 with ⟨heq, hle⟩ | ⟨l1, l2, hl, hmax, hlt, h1, h2⟩
      · left
        refine ⟨heq, ?_⟩
        intro c hc
        rcases List.mem_cons.1 hc with rfl | hc
        · exact not_lt.1 h
        · exact hle c hc
      · right
        refine ⟨a :: l1, l2, by rw [List.cons_append, ← hl], hmax, hlt, ?_, h2⟩
        intro c hc
        rcases List.mem_cons.1 hc with rfl | hc
        · exact lt_of_le_of_lt (not_lt.1 h) hlt
        · exact h1 c hc

theorem mem_scannedPoolSizes {standardSize range c : Nat} :
    c ∈ scannedPoolSizes standardSize range ↔ standardSize ≤ c ∧ c ≤ range := by
  unfold scannedPoolSizes
  rw [List.mem_range'_1]
  omega

theorem poolSearchAfter_mono (count : Nat → Nat) (standardSize range i j : Nat) (h : i ≤ j) :
    (poolSearchAfter count standardSize range i).maxSuccessfulDraws ≤
      (poolSearchAfter count standardSize range j).maxSuccessfulDraws := by
  unfold poolSearchAfter
  have hsplit : (scannedPoolSizes standardSize range).take j =
      (scannedPoolSizes standardSize range).take i ++
        ((scannedPoolSizes standardSize range).take j).drop i := by
    conv_lhs => rw [← List.take_append_drop i ((scannedPoolSizes standardSize range).take j)]
    rw [List.take_take, Nat.min_eq_left h]
  rw [hsplit, List.foldl_append]
  exact poolSearch_foldl_max_le count _ _

theorem poolSearchAfter_all (count : Nat → Nat) (standardSize range i : Nat)
    (h : range + 1 - standardSize ≤ i) :
    poolSearchAfter count standardSize range i = poolSearch count standardSize range := by
  unfold poolSearchAfter poolSearch
  rw [List.take_of_length_le]
  unfold scannedPoolSizes
  rw [List.length_range']
  exact h

theorem poolSearch_spec (count : Nat → Nat) (standardSize range : Nat)
    (h : standardSize ≤ range) :
    standardSize ≤ (poolSearch count standardSize range).bestPoolSizeForStrategy ∧
    (poolSearch count standardSize range).bestPoolSizeForStrategy ≤ range ∧
    (poolSearch count standardSize range).maxSuccessfulDraws =
      count (poolSearch count standardSize range).bestPoolSizeForStrategy ∧
    (∀ c, standardSize ≤ c → c ≤ range →
      (count c : Int) ≤ (poolSearch count standardSize range).maxSuccessfulDraws) ∧
    (∀ c, standardSize ≤ c → c ≤ range →
      (count c : Int) = (poolSearch count standardSize range).maxSuccessfulDraws →
      (poolSearch count standardSize range).bestPoolSizeForStrategy ≤ c) := by
  have hspec := poolSearch_foldl_spec count (scannedPoolSizes standardSize range)
    { bestPoolSizeForStrategy := range, maxSuccessfulDraws := -1 }
  change (_ ∧ _) ∨ (∃ l1 l2 : List Nat,
    scannedPoolSizes standardSize range =
      l1 ++ (poolSearch count standardSize range).bestPoolSizeForStrategy :: l2 ∧
    (poolSearch count standardSize range).maxSuccessfulDraws =
      count (poolSearch count standardSize range).bestPoolSizeForStrategy ∧
    (-1 : Int) < (poolSearch count standardSize range).maxSuccessfulDraws ∧
    (∀ c ∈ l1, (count c : Int) < (poolSearch count standardSize range).maxSuccessfulDraws) ∧
    ∀ c ∈ l2, (count c : Int) ≤ (poolSearch count standardSize range).maxSuccessfulDraws)
    at hspec
  rcases hspec with ⟨-, hle⟩ | ⟨l1, l2, hl, hmax, -, h1, h2⟩
  · have := hle standardSize (mem_scannedPoolSizes.2 ⟨le_rfl, h⟩)
    have hnn : (0 : Int) ≤ (count standardSize : Int) := Int.natCast_nonneg _
    change (count standardSize : Int) ≤ -1 at this
    omega
  · have hbest : (poolSearch count standardSize range).bestPoolSizeForStrategy ∈
        scannedPoolSizes standardSize range := by
      rw [hl]
      simp
    have hpw : (scannedPoolSizes standardSize range).Pairwise (· < ·) := by
      unfold scannedPoolSizes
      exact List.pairwise_lt_range' _ _
    have hall : ∀ c ∈ scannedPoolSizes standardSize range,
        (count c : Int) ≤ (poolSearch count standardSize range).maxSuccessfulDraws := by
      intro c hc
      rw [hl] at hc
      rcases List.mem_append.1 hc with hc | hc
      · exact le_of_lt (h1 c hc)
      · rcases List.mem_cons.1 hc with rfl | hc
        · exact le_of_eq hmax.symm
        · exact h2 c hc
    refine ⟨(mem_scannedPoolSizes.1 hbest).1, (mem_scannedPoolSizes.1 hbest).2, hmax, ?_, ?_⟩
    · intro c hc1 hc2
      exact hall c (mem_scannedPoolSizes.2 ⟨hc1, hc2⟩)
    · intro c hc1 hc2 heq
      have hc : c ∈ scannedPoolSizes standardSize range := mem_scannedPoolSizes.2 ⟨hc1, hc2⟩
      rw [hl] at hc hpw
      rcases List.mem_append.1 hc with hc | hc
      · exact absurd heq (ne_of_lt (h1 c hc))
      · rcases List.mem_cons.1 hc with rfl | hc
        · exact le_rfl
        · have := (List.pairwise_append.1 hpw).2.1
          exact le_of_lt (List.rel_of_pairwise_cons this hc)

theorem standardSize_le_range (selectedGame : GameId) :
    (gameProperties selectedGame).standardSize ≤ (gameProperties selectedGame).range := by
  cases selectedGame <;> decide

theorem hitTarget_le_standardSize (selectedGame : GameId) :
    hitTarget selectedGame ≤ (gameProperties selectedGame).standardSize := by
  cases selectedGame <;> decide

theorem foldl_count_le {α : Type} (f : Nat → α → Nat) (l : List α)
    (h : ∀ acc x, f acc x ≤ acc + 1) (a : Nat) : l.foldl f a ≤ a + l.length := by
  induction l generalizing a with
  | nil => simp
  | cons x t ih =>
    rw [List.foldl_cons, List.length_cons]
    have := ih (f a x)
    have := h a x
    omega

theorem foldl_count_all {α : Type} (f : Nat → α → Nat) (l : List α)
    (h : ∀ acc, ∀ x ∈ l, f acc x = acc + 1) (a : Nat) : l.foldl f a = a + l.length := by
  induction l generalizing a with
  | nil => simp
  | cons x t ih =>
    rw [List.foldl_cons, List.length_cons, h a x (List.mem_cons_self _ _),
      ih (fun acc y hy => h acc y (List.mem_cons_of_mem _ hy))]
    omega

theorem recentDrawsToAnalyze_length (validDraws : List Draw) (h : 10 ≤ validDraws.length) :
    (recentDrawsToAnalyze validDraws).length = 10 := by
  unfold recentDrawsToAnalyze
  rw [List.length_drop]
  omega

theorem successfulDrawsCount_le (calculateFrequencies : List Draw → Nat → Int → Option Nat)
    (selectedGame : GameId) (validDraws : List Draw) (currentPoolSize : Nat) :
    successfulDrawsCount calculateFrequencies selectedGame validDraws currentPoolSize ≤
      (recentDrawsToAnalyze validDraws).length := by
  unfold successfulDrawsCount
  have := foldl_count_le
    (fun successfulDrawsCount recentDraw =>
      if (historyBeforeDraw validDraws recentDraw).length < 20 then successfulDrawsCount
      else
        if hitTarget selectedGame ≤ (recentDraw.main.filter (fun num =>
            (frequencyPool (calculateFrequencies (historyBeforeDraw validDraws recentDraw)
              (gameProperties selectedGame).range) (gameProperties selectedGame).range
              currentPoolSize).contains num)).length then successfulDrawsCount + 1
        else successfulDrawsCount)
    (recentDrawsToAnalyze validDraws)
    (by
      intro acc x
      dsimp only
      split_ifs <;> omega) 0
  simpa using this

theorem frequencyPool_full (frequencies : Int → Option Nat) (range : Nat) (n : Int)
    (h1 : 1 ≤ n) (h2 : n ≤ range) : n ∈ frequencyPool frequencies range range := by
  obtain ⟨hperm, -⟩ := frequencyPool_sorted frequencies range
  unfold frequencyPool
  dsimp only
  rw [List.take_of_length_le]
  · exact hperm.mem_iff.2 (mem_allNumbers.2 ⟨h1, h2⟩)
  · rw [List.length_insertionSort, List.length_map, allNumbers_length]

theorem historyBeforeDraw_length (validDraws : List Draw)
    (hpw : validDraws.Pairwise (fun a b => a.date < b.date)) (k : Nat)
    (draw : Draw) (hd : draw ∈ validDraws.drop k) (hk : k ≤ validDraws.length) :
    k ≤ (historyBeforeDraw validDraws draw).length := by
  unfold historyBeforeDraw
  have hsplit := List.take_append_drop k validDraws
  have hpw2 := hpw
  rw [← hsplit] at hpw2
  have hlt := (List.pairwise_append.1 hpw2).2.2
  conv_rhs => rw [← hsplit]
  rw [List.filter_append, List.length_append]
  have hall : (validDraws.take k).filter (fun d => decide (d.date < draw.date)) =
      validDraws.take k := by
    rw [List.filter_eq_self]
    intro a ha
    exact decide_eq_true (hlt a ha draw hd)
  rw [hall, List.length_take]
  omega

theorem pairwise_date_lt (validDraws : List Draw)
    (hsorted : validDraws.Sorted (fun a b => a.date ≤ b.date))
    (hdates : (validDraws.map (fun d => d.date)).Nodup) :
    validDraws.Pairwise (fun a b => a.date < b.date) := by
  have h1 : validDraws.Pairwise (fun a b => a.date ≠ b.date) := by
    have := hdates
    unfold List.Nodup at this
    rwa [List.pairwise_map] at this
  exact (List.Pairwise.and hsorted h1).imp (fun h => lt_of_le_of_ne h.1 h.2)

theorem successfulDrawsCount_full (calculateFrequencies : List Draw → Nat → Int → Option Nat)
    (selectedGame : GameId) (validDraws : List Draw) (hlen : 30 ≤ validDraws.length)
    (hpw : validDraws.Pairwise (fun a b => a.date < b.date))
    (hmain : ∀ d ∈ validDraws, d.main.length = (gameProperties selectedGame).standardSize ∧
      ∀ n ∈ d.main, 1 ≤ n ∧ n ≤ (gameProperties selectedGame).range) :
    successfulDrawsCount calculateFrequencies selectedGame validDraws
      (gameProperties selectedGame).range = 10 := by
  unfold successfulDrawsCount
  have := foldl_count_all
    (fun successfulDrawsCount recentDraw =>
      if (historyBeforeDraw validDraws recentDraw).length < 20 then successfulDrawsCount
      else
        if hitTarget selectedGame ≤ (recentDraw.main.filter (fun num =>
            (frequencyPool (calculateFrequencies (historyBeforeDraw validDraws recentDraw)
              (gameProperties selectedGame).range) (gameProperties selectedGame).range
              (gameProperties selectedGame).range).contains num)).length
        then successfulDrawsCount + 1
        else successfulDrawsCount)
    (recentDrawsToAnalyze validDraws)
    (by
      intro acc x hx
      have hx2 : x ∈ validDraws := List.mem_of_mem_drop hx
      have hhist := historyBeforeDraw_length validDraws hpw (validDraws.length - 10) x hx
        (by omega)
      have hfilter : x.main.filter (fun num =>
          (frequencyPool (calculateFrequencies (historyBeforeDraw validDraws x)
            (gameProperties selectedGame).range) (gameProperties selectedGame).range
            (gameProperties selectedGame).range).contains num) = x.main := by
        rw [List.filter_eq_self]
        intro n hn
        have := (hmain x hx2).2 n hn
        simpa using frequencyPool_full _ _ n this.1 this.2
      dsimp only
      rw [if_neg (by omega), hfilter, (hmain x hx2).1,
        if_pos (hitTarget_le_standardSize selectedGame)]) 0
  rw [recentDrawsToAnalyze_length validDraws (by omega)] at this
  simpa using this

theorem finalTickets_ten : finalTickets 10 = 5 := by
  decide!

theorem exceedsFailureThreshold_iff (count length : Nat) (h : 0 < length) :
    exceedsFailureThreshold count length = true ↔ length < 2 * count := by
  unfold exceedsFailureThreshold
  rw [decide_eq_true_iff, gt_iff_lt, lt_div_iff₀ (by exact_mod_cast h)]
  constructor
  · intro hlt
    have : ((length : ℚ)) < 2 * (count : ℚ) := by linarith
    exact_mod_cast this
  · intro hlt
    have : ((length : ℚ)) < 2 * (count : ℚ) := by exact_mod_cast hlt
    linarith
/-! ## Lemmas on Phase 2 of the auto-tune -/

theorem countFailedFilters_fold (s : AppState) (oneYearAgo twoYearsAgo : Int)
    (field : FailedFilterCounts → Nat) (rejects : Draw → Bool)
    (hstep : ∀ (c : FailedFilterCounts) (d : Draw),
      field (countFailedFilters s oneYearAgo twoYearsAgo c d) =
        field c + (if rejects d then 1 else 0))
    (l : List Draw) (c : FailedFilterCounts) :
    field (l.foldl (countFailedFilters s oneYearAgo twoYearsAgo) c) =
      field c + (l.filter rejects).length := by
  induction l generalizing c with
  | nil => simp
  | cons d t ih =>
    rw [List.foldl_cons, ih, hstep]
    by_cases h : rejects d = true
    · simp only [List.filter_cons, h, if_true, List.length_cons]
      omega
    · have hf : rejects d = false := by simpa using h
      simp only [List.filter_cons, hf, Bool.false_eq_true, if_false]
      omega

theorem toggle_after_threshold (before : Bool) (count length : Nat) :
    (if length > 0 then
        (if exceedsFailureThreshold count length = true then false else before)
      else before) =
      (before && !decide (0 < length ∧ length < 2 * count)) := by
  by_cases hpos : 0 < length
  · rw [if_pos hpos]
    by_cases hex : exceedsFailureThreshold count length = true
    · rw [if_pos hex]
      have := (exceedsFailureThreshold_iff count length hpos).1 hex
      simp [hpos, this]
    · rw [if_neg hex]
      have : ¬ length < 2 * count :=
        fun h => hex ((exceedsFailureThreshold_iff count length hpos).2 h)
      simp [this]
  · rw [if_neg hpos]
    simp [hpos]

theorem toggle_after_positive (before : Bool) (count length : Nat) (hpos : 0 < length) :
    (if exceedsFailureThreshold count length = true then false else before) =
      (before && !decide (0 < length ∧ length < 2 * count)) := by
  have := toggle_after_threshold before count length
  rwa [if_pos hpos] at this

theorem disableFailingFilters_spec (cfg : FilterConfig) (c : FailedFilterCounts)
    (length : Nat) :
    (disableFailingFilters cfg c length).filterLimitSequentials =
      (cfg.filterLimitSequentials && !decide (0 < length ∧ length < 2 * c.sequential)) ∧
    (disableFailingFilters cfg c length).filterCheckBalance =
      (cfg.filterCheckBalance && !decide (0 < length ∧ length < 2 * c.balance)) ∧
    (disableFailingFilters cfg c length).filterUseStatisticalSum =
      (cfg.filterUseStatisticalSum && !decide (0 < length ∧ length < 2 * c.sum)) ∧
    (disableFailingFilters cfg c length).filterUsePositional =
      (cfg.filterUsePositional && !decide (0 < length ∧ length < 2 * c.positional)) ∧
    (disableFailingFilters cfg c length).filterCheckSimilarity =
      (cfg.filterCheckSimilarity && !decide (0 < length ∧ length < 2 * c.similarity)) ∧
    (disableFailingFilters cfg c length).filterUseDelta =
      (cfg.filterUseDelta && !decide (0 < length ∧ length < 2 * c.delta)) ∧
    (disableFailingFilters cfg c length).filterUseLastDigits =
      (cfg.filterUseLastDigits && !decide (0 < length ∧ length < 2 * c.lastDigit)) ∧
    (disableFailingFilters cfg c length).filterUseConsecutive =
      (cfg.filterUseConsecutive && !decide (0 < length ∧ length < 2 * c.consecutive)) ∧
    (disableFailingFilters cfg c length).filterUseNumberGroups =
      (cfg.filterUseNumberGroups && !decide (0 < length ∧ length < 2 * c.group)) ∧
    (disableFailingFilters cfg c length).filterUseDigitSum =
      (cfg.filterUseDigitSum && !decide (0 < length ∧ length < 2 * c.digitSum)) ∧
    (disableFailingFilters cfg c length).filterUseRankSum =
      (cfg.filterUseRankSum && !decide (0 < length ∧ length < 2 * c.rankSum)) ∧
    (disableFailingFilters cfg c length).filterUseArithmetic =
      (cfg.filterUseArithmetic && !decide (0 < length ∧ length < 2 * c.arithmetic)) ∧
    (disableFailingFilters cfg c length).similarityThreshold = cfg.similarityThreshold ∧
    (disableFailingFilters cfg c length).recentSimilarityThreshold =
      cfg.recentSimilarityThreshold ∧
    (length = 0 → disableFailingFilters cfg c length = cfg) := by
  by_cases hpos : 0 < length
  · unfold disableFailingFilters
    rw [if_pos hpos]
    dsimp only
    exact ⟨toggle_after_positive _ _ _ hpos, toggle_after_positive _ _ _ hpos,
      toggle_after_positive _ _ _ hpos, toggle_after_positive _ _ _ hpos,
      toggle_after_positive _ _ _ hpos, toggle_after_positive _ _ _ hpos,
      toggle_after_positive _ _ _ hpos, toggle_after_positive _ _ _ hpos,
      toggle_after_positive _ _ _ hpos, toggle_after_positive _ _ _ hpos,
      toggle_after_positive _ _ _ hpos, toggle_after_positive _ _ _ hpos, rfl, rfl,
      fun h0 => absurd h0 (by omega)⟩
  · have hcfg : disableFailingFilters cfg c length = cfg := by
      unfold disableFailingFilters
      rw [if_neg hpos]
    rw [hcfg]
    simp [hpos]

/-! ## Lemmas on the reduction report -/

theorem attributedSamples_ite {c : Prop} [Decidable c] (a b : EliminationCounts) (n : Nat)
    (ha : attributedSamples a ≤ n) (hb : attributedSamples b ≤ n) :
    attributedSamples (if c then a else b) ≤ n := by
  split_ifs
  · exact ha
  · exact hb

theorem countElimination_attributed (s : AppState) (lastYearDraws olderDraws : List Draw)
    (lastDrawNumbers : Option (List Int)) (aiProbabilities : Option (List ℚ))
    (eliminationCounts : EliminationCounts) (randomSet : List Int) :
    attributedSamples (countElimination s lastYearDraws olderDraws lastDrawNumbers
      aiProbabilities eliminationCounts randomSet) ≤ attributedSamples eliminationCounts + 1 := by
  unfold countElimination
  dsimp only
  refine attributedSamples_ite _ _ _ (by simp only [attributedSamples]; omega) ?_
  refine attributedSamples_ite _ _ _ (by simp only [attributedSamples]; omega) ?_
  refine attributedSamples_ite _ _ _ (by simp only [attributedSamples]; omega) ?_
  refine attributedSamples_ite _ _ _ (by simp only [attributedSamples]; omega) ?_
  refine attributedSamples_ite _ _ _ (by simp only [attributedSamples]; omega) ?_
  refine attributedSamples_ite _ _ _ (by simp only [attributedSamples]; omega) ?_
  refine attributedSamples_ite _ _ _ (by simp only [attributedSamples]; omega) ?_
  refine attributedSamples_ite _ _ _ (by simp only [attributedSamples]; omega) ?_
  refine attributedSamples_ite _ _ _ (by simp only [attributedSamples]; omega) ?_
  refine attributedSamples_ite _ _ _ (by simp only [attributedSamples]; omega) ?_
  refine attributedSamples_ite _ _ _ (by simp only [attributedSamples]; omega) ?_
  refine attributedSamples_ite _ _ _ (by simp only [attributedSamples]; omega) ?_
  cases aiProbabilities with
  | none => simp only [attributedSamples]; omega
  | some probabilities =>
    dsimp only
    refine attributedSamples_ite _ _ _ (by simp only [attributedSamples]; omega)
      (by simp only [attributedSamples]; omega)

theorem eliminationCountsAfter_attributed (s : AppState) (oneYearAgo twoYearsAgo : Int)
    (aiProbabilities : Option (List ℚ)) (shuffled : Nat → List Int) (passes : Nat) :
    attributedSamples
      (eliminationCountsAfter s oneYearAgo twoYearsAgo aiProbabilities shuffled passes) ≤
      passes := by
  unfold eliminationCountsAfter
  dsimp only
  have key : ∀ (l : List Nat) (c : EliminationCounts),
      attributedSamples (l.foldl (fun eliminationCounts i =>
        countElimination s (lastYearDrawsOf s.validDraws oneYearAgo)
          (olderDrawsOf s.validDraws oneYearAgo twoYearsAgo) (lastDrawNumbersOf s.validDraws)
          aiProbabilities eliminationCounts
          (sortAsc ((shuffled i).take (gameProperties s.selectedGame).standardSize))) c) ≤
        attributedSamples c + l.length := by
    intro l
    induction l with
    | nil => intro c; simp
    | cons i t ih =>
      intro c
      rw [List.foldl_cons, List.length_cons]
      have h1 := ih (countElimination s (lastYearDrawsOf s.validDraws oneYearAgo)
        (olderDrawsOf s.validDraws oneYearAgo twoYearsAgo) (lastDrawNumbersOf s.validDraws)
        aiProbabilities c
        (sortAsc ((shuffled i).take (gameProperties s.selectedGame).standardSize)))
      have h2 := countElimination_attributed s (lastYearDrawsOf s.validDraws oneYearAgo)
        (olderDrawsOf s.validDraws oneYearAgo twoYearsAgo) (lastDrawNumbersOf s.validDraws)
        aiProbabilities c
        (sortAsc ((shuffled i).take (gameProperties s.selectedGame).standardSize))
      omega
  have := key (List.range passes)
    { sequential := 0, balance := 0, sum := 0, positional := 0, similarity := 0, delta := 0,
      lastDigit := 0, ai := 0, consecutive := 0, group := 0, digitSum := 0, rankSum := 0,
      arithmetic := 0 }
  simpa [attributedSamples] using this

theorem processFilterCalls_count_le (cfg : FilterConfig) (aiModel : Bool)
    (eliminationCounts : EliminationCounts) :
    ∀ call ∈ processFilterCalls cfg aiModel eliminationCounts,
      call.2.1 ≤ attributedSamples eliminationCounts := by
  intro call hcall
  unfold processFilterCalls at hcall
  simp only [List.mem_cons, List.mem_singleton, List.not_mem_nil, or_false] at hcall
  unfold attributedSamples
  rcases hcall with h | h | h | h | h | h | h | h | h | h | h | h | h <;>
    (rw [h]; dsimp only; omega)

theorem processFilter_fold_bounds (calls : List (String × Nat × Bool))
    (hcalls : ∀ call ∈ calls, call.2.1 ≤ sampleSize) (state : ℚ × List AnalysisStep)
    (h0 : 0 ≤ state.1) :
    0 ≤ (calls.foldl processFilter state).1 ∧ (calls.foldl processFilter state).1 ≤ state.1 := by
  induction calls generalizing state with
  | nil => exact ⟨h0, le_rfl⟩
  | cons call rest ih =>
    rw [List.foldl_cons]
    have hc : ((call.2.1 : ℚ)) / (sampleSize : ℚ) ≤ 1 := by
      rw [div_le_one (by norm_num [sampleSize])]
      exact_mod_cast hcalls call (List.mem_cons_self _ _)
    have hc0 : (0 : ℚ) ≤ (call.2.1 : ℚ) / (sampleSize : ℚ) := by positivity
    have hstep : 0 ≤ (processFilter state call).1 ∧ (processFilter state call).1 ≤ state.1 := by
      unfold processFilter
      split_ifs
      · dsimp only
        constructor <;> nlinarith
      · exact ⟨h0, le_rfl⟩
    have := ih (fun c hc => hcalls c (List.mem_cons_of_mem _ hc)) (processFilter state call)
      hstep.1
    exact ⟨this.1, le_trans this.2 hstep.2⟩

theorem processFilter_fold_steps (calls : List (String × Nat × Bool))
    (hcalls : ∀ call ∈ calls, call.2.1 ≤ sampleSize) (state : ℚ × List AnalysisStep)
    (h0 : 0 ≤ state.1) :
    ∃ added : List AnalysisStep,
      (calls.foldl processFilter state).2 = state.2 ++ added ∧
      (∀ x ∈ added, mathRound (calls.foldl processFilter state).1 ≤ x.remaining ∧
        x.remaining ≤ mathRound state.1) ∧
      (added.map (fun x => x.remaining)).Sorted (· ≥ ·) ∧
      added.map (fun x => x.filter) =
        (calls.filter (fun call => call.2.2)).map (fun call => call.1) := by
  induction calls generalizing state with
  | nil => exact ⟨[], by simp, by simp, by simp, by simp⟩
  | cons call rest ih =>
    rw [List.foldl_cons]
    have hrest : ∀ c ∈ rest, c.2.1 ≤ sampleSize :=
      fun c hc => hcalls c (List.mem_cons_of_mem _ hc)
    have hb := processFilter_fold_bounds [call]
      (fun c hc => hcalls c (by
        have : c = call := by simpa using hc
        rw [this]
        exact List.mem_cons_self _ _)) state h0
    rw [List.foldl_cons, List.foldl_nil] at hb
    obtain ⟨added, hadd, hbounds, hsorted, hnames⟩ := ih hrest (processFilter state call) hb.1
    have hfinal := processFilter_fold_bounds rest hrest (processFilter state call) hb.1
    by_cases hen : call.2.2 = true
    · have hstep : processFilter state call =
          (state.1 - state.1 * ((call.2.1 : ℚ) / (sampleSize : ℚ)),
            state.2 ++ [AnalysisStep.mk call.1
              (mathRound (state.1 - state.1 * ((call.2.1 : ℚ) / (sampleSize : ℚ))))]) := by
        unfold processFilter
        rw [if_pos hen]
      refine ⟨AnalysisStep.mk call.1 (mathRound (processFilter state call).1) :: added,
        ?_, ?_, ?_, ?_⟩
      · rw [hadd, hstep]
        simp
      · intro x hx
        rcases List.mem_cons.1 hx with rfl | hx
        · exact ⟨mathRound_mono hfinal.2, mathRound_mono hb.2⟩
        · exact ⟨(hbounds x hx).1, le_trans (hbounds x hx).2 (mathRound_mono hb.2)⟩
      · rw [List.map_cons]
        refine List.sorted_cons.2 ⟨?_, hsorted⟩
        intro b hb2
        obtain ⟨x, hx, rfl⟩ := List.mem_map.1 hb2
        exact (hbounds x hx).2
      · have hf : (call :: rest).filter (fun call => call.2.2) =
            call :: rest.filter (fun call => call.2.2) := by
          simp [List.filter_cons, hen]
        rw [List.map_cons, hf, List.map_cons, hnames]
    · have hstep : processFilter state call = state := by
        unfold processFilter
        rw [if_neg hen]
      rw [hstep] at hadd hbounds
      refine ⟨added, ?_, ?_, hsorted, ?_⟩
      · rw [hstep]
        exact hadd
      · rw [hstep]
        exact hbounds
      · have hf : (call :: rest).filter (fun call => call.2.2) =
            rest.filter (fun call => call.2.2) := by
          simp [List.filter_cons, hen]
        rw [hf, hnames]

theorem processFilter_fold_reduction (calls : List (String × Nat × Bool))
    (hcalls : ∀ call ∈ calls, call.2.1 ≤ sampleSize) (state : ℚ × List AnalysisStep)
    (h0 : 0 ≤ state.1) :
    state.1 - (calls.foldl processFilter state).1 ≤
      state.1 * ((((calls.filter (fun call => call.2.2)).map (fun call => call.2.1)).sum : Nat)
        : ℚ) / (sampleSize : ℚ) := by
  induction calls generalizing state with
  | nil => simp
  | cons call rest ih =>
    rw [List.foldl_cons]
    have hrest : ∀ c ∈ rest, c.2.1 ≤ sampleSize :=
      fun c hc => hcalls c (List.mem_cons_of_mem _ hc)
    have hb := processFilter_fold_bounds [call]
      (fun c hc => hcalls c (by
        have : c = call := by simpa using hc
        rw [this]
        exact List.mem_cons_self _ _)) state h0
    rw [List.foldl_cons, List.foldl_nil] at hb
    have hih := ih hrest (processFilter state call) hb.1
    have hsum0 : (0 : ℚ) ≤ ((((rest.filter (fun call => call.2.2)).map
        (fun call => call.2.1)).sum : Nat) : ℚ) / (sampleSize : ℚ) := by positivity
    have hmul : (processFilter state call).1 *
        ((((rest.filter (fun call => call.2.2)).map (fun call => call.2.1)).sum : Nat) : ℚ)
          / (sampleSize : ℚ) ≤
        state.1 * ((((rest.filter (fun call => call.2.2)).map
          (fun call => call.2.1)).sum : Nat) : ℚ) / (sampleSize : ℚ) := by
      rw [mul_div_assoc, mul_div_assoc]
      exact mul_le_mul_of_nonneg_right hb.2 hsum0
    by_cases hen : call.2.2 = true
    · have hstep : (processFilter state call).1 =
          state.1 - state.1 * ((call.2.1 : ℚ) / (sampleSize : ℚ)) := by
        unfold processFilter
        rw [if_pos hen]
      have hf : (call :: rest).filter (fun call => call.2.2) =
          call :: rest.filter (fun call => call.2.2) := by
        simp [List.filter_cons, hen]
      rw [hf, List.map_cons, List.sum_cons]
      push_cast
      have : state.1 * ((call.2.1 : ℚ) + ((((rest.filter (fun call => call.2.2)).map
          (fun call => call.2.1)).sum : Nat) : ℚ)) / (sampleSize : ℚ) =
          state.1 * ((call.2.1 : ℚ) / (sampleSize : ℚ)) +
          state.1 * ((((rest.filter (fun call => call.2.2)).map
            (fun call => call.2.1)).sum : Nat) : ℚ) / (sampleSize : ℚ) := by
        ring
      push_cast at this hih hmul ⊢
      rw [this]
      linarith
    · have hstep : processFilter state call = state := by
        unfold processFilter
        rw [if_neg hen]
      have hf : (call :: rest).filter (fun call => call.2.2) =
          rest.filter (fun call => call.2.2) := by
        simp [List.filter_cons, hen]
      rw [hf, hstep]
      rw [hstep] at hih
      exact hih

theorem handleCombinationReductionAnalysis_eq (s : AppState) (oneYearAgo twoYearsAgo : Int)
    (aiProbabilities : Option (List ℚ)) (shuffled : Nat → List Int) :
    handleCombinationReductionAnalysis s oneYearAgo twoYearsAgo aiProbabilities shuffled =
      if s.validDraws.length = 0 then none
      else some (reductionReport
        (combinations (gameProperties s.selectedGame).range
          (gameProperties s.selectedGame).standardSize) s.cfg aiProbabilities.isSome
        (eliminationCountsAfter s oneYearAgo twoYearsAgo aiProbabilities shuffled
          sampleSize)) := by
  rfl

theorem reductionReport_bounds (totalCombinations : Int) (cfg : FilterConfig) (aiModel : Bool)
    (eliminationCounts : EliminationCounts) (htotal : 0 < totalCombinations)
    (hcounts : attributedSamples eliminationCounts ≤ sampleSize) :
    (reductionReport totalCombinations cfg aiModel eliminationCounts).final ≤
      (reductionReport totalCombinations cfg aiModel eliminationCounts).initial ∧
    0 ≤ (reductionReport totalCombinations cfg aiModel eliminationCounts).final ∧
    0 ≤ (reductionReport totalCombinations cfg aiModel eliminationCounts).eliminationPercent ∧
    (reductionReport totalCombinations cfg aiModel eliminationCounts).eliminationPercent ≤ 100 ∧
    ((reductionReport totalCombinations cfg aiModel eliminationCounts).initial ::
      ((reductionReport totalCombinations cfg aiModel eliminationCounts).steps.map
        (fun x => x.remaining) ++
        [(reductionReport totalCombinations cfg aiModel eliminationCounts).final])).Sorted
      (· ≥ ·) ∧
    (reductionReport totalCombinations cfg aiModel eliminationCounts).eliminationPercent ≤
      100 * (attributedToEnabled cfg aiModel eliminationCounts : ℚ) / (sampleSize : ℚ) := by
  have hcalls : ∀ call ∈ processFilterCalls cfg aiModel eliminationCounts,
      call.2.1 ≤ sampleSize :=
    fun call hcall => le_trans (processFilterCalls_count_le cfg aiModel eliminationCounts
      call hcall) hcounts
  have ht0 : (0 : ℚ) < (totalCombinations : ℚ) := by exact_mod_cast htotal
  have hb := processFilter_fold_bounds _ hcalls ((totalCombinations : ℚ), []) (le_of_lt ht0)
  obtain ⟨added, hadd, hbounds, hsorted, -⟩ :=
    processFilter_fold_steps _ hcalls ((totalCombinations : ℚ), []) (le_of_lt ht0)
  have hred := processFilter_fold_reduction _ hcalls ((totalCombinations : ℚ), [])
    (le_of_lt ht0)
  unfold reductionReport attributedToEnabled
  dsimp only at hb hadd hbounds hred ⊢
  have hfin : mathRound ((processFilterCalls cfg aiModel eliminationCounts).foldl processFilter
      ((totalCombinations : ℚ), [])).1 ≤ totalCombinations := by
    have := mathRound_mono hb.2
    rwa [mathRound_intCast] at this
  have hfin0 : 0 ≤ mathRound ((processFilterCalls cfg aiModel eliminationCounts).foldl
      processFilter ((totalCombinations : ℚ), [])).1 := by
    have := mathRound_mono hb.1
    have h00 : mathRound (0 : ℚ) = 0 := by
      have := mathRound_intCast 0
      simpa using this
    rwa [h00] at this
  have hq : ((processFilterCalls cfg aiModel eliminationCounts).foldl processFilter
      ((totalCombinations : ℚ), [])).1 / (totalCombinations : ℚ) ≤ 1 := by
    rw [div_le_one ht0]
    exact hb.2
  have hq0 : 0 ≤ ((processFilterCalls cfg aiModel eliminationCounts).foldl processFilter
      ((totalCombinations : ℚ), [])).1 / (totalCombinations : ℚ) :=
    div_nonneg hb.1 (le_of_lt ht0)
  refine ⟨hfin, hfin0, by linarith, by linarith, ?_, ?_⟩
  · rw [hadd, List.nil_append]
    refine List.sorted_cons.2 ⟨?_, ?_⟩
    · intro b hb2
      rcases List.mem_append.1 hb2 with h | h
      · obtain ⟨x, hx, rfl⟩ := List.mem_map.1 h
        have := (hbounds x hx).2
        rwa [mathRound_intCast] at this
      · have : b = mathRound ((processFilterCalls cfg aiModel eliminationCounts).foldl
            processFilter ((totalCombinations : ℚ), [])).1 := by simpa using h
        rw [this]
        exact hfin
    · unfold List.Sorted
      rw [List.pairwise_append]
      refine ⟨hsorted, List.pairwise_singleton _ _, ?_⟩
      intro a ha b hb2
      obtain ⟨x, hx, rfl⟩ := List.mem_map.1 ha
      have : b = mathRound ((processFilterCalls cfg aiModel eliminationCounts).foldl
          processFilter ((totalCombinations : ℚ), [])).1 := by simpa using hb2
      rw [this]
      exact (hbounds x hx).1
  · have h1 : (1 - ((processFilterCalls cfg aiModel eliminationCounts).foldl processFilter
        ((totalCombinations : ℚ), [])).1 / (totalCombinations : ℚ)) =
        ((totalCombinations : ℚ) - ((processFilterCalls cfg aiModel eliminationCounts).foldl
          processFilter ((totalCombinations : ℚ), [])).1) / (totalCombinations : ℚ) := by
      field_simp
    rw [h1]
    have h2 : ((totalCombinations : ℚ) - ((processFilterCalls cfg aiModel
        eliminationCounts).foldl processFilter ((totalCombinations : ℚ), [])).1) /
        (totalCombinations : ℚ) ≤
        ((((processFilterCalls cfg aiModel eliminationCounts).filter
          (fun call => call.2.2)).map (fun call => call.2.1)).sum : Nat) / (sampleSize : ℚ) := by
      rw [div_le_iff₀ ht0]
      calc (totalCombinations : ℚ) - ((processFilterCalls cfg aiModel
            eliminationCounts).foldl processFilter ((totalCombinations : ℚ), [])).1
          ≤ (totalCombinations : ℚ) * ((((processFilterCalls cfg aiModel
            eliminationCounts).filter (fun call => call.2.2)).map
              (fun call => call.2.1)).sum : Nat) / (sampleSize : ℚ) := hred
        _ = _ := by ring
    calc _ ≤ ((((processFilterCalls cfg aiModel eliminationCounts).filter
          (fun call => call.2.2)).map (fun call => call.2.1)).sum : Nat) / (sampleSize : ℚ)
          * 100 := by
          exact mul_le_mul_of_nonneg_right h2 (by norm_num)
      _ = _ := by ring

/-! ## The claims -/

/-- Claim C1.  When `generateSinglePickSet(false, pool)` returns a combination, its `main`
passes every enabled filter: no arithmetic progression (arithmetic on), no long sequential run
(sequential on), balanced odd/even and high/low (balance on), not too similar to the recent or
to the older window (similarity on), and the sum, digit-sum, rank-sum, positional (when on),
delta (when on), last-digit (when on), consecutive-repeat and number-group predicates accept
it. -/
theorem generateSinglePickSet_passes_enabled_filters (s : AppState)
    (oneYearAgo twoYearsAgo : Int) (rand : Nat → Nat) (outerFuel innerFuel : Nat)
    (pool : List Int) (c : Combination)
    (h : generateSinglePickSet s oneYearAgo twoYearsAgo rand outerFuel innerFuel false pool
      = some (some c)) :
    (s.cfg.filterUseArithmetic = true → isArithmeticProgression c.main = false) ∧
    (s.cfg.filterLimitSequentials = true → containsTooManySequentials c.main 3 = false) ∧
    (s.cfg.filterCheckBalance = true →
      isBalancedOddEven c.main = true ∧
      isBalancedHighLow c.main (gameProperties s.selectedGame).range = true) ∧
    (s.cfg.filterCheckSimilarity = true →
      isTooSimilar c.main (lastYearDrawsOf s.validDraws oneYearAgo)
        s.cfg.recentSimilarityThreshold = false ∧
      isTooSimilar c.main (olderDrawsOf s.validDraws oneYearAgo twoYearsAgo)
        s.cfg.similarityThreshold = false) ∧
    isSumWithinRange s.cfg.filterUseStatisticalSum s.stats.sumStats c.main = true ∧
    isDigitSumWithinRange s.cfg.filterUseDigitSum s.stats.digitSumStats c.main = true ∧
    isRankSumWithinRange s.cfg.filterUseRankSum s.stats.rankStats c.main = true ∧
    (s.cfg.filterUsePositional = true →
      isWithinPositionalBounds c.main s.stats.positionalBounds = true) ∧
    (s.cfg.filterUseDelta = true → isDeltaSumValid c.main s.stats.deltaStats = true) ∧
    (s.cfg.filterUseLastDigits = true →
      hasValidLastDigitDistribution c.main s.stats.lastDigitStats = true) ∧
    hasValidConsecutiveRepeat s.cfg.filterUseConsecutive c.main
      (lastDrawNumbersOf s.validDraws) = true ∧
    hasValidNumberGroupDistribution s.cfg.filterUseNumberGroups c.main
      (gameProperties s.selectedGame).range = true := by
  obtain ⟨-, -, attempts, pos, hloop⟩ := generateSinglePickSet_some _ _ _ _ _ _ _ _ _ h
  have hcond := (attemptLoop_finished _ _ _ _ _ _ _ _ _ _ _ _ _ _ hloop).1
  unfold loopCondition at hcond
  simp only [Bool.or_eq_false_iff, Bool.and_eq_false_imp, Bool.not_false, Bool.true_and,
    Bool.not_eq_false', Bool.not_eq_eq_eq_not, Bool.not_true, true_imp_iff] at hcond
  obtain ⟨⟨⟨⟨⟨⟨⟨⟨⟨⟨⟨⟨⟨-, h1⟩, h2⟩, h3⟩, h4⟩, h5⟩, h6⟩, h7⟩, h8⟩, h9⟩, h10⟩, h11⟩, h12⟩, h13⟩ := hcond
  exact ⟨h1, h2, fun hb => ⟨h3 hb, h4 hb⟩, fun hb => h5 hb, h6, h7, h8, h9, h10, h11, h12, h13⟩

/-- Claim C1, witness: the generator returns `3 11 18 26 34 47` in the 6-of-49 game with one
historical draw, and the theorem applies to that run. -/
theorem generateSinglePickSet_passes_enabled_filters_witness :
    generateSinglePickSet (singleDrawState 0) 0 0 sampleChoices 5001 49 false fullPool49
      = some (some { main := [3, 11, 18, 26, 34, 47], grand := none }) ∧
    isArithmeticProgression [3, 11, 18, 26, 34, 47] = false :=
  ⟨by decide!,
    (generateSinglePickSet_passes_enabled_filters (singleDrawState 0) 0 0 sampleChoices 5001 49
      fullPool49
      { main := [3, 11, 18, 26, 34, 47], grand := none } (by decide!)).1 rfl⟩

/-- Claim C2.  Whenever `generateSinglePickSet` returns a combination, for either value of
`isOpposite`, its `main` is strictly ascending, has exactly `standardSize` elements, and every
element is a member of the supplied pool. -/
theorem generateSinglePickSet_main_sorted_sized_in_pool (s : AppState)
    (oneYearAgo twoYearsAgo : Int) (rand : Nat → Nat) (outerFuel innerFuel : Nat)
    (isOpposite : Bool) (pool : List Int) (c : Combination)
    (h : generateSinglePickSet s oneYearAgo twoYearsAgo rand outerFuel innerFuel isOpposite pool
      = some (some c)) :
    c.main.Sorted (· < ·) ∧
    c.main.length = (gameProperties s.selectedGame).standardSize ∧
    ∀ x ∈ c.main, x ∈ pool := by
  obtain ⟨-, hlen, attempts, pos, hloop⟩ := generateSinglePickSet_some _ _ _ _ _ _ _ _ _ h
  obtain ⟨-, ⟨picks, hmain, hnd, hsub, hle⟩, -, -⟩ :=
    attemptLoop_finished _ _ _ _ _ _ _ _ _ _ _ _ _ _ hloop
  rw [hmain] at hlen ⊢
  refine ⟨(sortAsc_sorted picks).lt_of_le ((sortAsc_perm picks).nodup_iff.2 hnd), ?_, ?_⟩
  · rw [sortAsc_length] at hlen ⊢
    omega
  · intro x hx
    exact hsub x (mem_sortAsc.1 hx)

/-- Claim C2, witness: a run of the daily-grand game with `isOpposite` true. -/
theorem generateSinglePickSet_main_sorted_sized_in_pool_witness :
    generateSinglePickSet dailyGrandState 15 5 (fun _ => 0) 5001 10 true [10, 8, 6, 4, 2, 12]
      = some (some { main := [2, 4, 6, 8, 10], grand := some 1 }) ∧
    List.Sorted (· < ·) ([2, 4, 6, 8, 10] : List Int) :=
  ⟨by decide!,
    (generateSinglePickSet_main_sorted_sized_in_pool dailyGrandState 15 5 (fun _ => 0) 5001 10
      true [10, 8, 6, 4, 2, 12]
      { main := [2, 4, 6, 8, 10], grand := some 1 } (by decide!)).1⟩

/-- Claim C3.  With fuel for 5001 passes of the outer loop and `|pool|` passes of the inner
loop, `generateSinglePickSet` terminates, with a result that no longer depends on the fuel.
Every inner sampling loop ends, each of its
iterations having added one pick (and removed it from `availableNumbers`), after at most
`|pool|` iterations; a combination is returned only from one of the first 5000 attempts; the
result is `null` when none of the first 5000 candidates passes the filters; and it is `null`
on the first attempt, before any random choice, when the pool has fewer than `standardSize`
entries. -/
theorem generateSinglePickSet_terminates (s : AppState) (oneYearAgo twoYearsAgo : Int)
    (rand : Nat → Nat) (outerFuel innerFuel : Nat) (isOpposite : Bool) (pool : List Int)
    (hOuter : maxAttempts + 1 ≤ outerFuel) (hInner : pool.length ≤ innerFuel) :
    (∀ pos, ∃ picks pos',
      samplePicks (gameProperties s.selectedGame).standardSize rand innerFuel [] pool pos
        = some (picks, pos') ∧
      pos' = pos + picks.length ∧ pos' ≤ pos + pool.length) ∧
    (∃ result, generateSinglePickSet s oneYearAgo twoYearsAgo rand outerFuel innerFuel
      isOpposite pool = some result) ∧
    generateSinglePickSet s oneYearAgo twoYearsAgo rand outerFuel innerFuel isOpposite pool =
      generateSinglePickSet s oneYearAgo twoYearsAgo rand (maxAttempts + 1) pool.length
        isOpposite pool ∧
    (∀ exit, attemptLoop s (lastYearDrawsOf s.validDraws oneYearAgo)
        (olderDrawsOf s.validDraws oneYearAgo twoYearsAgo) (lastDrawNumbersOf s.validDraws)
        isOpposite pool rand innerFuel outerFuel 0 0 = exit →
      (∀ main attempts pos, exit = .finished main attempts pos → attempts ≤ maxAttempts) ∧
      (∀ attempts pos, exit = .returnedNull attempts pos → attempts ≤ maxAttempts + 1)) ∧
    ((∀ i, i < maxAttempts →
        loopCondition s (lastYearDrawsOf s.validDraws oneYearAgo)
          (olderDrawsOf s.validDraws oneYearAgo twoYearsAgo) (lastDrawNumbersOf s.validDraws)
          isOpposite
          (candidate (gameProperties s.selectedGame).standardSize pool rand innerFuel i) = true) →
      generateSinglePickSet s oneYearAgo twoYearsAgo rand outerFuel innerFuel isOpposite pool
        = some none) ∧
    (pool.length < (gameProperties s.selectedGame).standardSize →
      generateSinglePickSet s oneYearAgo twoYearsAgo rand outerFuel innerFuel isOpposite pool
        = some none ∧
      attemptLoop s (lastYearDrawsOf s.validDraws oneYearAgo)
        (olderDrawsOf s.validDraws oneYearAgo twoYearsAgo) (lastDrawNumbersOf s.validDraws)
        isOpposite pool rand innerFuel outerFuel 0 0 = .returnedNull 1 0) := by
  have hmax : maxAttempts = 5000 := rfl
  refine ⟨?_, ?_, ?_, ?_, ?_, ?_⟩
  · intro pos
    obtain ⟨result, pos', h1, h2, h3⟩ :=
      samplePicks_terminates (gameProperties s.selectedGame).standardSize rand innerFuel []
        pool pos hInner (by simp)
    exact ⟨result, pos', h1, by simpa using h2, h3⟩
  swap
  · exact generateSinglePickSet_fuel_mono s oneYearAgo twoYearsAgo rand (maxAttempts + 1)
      pool.length outerFuel innerFuel isOpposite pool hOuter hInner
      (attemptLoop_terminates s _ _ _ isOpposite pool rand pool.length le_rfl
        (maxAttempts + 1) 0 0 (by omega) (by omega))
  · have hterm := attemptLoop_terminates s (lastYearDrawsOf s.validDraws oneYearAgo)
      (olderDrawsOf s.validDraws oneYearAgo twoYearsAgo) (lastDrawNumbersOf s.validDraws)
      isOpposite pool rand innerFuel hInner outerFuel 0 0 (by omega) (by omega)
    unfold generateSinglePickSet
    simp only []
    split
    · exact ⟨_, rfl⟩
    · split
      · rename_i hloop
        exact absurd hloop hterm
      · exact ⟨_, rfl⟩
      · split
        · exact ⟨_, rfl⟩
        · split
          · exact ⟨_, rfl⟩
          · exact ⟨_, rfl⟩
  · intro exit hexit
    constructor
    · intro main attempts pos he
      rw [he] at hexit
      exact (attemptLoop_finished _ _ _ _ _ _ _ _ _ _ _ _ _ _ hexit).2.2.2
    · intro attempts pos he
      rw [he] at hexit
      exact (attemptLoop_returnedNull _ _ _ _ _ _ _ _ _ _ _ _ _ hexit).2 (by omega)
  · intro hall
    obtain ⟨attempts', pos', hloop⟩ := attemptLoop_all_discarded s _ _ _ isOpposite pool rand
      innerFuel hInner hall outerFuel 0 (by omega) (by omega)
    rw [attemptStart] at hloop
    unfold generateSinglePickSet
    simp only []
    split
    · rfl
    · rw [hloop]
  · intro hsmall
    have hloop : attemptLoop s (lastYearDrawsOf s.validDraws oneYearAgo)
        (olderDrawsOf s.validDraws oneYearAgo twoYearsAgo) (lastDrawNumbersOf s.validDraws)
        isOpposite pool rand innerFuel outerFuel 0 0 = .returnedNull 1 0 := by
      obtain ⟨fuel, rfl⟩ : ∃ fuel, outerFuel = fuel + 1 := ⟨outerFuel - 1, by omega⟩
      rw [attemptLoop]
      simp only [hmax, hsmall, if_true]
      simp
    refine ⟨?_, hloop⟩
    unfold generateSinglePickSet
    simp only []
    split
    · rfl
    · rw [hloop]

/-- Claim C3, witness: with the pool `1 1 1 1 1 1` every one of the 5000 candidates is `[1]`,
which is too short, and the generator returns `null`. -/
theorem generateSinglePickSet_terminates_witness :
    (maxAttempts + 1 ≤ 5001 ∧ ([1, 1, 1, 1, 1, 1] : List Int).length ≤ 6) ∧
    generateSinglePickSet (singleDrawState 0) 0 0 (fun _ => 0) 5001 6 false [1, 1, 1, 1, 1, 1]
      = some none :=
  ⟨⟨by decide, by decide⟩,
    (generateSinglePickSet_terminates (singleDrawState 0) 0 0 (fun _ => 0) 5001 6 false
      [1, 1, 1, 1, 1, 1]
      (by decide) (by decide)).2.2.2.2.1 (by
        intro i _
        have hc : candidate 6 [1, 1, 1, 1, 1, 1] (fun _ => 0) 6 i = [1] := by
          unfold candidate
          rw [samplePicks_duplicates]
          rfl
        show loopCondition (singleDrawState 0) _ _ _ false
          (candidate 6 [1, 1, 1, 1, 1, 1] (fun _ => 0) 6 i) = true
        rw [hc]
        decide!)⟩

/-- Claim C4, counterexample: in the 6-of-49 game with zero historical draws and all twelve
toggles on, no sequence of random choices makes `generateSinglePickSet(false, [1..49])` return
a combination, because the function returns `null` on an empty history. -/
theorem generateSinglePickSet_empty_history_never_succeeds :
    ¬ ∃ (rand : Nat → Nat) (oneYearAgo twoYearsAgo : Int) (outerFuel innerFuel : Nat)
        (c : Combination),
      generateSinglePickSet emptyHistoryState oneYearAgo twoYearsAgo rand outerFuel innerFuel
        false fullPool49 = some (some c) := by
  rintro ⟨rand, oneYearAgo, twoYearsAgo, outerFuel, innerFuel, c, h⟩
  simp [generateSinglePickSet, emptyHistoryState] at h

/-- Claim C4, amended.  In the 6-of-49 game with all twelve toggles on, no statistics and the
full pool `1..49`: with zero historical draws the generator returns `null` whatever the random
choices; with the single historical draw `1 2 3 4 5 6`, whatever its date and the clock, some
sequence of random choices makes the generator return a combination. -/
theorem generateSinglePickSet_single_draw_succeeds (date oneYearAgo twoYearsAgo : Int) :
    (∀ (rand : Nat → Nat) (outerFuel innerFuel : Nat),
      generateSinglePickSet emptyHistoryState oneYearAgo twoYearsAgo rand outerFuel innerFuel
        false fullPool49 = some none) ∧
    ∃ rand : Nat → Nat,
      generateSinglePickSet (singleDrawState date) oneYearAgo twoYearsAgo rand 5001 49 false
        fullPool49 = some (some { main := [3, 11, 18, 26, 34, 47], grand := none }) := by
  constructor
  · intro rand outerFuel innerFuel
    simp [generateSinglePickSet, emptyHistoryState]
  · refine ⟨sampleChoices, ?_⟩
    have hs : samplePicks 6 sampleChoices 49 [] fullPool49 0
        = some ([3, 11, 18, 26, 34, 47], 6) := by decide!
    have hsort : sortAsc [3, 11, 18, 26, 34, 47] = [3, 11, 18, 26, 34, 47] := by decide
    have hlen : ¬ fullPool49.length < 6 := by decide
    have hly : lastYearDrawsOf (singleDrawState date).validDraws oneYearAgo = [] ∨
        lastYearDrawsOf (singleDrawState date).validDraws oneYearAgo =
          [{ date := date, main := [1, 2, 3, 4, 5, 6], grand := none, bonus := none }] := by
      unfold lastYearDrawsOf singleDrawState
      by_cases hd : oneYearAgo ≤ date <;> simp [hd]
    have hod : olderDrawsOf (singleDrawState date).validDraws oneYearAgo twoYearsAgo = [] ∨
        olderDrawsOf (singleDrawState date).validDraws oneYearAgo twoYearsAgo =
          [{ date := date, main := [1, 2, 3, 4, 5, 6], grand := none, bonus := none }] := by
      unfold olderDrawsOf singleDrawState
      by_cases hd : twoYearsAgo ≤ date ∧ date < oneYearAgo
      · right; simp [hd.1, hd.2]
      · left
        simp only [List.filter_eq_nil_iff, List.mem_singleton, forall_eq, Bool.and_eq_true,
          decide_eq_true_eq]
        exact hd
    have hldn : lastDrawNumbersOf (singleDrawState date).validDraws = some [1, 2, 3, 4, 5, 6] := by
      simp [lastDrawNumbersOf, singleDrawState]
    have hcond := loopCondition_single_draw date _ _ hly hod
    have hloop : attemptLoop (singleDrawState date)
        (lastYearDrawsOf (singleDrawState date).validDraws oneYearAgo)
        (olderDrawsOf (singleDrawState date).validDraws oneYearAgo twoYearsAgo)
        (lastDrawNumbersOf (singleDrawState date).validDraws) false fullPool49 sampleChoices
        49 5001 0 0 = .finished [3, 11, 18, 26, 34, 47] 1 6 := by
      rw [hldn]
      rw [attemptLoop]
      have hg : (gameProperties (singleDrawState date).selectedGame).standardSize = 6 := rfl
      simp only [hg, hs, hsort, hcond, hlen, maxAttempts]
      simp
    exact generateSinglePickSet_of_finished _ _ _ _ _ _ _ _ _ _ _ (by simp [singleDrawState])
      hloop (by show 6 ≤ 6; exact le_rfl) (by simp [singleDrawState])

/-- Claim C5, counterexample: `1 3 5 6 20 40` are distinct and contain `1 < 3 < 5` with
`3 - 1 = 5 - 3 > 1`, yet `isArithmeticProgression` returns false. -/
theorem isArithmeticProgression_three_in_progression_false :
    ([1, 3, 5, 6, 20, 40] : List Int).Nodup ∧
    (1 : Int) ∈ ([1, 3, 5, 6, 20, 40] : List Int) ∧
    (3 : Int) ∈ ([1, 3, 5, 6, 20, 40] : List Int) ∧
    (5 : Int) ∈ ([1, 3, 5, 6, 20, 40] : List Int) ∧
    (1 : Int) < 3 ∧ (3 : Int) < 5 ∧ (3 : Int) - 1 = 5 - 3 ∧ (1 : Int) < 5 - 3 ∧
    isArithmeticProgression [1, 3, 5, 6, 20, 40] = false := by
  decide

/-- Claim C5, amended.  For every list of at least 3 integers that, sorted, is as a whole an
arithmetic progression `a, a + d, ..., a + (n - 1) d` with common difference `d > 1`,
`isArithmeticProgression` returns true. -/
theorem isArithmeticProgression_of_progression (numbers : List Int) (a d : Int) (n : Nat)
    (hn : 3 ≤ n) (hd : 1 < d)
    (hp : numbers.Perm ((List.range n).map (fun i : Nat => a + d * (i : Int)))) :
    isArithmeticProgression numbers = true := by
  have hs : sortAsc numbers = (List.range n).map (fun i : Nat => a + d * (i : Int)) :=
    sortAsc_eq_of_sorted hp.symm (progression_sorted a d n (by omega))
  have hlen : numbers.length = n := by simpa using hp.length_eq
  rw [isArithmeticProgression_eq_true_iff, hs]
  refine ⟨by omega, ?_, ?_⟩
  · intro i hi
    have hi' : i + 1 < n := by simpa using hi
    rw [progression_getD a d n (i + 1) hi', progression_getD a d n i (by omega),
      progression_getD a d n 1 (by omega), progression_getD a d n 0 (by omega)]
    push_cast; ring
  · rw [progression_getD a d n 1 (by omega), progression_getD a d n 0 (by omega)]
    push_cast; linarith

/-- Claim C5 amended, witness: `30 10 20 50 40` is a rearrangement of `10, 20, ..., 50`. -/
theorem isArithmeticProgression_of_progression_witness :
    (3 ≤ 5 ∧ (1 : Int) < 10 ∧
      ([30, 10, 20, 50, 40] : List Int).Perm
        ((List.range 5).map (fun i : Nat => (10 : Int) + 10 * (i : Int)))) ∧
    isArithmeticProgression [30, 10, 20, 50, 40] = true :=
  ⟨⟨by decide, by decide, by decide⟩,
    isArithmeticProgression_of_progression [30, 10, 20, 50, 40] 10 10 5 (by decide) (by decide)
      (by decide)⟩

/-- Claim C6.  The ascending sort returns the sorted rearrangement of the list, and
`isArithmeticProgression` is true exactly when the list has at least 3 elements and, sorted
ascending, every consecutive difference equals the first difference, which is greater than 1.
It is true for `10 20 30 40 50` and `7 14 21 28 35` and false for `1 2 3 4 5`. -/
theorem isArithmeticProgression_iff_constant_difference (numbers : List Int) :
    (sortAsc numbers).Sorted (· ≤ ·) ∧ (sortAsc numbers).Perm numbers ∧
    (isArithmeticProgression numbers = true ↔
      3 ≤ numbers.length ∧
      (∀ i, i + 1 < (sortAsc numbers).length →
        (sortAsc numbers).getD (i + 1) 0 - (sortAsc numbers).getD i 0 =
          (sortAsc numbers).getD 1 0 - (sortAsc numbers).getD 0 0) ∧
      1 < (sortAsc numbers).getD 1 0 - (sortAsc numbers).getD 0 0) ∧
    isArithmeticProgression [10, 20, 30, 40, 50] = true ∧
    isArithmeticProgression [7, 14, 21, 28, 35] = true ∧
    isArithmeticProgression [1, 2, 3, 4, 5] = false :=
  ⟨sortAsc_sorted numbers, sortAsc_perm numbers, isArithmeticProgression_eq_true_iff numbers,
    by decide, by decide, by decide⟩

/-- Claim C7, counterexample: `1 2 3 10 20 30` are distinct and contain the run `1 2 3`, yet
`containsTooManySequentials(list, 3)` returns false. -/
theorem containsTooManySequentials_run_of_three_false :
    ([1, 2, 3, 10, 20, 30] : List Int).Nodup ∧
    (1 : Int) ∈ ([1, 2, 3, 10, 20, 30] : List Int) ∧
    (1 : Int) + 1 ∈ ([1, 2, 3, 10, 20, 30] : List Int) ∧
    (1 : Int) + 2 ∈ ([1, 2, 3, 10, 20, 30] : List Int) ∧
    containsTooManySequentials [1, 2, 3, 10, 20, 30] 3 = false := by
  decide

/-- Claim C7, amended.  For every list of distinct integers that contains a run of 4
consecutive integers `n, n+1, n+2, n+3`, `containsTooManySequentials(list, 3)` returns
true. -/
theorem containsTooManySequentials_of_run_of_four (numbers : List Int) (n : Int)
    (hnd : numbers.Nodup) (h0 : n ∈ numbers) (h1 : n + 1 ∈ numbers) (h2 : n + 2 ∈ numbers)
    (h3 : n + 3 ∈ numbers) :
    containsTooManySequentials numbers 3 = true := by
  rw [containsTooManySequentials_iff numbers 3 hnd (by decide)]
  refine ⟨n, fun j hj => ?_⟩
  have hcases : j = 0 ∨ j = 1 ∨ j = 2 ∨ j = 3 := by omega
  rcases hcases with rfl | rfl | rfl | rfl
  · simpa using h0
  · simpa using h1
  · simpa using h2
  · simpa using h3

/-- Claim C7 amended, witness: the list `15 16 17 18 30 40`. -/
theorem containsTooManySequentials_of_run_of_four_witness :
    (([15, 16, 17, 18, 30, 40] : List Int).Nodup ∧
      (15 : Int) ∈ ([15, 16, 17, 18, 30, 40] : List Int) ∧
      (15 : Int) + 1 ∈ ([15, 16, 17, 18, 30, 40] : List Int) ∧
      (15 : Int) + 2 ∈ ([15, 16, 17, 18, 30, 40] : List Int) ∧
      (15 : Int) + 3 ∈ ([15, 16, 17, 18, 30, 40] : List Int)) ∧
    containsTooManySequentials [15, 16, 17, 18, 30, 40] 3 = true :=
  ⟨by decide,
    containsTooManySequentials_of_run_of_four [15, 16, 17, 18, 30, 40] 15 (by decide)
      (by decide) (by decide) (by decide) (by decide)⟩

/-- Claim C8.  For every list of distinct integers and every `maxSequential >= 1`,
`containsTooManySequentials(list, maxSequential)` is true iff the list contains
`maxSequential + 1` consecutive integers; with the setting 3 it is true exactly for the lists
with 4 consecutive integers, and it is true for `([5,6,7,8,20,21], 3)`. -/
theorem containsTooManySequentials_iff_run (numbers : List Int) (maxSequential : Nat)
    (hnd : numbers.Nodup) (hm : 1 ≤ maxSequential) :
    (containsTooManySequentials numbers maxSequential = true ↔
      ∃ n : Int, ∀ j : Nat, j ≤ maxSequential → n + (j : Int) ∈ numbers) ∧
    (containsTooManySequentials numbers 3 = true ↔
      ∃ n : Int, n ∈ numbers ∧ n + 1 ∈ numbers ∧ n + 2 ∈ numbers ∧ n + 3 ∈ numbers) ∧
    containsTooManySequentials [5, 6, 7, 8, 20, 21] 3 = true := by
  refine ⟨containsTooManySequentials_iff numbers maxSequential hnd hm, ?_, by decide⟩
  rw [containsTooManySequentials_iff numbers 3 hnd (by decide)]
  constructor
  · rintro ⟨n, hn⟩
    exact ⟨n, by simpa using hn 0 (by decide), by simpa using hn 1 (by decide),
      by simpa using hn 2 (by decide), by simpa using hn 3 (by decide)⟩
  · rintro ⟨n, h0, h1, h2, h3⟩
    refine ⟨n, fun j hj => ?_⟩
    have hcases : j = 0 ∨ j = 1 ∨ j = 2 ∨ j = 3 := by omega
    rcases hcases with rfl | rfl | rfl | rfl
    · simpa using h0
    · simpa using h1
    · simpa using h2
    · simpa using h3

/-- Claim C8, witness: the list `5 6 7 8 20 21` with the setting 3. -/
theorem containsTooManySequentials_iff_run_witness :
    (([5, 6, 7, 8, 20, 21] : List Int).Nodup ∧ 1 ≤ 3) ∧
    (containsTooManySequentials [5, 6, 7, 8, 20, 21] 3 = true ↔
      ∃ n : Int, ∀ j : Nat, j ≤ 3 → n + (j : Int) ∈ ([5, 6, 7, 8, 20, 21] : List Int)) :=
  ⟨⟨by decide, by decide⟩,
    (containsTooManySequentials_iff_run [5, 6, 7, 8, 20, 21] 3 (by decide) (by decide)).1⟩

/-- Claim C9.  For a combination of `k` numbers, `isBalancedOddEven` is true iff the count of
odd numbers lies in `[floor(k/2) - 1, ceil(k/2) + 1]`, and `isBalancedHighLow` is true iff the
count of numbers `<= ceil(range/2)` lies in that interval. -/
theorem isBalanced_iff_counts_in_interval (numbers : List Int) (rangeMax : Nat) :
    (isBalancedOddEven numbers = true ↔
      ⌊(numbers.length : ℚ) / 2⌋ - 1 ≤ ((numbers.filter (fun num => decide (Odd num))).length : Int) ∧
      ((numbers.filter (fun num => decide (Odd num))).length : Int) ≤ ⌈(numbers.length : ℚ) / 2⌉ + 1) ∧
    (isBalancedHighLow numbers rangeMax = true ↔
      ⌊(numbers.length : ℚ) / 2⌋ - 1 ≤
        ((numbers.filter (fun num => decide (num ≤ ⌈(rangeMax : ℚ) / 2⌉))).length : Int) ∧
      ((numbers.filter (fun num => decide (num ≤ ⌈(rangeMax : ℚ) / 2⌉))).length : Int) ≤
        ⌈(numbers.length : ℚ) / 2⌉ + 1) := by
  constructor
  · have hf : numbers.filter (fun num => decide (Int.tmod num 2 ≠ 0)) =
        numbers.filter (fun num => decide (Odd num)) := by
      apply List.filter_congr
      intro x _
      simp only [decide_eq_decide]
      exact tmod_two_ne_zero_iff_odd x
    unfold isBalancedOddEven
    simp only [hf, Bool.and_eq_true, decide_eq_true_eq]
  · unfold isBalancedHighLow
    simp only [Bool.and_eq_true, decide_eq_true_eq]

/-- Claim C10.  In exact arithmetic, `isTooSimilar(combination, window, t)` is true iff some
draw of the window has at least `ceil(k * t / 100)` of its numbers in the combination; it is
false for an empty window; for `k = 6` and `t = 60` the required number of matches is 4, so
only a draw sharing at least 4 numbers rejects. -/
theorem isTooSimilar_iff_some_draw_matches (combination : List Int) (window : List Draw)
    (t : ℚ) (a b c d e f : Int) :
    (isTooSimilar combination window t = true ↔
      ∃ draw ∈ window, ⌈(combination.length : ℚ) * t / 100⌉ ≤
        (((draw.main.filter (fun num => decide (num ∈ combination))).length : Nat) : Int)) ∧
    isTooSimilar combination [] t = false ∧
    numToMatch [a, b, c, d, e, f] 60 = 4 ∧
    (isTooSimilar [a, b, c, d, e, f] window 60 = true ↔
      ∃ draw ∈ window,
        4 ≤ (draw.main.filter (fun num => decide (num ∈ [a, b, c, d, e, f]))).length) := by
  have h4 : ⌈(([a, b, c, d, e, f] : List Int).length : ℚ) * 60 / 100⌉ = 4 := by
    rw [Int.ceil_eq_iff]; norm_num
  refine ⟨isTooSimilar_eq_true_iff _ _ _, by simp [isTooSimilar], ?_, ?_⟩
  · unfold numToMatch
    rw [Int.ceil_eq_iff]; norm_num
  · rw [isTooSimilar_eq_true_iff, h4]
    constructor
    · rintro ⟨draw, hd, h⟩
      exact ⟨draw, hd, by exact_mod_cast h⟩
    · rintro ⟨draw, hd, h⟩
      exact ⟨draw, hd, by exact_mod_cast h⟩


/-- Claim C11, the code at a failing input.  With the rank statistics `sampleRankStats` over
`1..49` and the numbers `0 10 20 30 40 45`, of which `0` is absent from `rankMap`,
`isRankSumWithinRange` counts `0` for the absent number and accepts (sum 145 in
`[135, 165]`), while the sum that counts it as rank `range = 49`, as `rankStats` does, is 194
and lies outside the band.  With the statistics that `rankStats` computes from ten rows
`0 10 20 30 40 45` (every rank sum is 194, so the mean is 194 and the deviation 0), the filter
rejects each of these rows, whose rank sum counted like the statistics is the mean itself. -/
theorem isRankSumWithinRange_absent_number_counts_zero :
    sampleRankStats.rankMap 0 = none ∧
    isRankSumWithinRange true (some sampleRankStats) [0, 10, 20, 30, 40, 45] = true ∧
    withinBand sampleRankStats.mean sampleRankStats.stdDev
      ((([0, 10, 20, 30, 40, 45] : List Int).foldl
        (fun acc num => acc + rankOrDefault sampleRankStats.rankMap 49 num) 0 : Nat) : ℚ)
      = false ∧
    (rankStats id sampleFrequencies 49 tenRowsWithZero).map (fun rs => (rs.mean, rs.stdDev))
      = some (194, 0) ∧
    (rankStats id sampleFrequencies 49 tenRowsWithZero).map
      (fun rs => isRankSumWithinRange true (some rs) [0, 10, 20, 30, 40, 45]) = some false ∧
    (rankStats id sampleFrequencies 49 tenRowsWithZero).map
      (fun rs => withinBand rs.mean rs.stdDev
        ((([0, 10, 20, 30, 40, 45] : List Int).foldl
          (fun acc num => acc + rankOrDefault rs.rankMap 49 num) 0 : Nat) : ℚ)) = some true := by
  decide!

/-- Claim C12.  With fewer than 10 valid draws `sumStats`, `digitSumStats`, `rankStats`,
`deltaStats`, `lastDigitStats` and the positional bounds are all absent, and the sum,
digit-sum, rank-sum, positional, delta and last-digit predicates accept every combination
whatever the toggles are. -/
theorem insufficient_history_statistics_absent (sqrt : ℚ → ℚ) (frequencies : Int → Option Nat)
    (standardSize range : Nat) (draws : List Draw) (hlen : draws.length < 10) :
    sumStats sqrt draws = none ∧
    digitSumStats sqrt draws = none ∧
    rankStats sqrt frequencies range draws = none ∧
    deltaStats sqrt draws = none ∧
    lastDigitStats standardSize draws = none ∧
    positionalStats sqrt standardSize range draws = some { bounds := none, averages := none } ∧
    ∀ (toggle : Bool) (numbers : List Int),
      isSumWithinRange toggle (sumStats sqrt draws) numbers = true ∧
      isDigitSumWithinRangeOf toggle (digitSumStats sqrt draws) numbers = true ∧
      isRankSumWithinRange toggle (rankStats sqrt frequencies range draws) numbers = true ∧
      (∀ ps, positionalStats sqrt standardSize range draws = some ps →
        isWithinPositionalBounds numbers ps.bounds = true) ∧
      isDeltaSumValid numbers (deltaStats sqrt draws) = true ∧
      hasValidLastDigitDistribution numbers (lastDigitStats standardSize draws) = true := by
  have h1 : sumStats sqrt draws = none := by simp [sumStats, hlen]
  have h2 : digitSumStats sqrt draws = none := by simp [digitSumStats, hlen]
  have h3 : rankStats sqrt frequencies range draws = none := by simp [rankStats, hlen]
  have h4 : deltaStats sqrt draws = none := by simp [deltaStats, hlen]
  have h5 : lastDigitStats standardSize draws = none := by simp [lastDigitStats, hlen]
  have h6 : positionalStats sqrt standardSize range draws =
      some { bounds := none, averages := none } := by simp [positionalStats, hlen]
  refine ⟨h1, h2, h3, h4, h5, h6, ?_⟩
  intro toggle numbers
  rw [h1, h2, h3, h4, h5, h6]
  refine ⟨?_, ?_, ?_, ?_, rfl, rfl⟩
  · cases toggle <;> rfl
  · cases toggle <;> rfl
  · cases toggle <;> rfl
  · intro ps hps
    simp only [Option.some.injEq] at hps
    subst hps
    rfl

/-- Claim C12, witness: the history with the single draw `1 2 3 4 5 6`. -/
theorem insufficient_history_statistics_absent_witness :
    (singleDrawState 0).validDraws.length < 10 ∧
    sumStats id (singleDrawState 0).validDraws = none :=
  ⟨by decide,
    (insufficient_history_statistics_absent id sampleFrequencies 6 49
      (singleDrawState 0).validDraws (by decide)).1⟩

/-- Claim C13, counterexample: in the 6-of-49 game with one valid draw and `poolSize` 30, the
dynamic-strategy pool is empty, so it does not hold the numbers `1..30`, and the size check of
`handleGenerateFilteredSamples` stops the operation. -/
theorem dynamic_pool_empty_with_one_draw :
    (singleDrawState 0).validDraws.length < 10 ∧ 6 ≤ 30 ∧
    poolToUse .dynamic 30
      (dynamicWeightedPool 49 (rankStats id sampleFrequencies 49 (singleDrawState 0).validDraws)
        (hotColdNumbers 49 (singleDrawState 0).validDraws)
        { avgGaps := List.replicate 50 1, currentGaps := List.replicate 50 1 })
      sampleFrequencies 49 = [] ∧
    poolTooSmall
      (poolToUse .dynamic 30
        (dynamicWeightedPool 49
          (rankStats id sampleFrequencies 49 (singleDrawState 0).validDraws)
          (hotColdNumbers 49 (singleDrawState 0).validDraws)
          { avgGaps := List.replicate 50 1, currentGaps := List.replicate 50 1 })
        sampleFrequencies 49) 6 = true := by
  decide

/-- Claim C13, amended.  With fewer than 10 valid draws `rankStats` is absent and
`dynamicWeightedPool` is empty, so the dynamic-strategy pool is empty for every `poolSize` and,
`standardSize` being at least 1, `handleGenerateFilteredSamples` stops at its size check; the
frequency-strategy pool does not depend on the number of draws and holds
`min(poolSize, range)` numbers. -/
theorem dynamic_pool_empty_of_insufficient_history (sqrt : ℚ → ℚ)
    (frequencies : Int → Option Nat) (standardSize range poolSize : Nat) (draws : List Draw)
    (hotCold : HotCold) (gapStats : GapStats) (hlen : draws.length < 10)
    (hsize : 1 ≤ standardSize) :
    dynamicWeightedPool range (rankStats sqrt frequencies range draws) hotCold gapStats = [] ∧
    poolToUse .dynamic poolSize
      (dynamicWeightedPool range (rankStats sqrt frequencies range draws) hotCold gapStats)
      frequencies range = [] ∧
    poolTooSmall
      (poolToUse .dynamic poolSize
        (dynamicWeightedPool range (rankStats sqrt frequencies range draws) hotCold gapStats)
        frequencies range) standardSize = true ∧
    (poolToUse .frequency poolSize
      (dynamicWeightedPool range (rankStats sqrt frequencies range draws) hotCold gapStats)
      frequencies range).length = min poolSize range := by
  have h3 : rankStats sqrt frequencies range draws = none := by simp [rankStats, hlen]
  have hpool : dynamicWeightedPool range (rankStats sqrt frequencies range draws) hotCold
      gapStats = [] := by
    rw [h3]
    rfl
  rw [hpool]
  refine ⟨rfl, by simp [poolToUse], ?_, ?_⟩
  · simp only [poolToUse, List.take_nil, poolTooSmall, List.length_nil, decide_eq_true_eq]
    omega
  · simp only [poolToUse, frequencyPool, List.length_map, List.length_take,
      List.length_insertionSort, allNumbers_length]

/-- Claim C13 amended, witness: an empty history in the 6-of-49 game. -/
theorem dynamic_pool_empty_of_insufficient_history_witness :
    (([] : List Draw).length < 10 ∧ 1 ≤ 6) ∧
    dynamicWeightedPool 49 (rankStats id sampleFrequencies 49 [])
      { hot := [], cold := [] } { avgGaps := [], currentGaps := [] } = [] :=
  ⟨⟨by decide, by decide⟩,
    (dynamic_pool_empty_of_insufficient_history id sampleFrequencies 6 49 30 []
      { hot := [], cold := [] } { avgGaps := [], currentGaps := [] } (by decide)
      (by decide)).1⟩

/-- Claim C14, counterexample: in the 6-of-49 game the row `0 1 1 2 3 4 5` is retained in
`validDraws`, although it has 7 entries, a repeated number and the number 0 outside
`1..49`. -/
theorem validDraws_retains_malformed_row :
    validDraws (some [malformedRow]) (gameProperties .lotto649).standardSize = [malformedRow] ∧
    malformedRow.main.length ≠ (gameProperties .lotto649).standardSize ∧
    ¬ malformedRow.main.Nodup ∧
    ¬ (∀ n ∈ malformedRow.main, 1 ≤ n ∧ n ≤ ((gameProperties .lotto649).range : Int)) := by
  decide

/-- Claim C14, amended.  The draws retained in `validDraws` are exactly the rows of the raw
list whose `main` has at least `standardSize` entries, in ascending order of date; no row is
excluded for repeated or out-of-range numbers. -/
theorem validDraws_iff_at_least_standardSize (history : List Draw) (standardSize : Nat) :
    (∀ d : Draw, d ∈ validDraws (some history) standardSize ↔
      d ∈ history ∧ standardSize ≤ d.main.length) ∧
    (validDraws (some history) standardSize).Pairwise (fun a b => a.date ≤ b.date) ∧
    validDraws none standardSize = [] :=
  ⟨mem_validDraws history standardSize, validDraws_sorted history standardSize, rfl⟩

/-- Claim C15.  In exact real arithmetic, for a non-empty list `calculateMeanAndStdDev`
returns the mean `sum / N` and a standard deviation `>= 0` whose square is
`(sum of (x - mean)^2) / N`, the population form; the standard deviation is 0 iff all elements
are equal; for the empty list it returns mean 0 and standard deviation 0. -/
theorem calculateMeanAndStdDev_population (x : ℝ) (xs : List ℝ) :
    (calculateMeanAndStdDev Real.sqrt (x :: xs)).1 =
      (x :: xs).sum / ((x :: xs).length : ℝ) ∧
    0 ≤ (calculateMeanAndStdDev Real.sqrt (x :: xs)).2 ∧
    (calculateMeanAndStdDev Real.sqrt (x :: xs)).2 ^ 2 =
      ((x :: xs).map (fun v => (v - (x :: xs).sum / ((x :: xs).length : ℝ)) ^ 2)).sum /
        ((x :: xs).length : ℝ) ∧
    ((calculateMeanAndStdDev Real.sqrt (x :: xs)).2 = 0 ↔ ∀ v ∈ x :: xs, v = x) ∧
    calculateMeanAndStdDev Real.sqrt ([] : List ℝ) = (0, 0) := by
  have hN : (0 : ℝ) < ((x :: xs).length : ℝ) := by
    simp only [List.length_cons]
    positivity
  have hS := sum_sq_nonneg ((x :: xs).sum / ((x :: xs).length : ℝ)) (x :: xs)
  have hV : 0 ≤ ((x :: xs).map
      (fun v => (v - (x :: xs).sum / ((x :: xs).length : ℝ)) ^ 2)).sum /
        ((x :: xs).length : ℝ) := div_nonneg hS hN.le
  rw [calculateMeanAndStdDev_cons]
  refine ⟨rfl, Real.sqrt_nonneg _, Real.sq_sqrt hV, ?_, ?_⟩
  · show Real.sqrt _ = 0 ↔ _
    rw [Real.sqrt_eq_zero hV, div_eq_zero_iff, sum_sq_eq_zero_iff]
    constructor
    · rintro (h | h)
      · intro v hv
        exact (h v hv).trans (h x (List.mem_cons_self _ _)).symm
      · exact absurd h hN.ne'
    · intro h
      left
      intro v hv
      rw [sum_eq_of_all_eq x (x :: xs) h, mul_div_cancel_left₀ _ hN.ne']
      exact h v hv
  · simp [calculateMeanAndStdDev]

/-- Claim C16.  With at least 10 valid draws and any frequency table, `rankStats` exists and
its `rankMap` is a bijection from the numbers `1..range` onto the ranks `1..range`: every
number has a rank in `1..range`, different numbers have different ranks, and every rank is
used. -/
theorem rankMap_bijection (sqrt : ℚ → ℚ) (frequencies : Int → Option Nat) (range : Nat)
    (draws : List Draw) (hlen : 10 ≤ draws.length) :
    ∃ rs : RankStats, rankStats sqrt frequencies range draws = some rs ∧
      (∀ n : Int, 1 ≤ n → n ≤ range → ∃ r : Nat, rs.rankMap n = some r ∧ 1 ≤ r ∧ r ≤ range) ∧
      (∀ n m : Int, 1 ≤ n → n ≤ range → 1 ≤ m → m ≤ range →
        rs.rankMap n = rs.rankMap m → n = m) ∧
      (∀ r : Nat, 1 ≤ r → r ≤ range →
        ∃ n : Int, 1 ≤ n ∧ n ≤ range ∧ rs.rankMap n = some r) := by
  have hnot : ¬ draws.length < 10 := by omega
  obtain ⟨h1, h2, h3, -⟩ := buildRankMap_bijection frequencies range
  unfold rankStats
  rw [if_neg hnot]
  exact ⟨_, rfl, h1, h2, h3⟩

/-- Claim C16, witness: ten draws of the 6-of-49 game. -/
theorem rankMap_bijection_witness :
    10 ≤ tenDraws.length ∧ (rankStats id sampleFrequencies 49 tenDraws).isSome = true :=
  ⟨by decide, by
    obtain ⟨rs, h, -⟩ := rankMap_bijection id sampleFrequencies 49 tenDraws (by decide)
    rw [h]
    rfl⟩

/-- Claim C17.  The memo reads `range` from `gameProperties`, where it is 49 or 50, hence at
least 5.  For every such `range` and every valid-draw sequence of at least 20 draws, with
`k = floor(range * 0.2)`: the numbers `1..range` stably sorted by descending count over the
last 20 draws form a list `sorted`, `hot` is its first `k` numbers and `cold` its last `k`
numbers, each has exactly `k` numbers, and they share no number.  With fewer than 20 draws
both are empty. -/
theorem hotColdNumbers_top_and_bottom_fifth (range : Nat) (draws : List Draw)
    (hr : 5 ≤ range) (hd : 20 ≤ draws.length) :
    (∀ selectedGame : GameId, 5 ≤ (gameProperties selectedGame).range) ∧
    (∃ sorted : List Int,
      sorted.Perm (allNumbers range) ∧
      sorted.Pairwise (fun a b =>
        ((draws.drop (draws.length - 20)).map (fun d => d.main.count b)).sum <
            ((draws.drop (draws.length - 20)).map (fun d => d.main.count a)).sum ∨
        (((draws.drop (draws.length - 20)).map (fun d => d.main.count a)).sum =
            ((draws.drop (draws.length - 20)).map (fun d => d.main.count b)).sum ∧ a < b)) ∧
      (hotColdNumbers range draws).hot = sorted.take (⌊(range : ℚ) * (2 / 10)⌋).toNat ∧
      (hotColdNumbers range draws).cold =
        sorted.drop (range - (⌊(range : ℚ) * (2 / 10)⌋).toNat)) ∧
    (hotColdNumbers range draws).hot.length = (⌊(range : ℚ) * (2 / 10)⌋).toNat ∧
    (hotColdNumbers range draws).cold.length = (⌊(range : ℚ) * (2 / 10)⌋).toNat ∧
    (∀ n ∈ (hotColdNumbers range draws).hot, n ∉ (hotColdNumbers range draws).cold) ∧
    (∀ fewer : List Draw, fewer.length < 20 →
      hotColdNumbers range fewer = { hot := [], cold := [] }) := by
  have hk : (⌊(range : ℚ) * (2 / 10)⌋).toNat = range / 5 := by
    have := hotCount_eq range
    unfold hotCount at this
    rw [allNumbers_length] at this
    exact this
  have hk0 : ¬ range / 5 = 0 := by omega
  have hnot : ¬ draws.length < 20 := by omega
  obtain ⟨hperm, hlen, hpw⟩ := numberData_spec range (draws.drop (draws.length - 20))
  have hnd : ((numberData range (draws.drop (draws.length - 20))).map (fun d => d.1)).Nodup :=
    hperm.nodup_iff.2 (allNumbers_nodup range)
  have hhot : (hotColdNumbers range draws).hot =
      ((numberData range (draws.drop (draws.length - 20))).map (fun d => d.1)).take
        (range / 5) := by
    unfold hotColdNumbers
    rw [if_neg hnot]
    simp only [hotCount_eq, List.map_take]
  have hcold : (hotColdNumbers range draws).cold =
      ((numberData range (draws.drop (draws.length - 20))).map (fun d => d.1)).drop
        (range - range / 5) := by
    unfold hotColdNumbers
    rw [if_neg hnot]
    simp only [hotCount_eq, hk0, if_false, List.map_drop, hlen]
  rw [hk]
  refine ⟨fun selectedGame => by cases selectedGame <;> decide,
    ⟨_, hperm, hpw, hhot, hcold⟩, ?_, ?_, ?_, ?_⟩
  · rw [hhot, List.length_take, List.length_map, hlen]
    omega
  · rw [hcold, List.length_drop, List.length_map, hlen]
    omega
  · intro n hn hc
    rw [hhot] at hn
    rw [hcold] at hc
    exact List.disjoint_take_drop hnd (by omega) hn hc
  · intro fewer hf
    unfold hotColdNumbers
    rw [if_pos hf]

/-- Claim C17, witness: twenty draws of the 6-of-49 game. -/
theorem hotColdNumbers_top_and_bottom_fifth_witness :
    (5 ≤ 49 ∧ 20 ≤ twentyDraws.length) ∧ (hotColdNumbers 49 twentyDraws).hot.length = 9 :=
  ⟨⟨by decide, by decide⟩,
    (hotColdNumbers_top_and_bottom_fifth 49 twentyDraws (by decide) (by decide)).2.2.1.trans
      (by decide!)⟩

/-- Claim C18, counterexample: in the range `1..50` the number 1, of rank 14 and hot, and the
number 2, of rank 4 and neither hot nor cold, have the same composite score `23/50` in exact
arithmetic, so that the claim lists 1 before 2.  The code computes `0.45999999999999996` for
the number 1 and `0.46` for the number 2, and lists 2 before 1. -/
theorem dynamicWeightedPool_exact_tie_split_by_rounding :
    (tieRankStats.rankMap 1 = some 14 ∧ tieRankStats.rankMap 2 = some 4 ∧
      tieHotCold.hot.contains 1 = true ∧ tieHotCold.hot.contains 2 = false ∧
      tieHotCold.cold.contains 2 = false) ∧
    ((1 / 2 : ℚ) * (1 - 14 / 50) + 2 / 10 * (1 / 2) + 3 / 10 * 0 =
      1 / 2 * (1 - 4 / 50) + 2 / 10 * 0 + 3 / 10 * 0) ∧
    finalScore 50 tieRankStats.rankMap tieHotCold.hot tieHotCold.cold tieGapStats 1 =
      517913957147607 / 1125899906842624 ∧
    finalScore 50 tieRankStats.rankMap tieHotCold.hot tieHotCold.cold tieGapStats 2 =
      8286623314361713 / 18014398509481984 ∧
    (dynamicWeightedPool 50 (some tieRankStats) tieHotCold tieGapStats).take 5 =
      [3, 4, 5, 2, 1] := by
  decide!

/-- Claim C18, amended.  With at least 10 valid draws, `dynamicWeightedPool` is a
rearrangement of `1..range` in non-increasing order of the score that the code computes in
doubles, numbers of equal computed score being in ascending order; and for every number `n` of
`1..range`, whose rank is some `r` in `1..range`, that score is the value in doubles of
`((1 - r / range) * 0.5) + (h * 0.2) + (d * 0.3)`, where `h` is 0.5 if `n` is hot, -0.5 if cold
and 0 otherwise, and `d` is 1 if `currentGaps[n] > avgGaps[n] * 1.5` and 0 otherwise. -/
theorem dynamicWeightedPool_sorted_by_score (sqrt : ℚ → ℚ) (frequencies : Int → Option Nat)
    (range : Nat) (draws : List Draw) (hotCold : HotCold) (gapStats : GapStats)
    (hlen : 10 ≤ draws.length) :
    ∃ rs : RankStats, rankStats sqrt frequencies range draws = some rs ∧
      (dynamicWeightedPool range (some rs) hotCold gapStats).Perm (allNumbers range) ∧
      (dynamicWeightedPool range (some rs) hotCold gapStats).Pairwise (fun a b =>
        finalScore range rs.rankMap hotCold.hot hotCold.cold gapStats b <
            finalScore range rs.rankMap hotCold.hot hotCold.cold gapStats a ∨
        (finalScore range rs.rankMap hotCold.hot hotCold.cold gapStats a =
            finalScore range rs.rankMap hotCold.hot hotCold.cold gapStats b ∧ a < b)) ∧
      (∀ n : Int, 1 ≤ n → n ≤ range →
        ∃ r : Nat, rs.rankMap n = some r ∧ 1 ≤ r ∧ r ≤ range ∧
          finalScore range rs.rankMap hotCold.hot hotCold.cold gapStats n =
            doubleAdd
              (doubleAdd (doubleMul (doubleSub 1 (doubleDiv (r : ℚ) (range : ℚ))) (1 / 2))
                (doubleMul
                  (if n ∈ hotCold.hot then 1 / 2 else if n ∈ hotCold.cold then -1 / 2 else 0)
                  (toDouble (2 / 10))))
              (doubleMul
                (match gapStats.currentGaps.get? n.toNat, gapStats.avgGaps.get? n.toNat with
                  | some current, some avg => if doubleMul avg (3 / 2) < current then 1 else 0
                  | _, _ => 0)
                (toDouble (3 / 10)))) := by
  have hnot : ¬ draws.length < 10 := by omega
  obtain ⟨h1, -, -, -⟩ := buildRankMap_bijection frequencies range
  have hrs : rankStats sqrt frequencies range draws = some
      { mean := (calculateMeanAndStdDev sqrt (draws.map (fun draw : Draw =>
          ((draw.main.foldl (fun acc num => acc + rankOrDefault
            (buildRankMap (rankedNumbers frequencies range)) range num) 0 : Nat) : ℚ)))).1
        stdDev := (calculateMeanAndStdDev sqrt (draws.map (fun draw : Draw =>
          ((draw.main.foldl (fun acc num => acc + rankOrDefault
            (buildRankMap (rankedNumbers frequencies range)) range num) 0 : Nat) : ℚ)))).2
        rankMap := buildRankMap (rankedNumbers frequencies range) } := by
    unfold rankStats
    rw [if_neg hnot]
  refine ⟨_, hrs, ?_, ?_, ?_⟩
  · exact (sortedWithKey_spec
      (finalScore range (buildRankMap (rankedNumbers frequencies range)) hotCold.hot
        hotCold.cold gapStats)
      (fun a b : ℚ => b ≤ a) (fun a b => le_total b a)
      (fun a b c hab hbc => le_trans hbc hab) range).1
  · have h := (sortedWithKey_spec
      (finalScore range (buildRankMap (rankedNumbers frequencies range)) hotCold.hot
        hotCold.cold gapStats)
      (fun a b : ℚ => b ≤ a) (fun a b => le_total b a)
      (fun a b c hab hbc => le_trans hbc hab) range).2.2.2
    refine List.Pairwise.imp ?_ h
    intro a b hab
    rcases lt_or_ge
      (finalScore range (buildRankMap (rankedNumbers frequencies range)) hotCold.hot
        hotCold.cold gapStats b)
      (finalScore range (buildRankMap (rankedNumbers frequencies range)) hotCold.hot
        hotCold.cold gapStats a) with hlt | hge
    · exact Or.inl hlt
    · exact Or.inr ⟨le_antisymm hge hab.1, hab.2 hge⟩
  · intro n hn1 hn2
    obtain ⟨r, hr, hr1, hr2⟩ := h1 n hn1 hn2
    exact ⟨r, hr, hr1, hr2, finalScore_eq range _ _ _ gapStats n r hr hr1⟩

/-- Claim C18 amended, witness: ten draws of the 6-of-49 game. -/
theorem dynamicWeightedPool_sorted_by_score_witness :
    10 ≤ tenDraws.length ∧
    (dynamicWeightedPool 49 (rankStats id sampleFrequencies 49 tenDraws)
      (hotColdNumbers 49 tenDraws)
      { avgGaps := List.replicate 50 10, currentGaps := List.replicate 50 3 }).Perm
      (allNumbers 49) :=
  ⟨by decide, by
    obtain ⟨rs, h, hperm, -⟩ := dynamicWeightedPool_sorted_by_score id sampleFrequencies 49
      tenDraws (hotColdNumbers 49 tenDraws)
      { avgGaps := List.replicate 50 10, currentGaps := List.replicate 50 3 } (by decide)
    rw [h]
    exact hperm⟩

/-- Claim C19.  For every frequency table and every `poolSize`, the frequency-strategy pool
has `min(poolSize, range)` distinct numbers of `1..range`, least frequent first: numbers of
the pool are in ascending order of frequency, equal frequencies in ascending order of number,
and every number of the pool has a frequency at most that of every number of `1..range` left
out, being the smaller number when the frequencies are equal. -/
theorem frequencyPool_least_frequent_first (frequencies : Int → Option Nat)
    (range poolSize : Nat) :
    (frequencyPool frequencies range poolSize).length = min poolSize range ∧
    (frequencyPool frequencies range poolSize).Nodup ∧
    (∀ n ∈ frequencyPool frequencies range poolSize, 1 ≤ n ∧ n ≤ range) ∧
    (frequencyPool frequencies range poolSize).Pairwise (fun a b =>
      (frequencies a).getD 0 < (frequencies b).getD 0 ∨
      ((frequencies a).getD 0 = (frequencies b).getD 0 ∧ a < b)) ∧
    (∀ n ∈ frequencyPool frequencies range poolSize, ∀ m : Int, 1 ≤ m → m ≤ range →
      m ∉ frequencyPool frequencies range poolSize →
      (frequencies n).getD 0 < (frequencies m).getD 0 ∨
      ((frequencies n).getD 0 = (frequencies m).getD 0 ∧ n < m)) ∧
    poolToUse .frequency poolSize [] frequencies range =
      frequencyPool frequencies range poolSize := by
  obtain ⟨hperm, hpw⟩ := frequencyPool_sorted frequencies range
  have hpool : frequencyPool frequencies range poolSize =
      ((((allNumbers range).map (fun num => (num, (frequencies num).getD 0))).insertionSort
        (fun a b => a.2 ≤ b.2)).map (fun item => item.1)).take poolSize := by
    unfold frequencyPool
    simp only [List.map_take]
  have hnd := hperm.nodup_iff.2 (allNumbers_nodup range)
  rw [hpool]
  refine ⟨?_, ?_, ?_, ?_, ?_, ?_⟩
  · rw [List.length_take, hperm.length_eq, allNumbers_length]
  · exact hnd.sublist (List.take_sublist _ _)
  · intro n hn
    exact mem_allNumbers.1 (hperm.mem_iff.1 (List.mem_of_mem_take hn))
  · exact hpw.sublist (List.take_sublist _ _)
  · intro n hn m hm1 hm2 hm
    have hmem : m ∈ (((allNumbers range).map
        (fun num => (num, (frequencies num).getD 0))).insertionSort
          (fun a b => a.2 ≤ b.2)).map (fun item => item.1) :=
      hperm.mem_iff.2 (mem_allNumbers.2 ⟨hm1, hm2⟩)
    rw [← List.take_append_drop poolSize ((((allNumbers range).map
        (fun num => (num, (frequencies num).getD 0))).insertionSort
          (fun a b => a.2 ≤ b.2)).map (fun item => item.1)), List.mem_append] at hmem
    rcases hmem with hmem | hmem
    · exact absurd hmem hm
    · exact List.Sorted.rel_of_mem_take_of_mem_drop hpw hn hmem
  · rw [← hpool]
    rfl

/-- Claim C20.  In the daily-grand game, whenever `generateSinglePickSet` returns a
combination, its grand number lies in `1..7` and differs from the grand number of each of the
3 most recent draws; at least 4 of the 7 possible grand numbers remain after the exclusion, so
the fall-back to the full domain is never taken. -/
theorem generateSinglePickSet_grand_number (s : AppState) (oneYearAgo twoYearsAgo : Int)
    (rand : Nat → Nat) (outerFuel innerFuel : Nat) (isOpposite : Bool) (pool : List Int)
    (c : Combination) (hgame : s.selectedGame = GameId.dailyGrand)
    (h : generateSinglePickSet s oneYearAgo twoYearsAgo rand outerFuel innerFuel isOpposite pool
      = some (some c)) :
    (∃ g : Int, c.grand = some g ∧ 1 ≤ g ∧ g ≤ 7 ∧
      ∀ d ∈ s.validDraws.drop (s.validDraws.length - 3), d.grand ≠ some g) ∧
    4 ≤ (possibleGrandNumbers.filter (fun num =>
      !((s.validDraws.drop (s.validDraws.length - 3)).map
        (fun draw => draw.grand)).contains (some num))).length := by
  obtain ⟨pos, hpos⟩ := generateSinglePickSet_grand _ _ _ _ _ _ _ _ _ hgame h
  refine ⟨?_, filteredGrandNumbers_length _ (by
    simp only [List.length_map, List.length_drop]
    omega)⟩
  rw [hpos]
  exact pickGrandNumber_spec s.validDraws rand pos

/-- Claim C20, witness: a run of the daily-grand game whose two draws have the grand numbers 2
and 5; the combination returned has the grand number 3. -/
theorem generateSinglePickSet_grand_number_witness :
    (dailyGrandState.selectedGame = GameId.dailyGrand ∧
      generateSinglePickSet dailyGrandState 15 5 (fun _ => 1) 5001 10 true [10, 8, 6, 4, 2, 12]
        = some (some { main := [2, 4, 6, 8, 12], grand := some 3 })) ∧
    ∃ g : Int, (some 3 : Option Int) = some g ∧ 1 ≤ g ∧ g ≤ 7 ∧
      ∀ d ∈ dailyGrandState.validDraws.drop (dailyGrandState.validDraws.length - 3),
        d.grand ≠ some g :=
  ⟨⟨by decide, by decide!⟩,
    (generateSinglePickSet_grand_number dailyGrandState 15 5 (fun _ => 1) 5001 10 true
      [10, 8, 6, 4, 2, 12] { main := [2, 4, 6, 8, 12], grand := some 3 } (by decide)
      (by decide!)).1⟩

/-- Claim C21.  In Phase 1 of the auto-tune, which scans the pool sizes from `standardSize` to
`range` in increasing order, the running value of `maxSuccessfulDraws` never decreases from one
pass to a later one, and after the last pass it is the final value.  The pool size selected lies
among the scanned sizes, its success count is the final `maxSuccessfulDraws`, no scanned size
has a greater count, and every scanned size with that count is at least the selected one: the
selected size is the smallest one that reaches the maximum. -/
theorem autoTunePhase1_selects_smallest_best_pool
    (calculateFrequencies : List Draw → Nat → Int → Option Nat) (s : AppState) :
    let count := successfulDrawsCount calculateFrequencies s.selectedGame s.validDraws
    let standardSize := (gameProperties s.selectedGame).standardSize
    let range := (gameProperties s.selectedGame).range
    let result := autoTunePhase1 calculateFrequencies s
    (∀ i j : Nat, i ≤ j →
      (poolSearchAfter count standardSize range i).maxSuccessfulDraws ≤
        (poolSearchAfter count standardSize range j).maxSuccessfulDraws) ∧
    (∀ i : Nat, range + 1 - standardSize ≤ i →
      poolSearchAfter count standardSize range i = result) ∧
    standardSize ≤ result.bestPoolSizeForStrategy ∧
    result.bestPoolSizeForStrategy ≤ range ∧
    result.maxSuccessfulDraws = count result.bestPoolSizeForStrategy ∧
    (∀ c : Nat, standardSize ≤ c → c ≤ range → (count c : Int) ≤ result.maxSuccessfulDraws) ∧
    (∀ c : Nat, standardSize ≤ c → c ≤ range → (count c : Int) = result.maxSuccessfulDraws →
      result.bestPoolSizeForStrategy ≤ c) := by
  intro count standardSize range result
  obtain ⟨h1, h2, h3, h4, h5⟩ :=
    poolSearch_spec count standardSize range (standardSize_le_range s.selectedGame)
  exact ⟨fun i j hij => poolSearchAfter_mono count standardSize range i j hij,
    fun i hi => poolSearchAfter_all count standardSize range i hi, h1, h2, h3, h4, h5⟩

/-- Claim C22.  When the history has at least 20 draws the auto-tune runs to its end.  The
qualifying draws are those of the last 10 draws that have at least `hitTarget` numbers in the
final pool, the first `bestPoolSizeForStrategy` numbers by ascending frequency over the whole
history.  For each of the twelve filters, the toggle after the run is the toggle before the
run AND NOT (there is a qualifying draw and more than half of the qualifying draws are rejected
by the test of that filter, `length < 2 * rejected`), the tests being those of Phase 2 with
the history before the draw as their window.  The two thresholds are unchanged, with no
qualifying draw the whole configuration is unchanged, and a test that rejects exactly half of
the qualifying draws disables nothing. -/
theorem handleStrategicAutoTune_disables_failing_filters
    (calculateFrequencies : List Draw → Nat → Int → Option Nat) (s : AppState)
    (oneYearAgo twoYearsAgo : Int) (hlen : 20 ≤ s.validDraws.length) :
    let range := (gameProperties s.selectedGame).range
    let finalNumberPool := frequencyPool (calculateFrequencies s.validDraws range) range
      (autoTunePhase1 calculateFrequencies s).bestPoolSizeForStrategy
    let qualifying := (s.validDraws.drop (s.validDraws.length - 10)).filter (fun draw =>
      decide (hitTarget s.selectedGame ≤
        (draw.main.filter (fun num => finalNumberPool.contains num)).length))
    let before := fun (draw : Draw) =>
      s.validDraws.filter (fun d => decide (d.date < draw.date))
    let rejected := fun (rejects : Draw → Bool) => (qualifying.filter rejects).length
    let disabled := fun (rejects : Draw → Bool) =>
      decide (0 < qualifying.length ∧ qualifying.length < 2 * rejected rejects)
    ∃ r : AutoTuneResult,
      handleStrategicAutoTune calculateFrequencies s oneYearAgo twoYearsAgo = some r ∧
      r.cfg.filterLimitSequentials = (s.cfg.filterLimitSequentials &&
        !disabled (fun draw => containsTooManySequentials draw.main 3)) ∧
      r.cfg.filterCheckBalance = (s.cfg.filterCheckBalance &&
        !disabled (fun draw =>
          !isBalancedOddEven draw.main || !isBalancedHighLow draw.main range)) ∧
      r.cfg.filterUseStatisticalSum = (s.cfg.filterUseStatisticalSum &&
        !disabled (fun draw =>
          !isSumWithinRange s.cfg.filterUseStatisticalSum s.stats.sumStats draw.main)) ∧
      r.cfg.filterUsePositional = (s.cfg.filterUsePositional &&
        !disabled (fun draw => !isWithinPositionalBounds draw.main s.stats.positionalBounds)) ∧
      r.cfg.filterCheckSimilarity = (s.cfg.filterCheckSimilarity &&
        !disabled (fun draw =>
          isTooSimilar draw.main
            ((before draw).filter (fun d => decide (oneYearAgo ≤ d.date)))
            s.cfg.recentSimilarityThreshold ||
          isTooSimilar draw.main
            ((before draw).filter
              (fun d => decide (twoYearsAgo ≤ d.date) && decide (d.date < oneYearAgo)))
            s.cfg.similarityThreshold)) ∧
      r.cfg.filterUseDelta = (s.cfg.filterUseDelta &&
        !disabled (fun draw => !isDeltaSumValid draw.main s.stats.deltaStats)) ∧
      r.cfg.filterUseLastDigits = (s.cfg.filterUseLastDigits &&
        !disabled (fun draw =>
          !hasValidLastDigitDistribution draw.main s.stats.lastDigitStats)) ∧
      r.cfg.filterUseConsecutive = (s.cfg.filterUseConsecutive &&
        !disabled (fun draw =>
          !hasValidConsecutiveRepeat s.cfg.filterUseConsecutive draw.main
            ((before draw).getLast?.map (fun d : Draw => d.main)))) ∧
      r.cfg.filterUseNumberGroups = (s.cfg.filterUseNumberGroups &&
        !disabled (fun draw =>
          !hasValidNumberGroupDistribution s.cfg.filterUseNumberGroups draw.main range)) ∧
      r.cfg.filterUseDigitSum = (s.cfg.filterUseDigitSum &&
        !disabled (fun draw =>
          !isDigitSumWithinRange s.cfg.filterUseDigitSum s.stats.digitSumStats draw.main)) ∧
      r.cfg.filterUseRankSum = (s.cfg.filterUseRankSum &&
        !disabled (fun draw =>
          !isRankSumWithinRange s.cfg.filterUseRankSum s.stats.rankStats draw.main)) ∧
      r.cfg.filterUseArithmetic = (s.cfg.filterUseArithmetic &&
        !disabled (fun draw => isArithmeticProgression draw.main)) ∧
      r.cfg.similarityThreshold = s.cfg.similarityThreshold ∧
      r.cfg.recentSimilarityThreshold = s.cfg.recentSimilarityThreshold ∧
      (qualifying.length = 0 → r.cfg = s.cfg) ∧
      (∀ rejects : Draw → Bool, 2 * rejected rejects = qualifying.length →
        disabled rejects = false) := by
  intro range finalNumberPool qualifying before rejected disabled
  have hrecent := recentDrawsToAnalyze_length s.validDraws (by omega)
  have hrun : handleStrategicAutoTune calculateFrequencies s oneYearAgo twoYearsAgo = some
      { cfg := disableFailingFilters s.cfg
          (failedFilterCounts calculateFrequencies s oneYearAgo twoYearsAgo)
          (successfulDrawsInFinalPool calculateFrequencies s).length
        poolSize := (autoTunePhase1 calculateFrequencies s).bestPoolSizeForStrategy
        numSetsToGenerate := finalTickets (autoTunePhase1 calculateFrequencies s).maxSuccessfulDraws
        maxSuccessfulDraws := (autoTunePhase1 calculateFrequencies s).maxSuccessfulDraws } := by
    unfold handleStrategicAutoTune
    rw [if_neg (by omega), if_neg (by omega)]
  have hq : successfulDrawsInFinalPool calculateFrequencies s = qualifying := rfl
  have hcount : ∀ (field : FailedFilterCounts → Nat) (rejects : Draw → Bool),
      field (FailedFilterCounts.mk 0 0 0 0 0 0 0 0 0 0 0 0) = 0 →
      (∀ (c : FailedFilterCounts) (d : Draw),
        field (countFailedFilters s oneYearAgo twoYearsAgo c d) =
          field c + (if rejects d then 1 else 0)) →
      field (failedFilterCounts calculateFrequencies s oneYearAgo twoYearsAgo) =
        (qualifying.filter rejects).length := by
    intro field rejects hzero hstep
    unfold failedFilterCounts
    rw [countFailedFilters_fold s oneYearAgo twoYearsAgo field rejects hstep, hq]
    show field (FailedFilterCounts.mk 0 0 0 0 0 0 0 0 0 0 0 0) + _ = _
    rw [hzero, Nat.zero_add]
  have hc1 := hcount (fun c => c.sequential)
    (fun draw => containsTooManySequentials draw.main 3)
    rfl (fun _ _ => rfl)
  have hc2 := hcount (fun c => c.balance)
    (fun draw =>
        !isBalancedOddEven draw.main || !isBalancedHighLow draw.main range)
    rfl (fun _ _ => rfl)
  have hc3 := hcount (fun c => c.sum)
    (fun draw =>
        !isSumWithinRange s.cfg.filterUseStatisticalSum s.stats.sumStats draw.main)
    rfl (fun _ _ => rfl)
  have hc4 := hcount (fun c => c.positional)
    (fun draw => !isWithinPositionalBounds draw.main s.stats.positionalBounds)
    rfl (fun _ _ => rfl)
  have hc5 := hcount (fun c => c.similarity)
    (fun draw =>
        isTooSimilar draw.main
          ((before draw).filter (fun d => decide (oneYearAgo ≤ d.date)))
          s.cfg.recentSimilarityThreshold ||
        isTooSimilar draw.main
          ((before draw).filter
            (fun d => decide (twoYearsAgo ≤ d.date) && decide (d.date < oneYearAgo)))
          s.cfg.similarityThreshold)
    rfl (fun _ _ => rfl)
  have hc6 := hcount (fun c => c.delta)
    (fun draw => !isDeltaSumValid draw.main s.stats.deltaStats)
    rfl (fun _ _ => rfl)
  have hc7 := hcount (fun c => c.lastDigit)
    (fun draw =>
        !hasValidLastDigitDistribution draw.main s.stats.lastDigitStats)
    rfl (fun _ _ => rfl)
  have hc8 := hcount (fun c => c.consecutive)
    (fun draw =>
        !hasValidConsecutiveRepeat s.cfg.filterUseConsecutive draw.main
          ((before draw).getLast?.map (fun d : Draw => d.main)))
    rfl (fun _ _ => rfl)
  have hc9 := hcount (fun c => c.group)
    (fun draw =>
        !hasValidNumberGroupDistribution s.cfg.filterUseNumberGroups draw.main range)
    rfl (fun _ _ => rfl)
  have hc10 := hcount (fun c => c.digitSum)
    (fun draw =>
        !isDigitSumWithinRange s.cfg.filterUseDigitSum s.stats.digitSumStats draw.main)
    rfl (fun _ _ => rfl)
  have hc11 := hcount (fun c => c.rankSum)
    (fun draw =>
        !isRankSumWithinRange s.cfg.filterUseRankSum s.stats.rankStats draw.main)
    rfl (fun _ _ => rfl)
  have hc12 := hcount (fun c => c.arithmetic)
    (fun draw => isArithmeticProgression draw.main)
    rfl (fun _ _ => rfl)
  obtain ⟨h1, h2, h3, h4, h5, h6, h7, h8, h9, h10, h11, h12, h13, h14, h15⟩ :=
    disableFailingFilters_spec s.cfg
      (failedFilterCounts calculateFrequencies s oneYearAgo twoYearsAgo)
      (successfulDrawsInFinalPool calculateFrequencies s).length
  dsimp only at hc1 hc2 hc3 hc4 hc5 hc6 hc7 hc8 hc9 hc10 hc11 hc12
  rw [hc1] at h1
  rw [hc2] at h2
  rw [hc3] at h3
  rw [hc4] at h4
  rw [hc5] at h5
  rw [hc6] at h6
  rw [hc7] at h7
  rw [hc8] at h8
  rw [hc9] at h9
  rw [hc10] at h10
  rw [hc11] at h11
  rw [hc12] at h12
  refine ⟨_, hrun, h1, h2, h3, h4, h5, h6, h7, h8, h9, h10, h11, h12, h13, h14, h15, ?_⟩
  intro rejects hhalf
  show decide (0 < qualifying.length ∧ qualifying.length < 2 * rejected rejects) = false
  rw [decide_eq_false_iff_not]
  omega

/-- Claim C22, witness: the auto-tune on thirty draws of the 6-of-49 game. -/
theorem handleStrategicAutoTune_disables_failing_filters_witness :
    20 ≤ thirtyDrawsState.validDraws.length ∧
    ∃ r : AutoTuneResult,
      handleStrategicAutoTune (fun _ _ => sampleFrequencies) thirtyDrawsState 25 10 = some r ∧
      r.cfg.similarityThreshold = thirtyDrawsState.cfg.similarityThreshold :=
  ⟨by decide!, by
    obtain ⟨r, hr, -, -, -, -, -, -, -, -, -, -, -, -, h13, -⟩ :=
      handleStrategicAutoTune_disables_failing_filters
        (fun _ _ => sampleFrequencies) thirtyDrawsState 25 10 (by decide!)
    exact ⟨r, hr, h13⟩⟩

/-- Claim C23, counterexample: for `n = 56` and `k = 23` the loop of `combinations`, run in
doubles, ends with `3167295784216200.5`, which `Math.round` turns into `3167295784216201`,
while the binomial coefficient `C(56, 23)`, the value of the loop in exact arithmetic, is
`3167295784216200`. -/
theorem combinations_differs_from_binomial :
    ((0 : Int) ≤ 23 ∧ (23 : Int) ≤ 56) ∧
    combinationsLoop 56 23 = 6334591568432401 / 2 ∧
    combinations 56 23 = 3167295784216201 ∧
    exactCombinationsLoop 56 23 = 3167295784216200 ∧
    Nat.choose 56 23 = 3167295784216200 := by
  refine ⟨by decide, by decide!, by decide!, by decide!, ?_⟩
  rw [Nat.choose_eq_descFactorial_div_factorial]
  decide!

/-- Claim C23, amended.  `combinations(n, k)` is 0 when `k < 0` or `k > n`, and
`combinations(n, n - k) = combinations(n, k)`.  In exact arithmetic the variable `res` of its
loop is the integer `C(n, i)` after `i` passes, `i ≤ n`.  In the doubles of the code the same
holds, and `combinations(n, k) = C(n, k)`, whenever `0 ≤ k ≤ n` and every product
`C(n, j) * (n - j)` with `j < min(k, n - k)` is below `2 ^ 53`; this is so for the three games,
and `combinations(49, 6) = 13983816`. -/
theorem combinations_eq_binomial (n k : Int) :
    ((k < 0 ∨ k > n) → combinations n k = 0) ∧
    combinations n (n - k) = combinations n k ∧
    (∀ i : Nat, (i : Int) ≤ n → exactCombinationsLoop n i = ((n.toNat.choose i : Nat) : ℚ)) ∧
    (0 ≤ k → k ≤ n →
      (∀ j : Nat, (j : Int) < min k (n - k) → n.toNat.choose j * (n.toNat - j) < 2 ^ 53) →
      (∀ i : Nat, (i : Int) ≤ min k (n - k) →
        combinationsLoop n i = ((n.toNat.choose i : Nat) : ℚ)) ∧
      combinations n k = ((n.toNat.choose k.toNat : Nat) : Int)) ∧
    (∀ selectedGame : GameId,
      combinations (gameProperties selectedGame).range
        (gameProperties selectedGame).standardSize =
        (((gameProperties selectedGame).range.choose
          (gameProperties selectedGame).standardSize : Nat) : Int)) ∧
    combinations 49 6 = 13983816 := by
  refine ⟨combinations_of_out_of_range n k, combinations_symm n k, ?_, ?_, ?_, by decide!⟩
  · intro i hi
    have hn : 0 ≤ n := le_trans (Int.natCast_nonneg i) hi
    have := exactCombinationsLoop_eq_choose n.toNat i (by omega)
    rwa [Int.toNat_of_nonneg hn] at this
  · intro hk0 hkn hrep
    have hn : 0 ≤ n := le_trans hk0 hkn
    constructor
    · intro i hi
      have := combinationsLoop_eq_choose n.toNat i (by omega)
        (fun j hj => hrep j (by omega))
      rwa [Int.toNat_of_nonneg hn] at this
    · have := combinations_eq_choose n.toNat k.toNat (by omega)
        (fun j hj => hrep j (by omega))
      rwa [Int.toNat_of_nonneg hk0, Int.toNat_of_nonneg hn] at this
  · intro selectedGame
    cases selectedGame
    · show combinations 49 5 = ((Nat.choose 49 5 : Nat) : Int)
      rw [Nat.choose_eq_descFactorial_div_factorial]
      decide!
    · show combinations 50 7 = ((Nat.choose 50 7 : Nat) : Int)
      rw [Nat.choose_eq_descFactorial_div_factorial]
      decide!
    · show combinations 49 6 = ((Nat.choose 49 6 : Nat) : Int)
      rw [Nat.choose_eq_descFactorial_div_factorial]
      decide!

/-- Claim C24.  For every game, filter configuration, history, scoring model and outcome of
the 10,000 samples, the report that the reduction analysis builds (it is set unless the history
is empty) satisfies `initial ≥ final ≥ 0` and `0 ≤ eliminationPercent ≤ 100`, and the estimates
`initial`, the `remaining` of the successive steps, `final` are non-increasing. -/
theorem handleCombinationReductionAnalysis_report_bounds (s : AppState)
    (oneYearAgo twoYearsAgo : Int) (aiProbabilities : Option (List ℚ))
    (shuffled : Nat → List Int) :
    ∃ r : ReductionAnalysis,
      handleCombinationReductionAnalysis s oneYearAgo twoYearsAgo aiProbabilities shuffled =
        (if s.validDraws.length = 0 then none else some r) ∧
      r.final ≤ r.initial ∧ 0 ≤ r.final ∧
      0 ≤ r.eliminationPercent ∧ r.eliminationPercent ≤ 100 ∧
      (r.initial :: (r.steps.map (fun x => x.remaining) ++ [r.final])).Sorted (· ≥ ·) := by
  obtain ⟨h1, h2, h3, h4, h5, -⟩ := reductionReport_bounds
    (combinations (gameProperties s.selectedGame).range
      (gameProperties s.selectedGame).standardSize) s.cfg aiProbabilities.isSome
    (eliminationCountsAfter s oneYearAgo twoYearsAgo aiProbabilities shuffled sampleSize)
    (combinations_pos s.selectedGame)
    (eliminationCountsAfter_attributed s oneYearAgo twoYearsAgo aiProbabilities shuffled
      sampleSize)
  exact ⟨_, handleCombinationReductionAnalysis_eq s oneYearAgo twoYearsAgo aiProbabilities
    shuffled, h1, h2, h3, h4, h5⟩

/-- Claim C25, counterexample: with all twelve toggles off and a scoring model loaded that
gives every number the probability 0.01, the report has the step `AI Analysis`, its `final` is
0 while `initial` is 13983816, and `eliminationPercent` is 100. -/
theorem reduction_all_filters_off_with_model :
    anyFilterEnabled allFiltersOff = false ∧
    handleCombinationReductionAnalysis (reductionState allFiltersOff) 100 50
      (some lowProbabilities) alternatingShuffles =
      some (ReductionAnalysis.mk 13983816 [AnalysisStep.mk "AI Analysis" 0] 0 100) := by
  decide!

/-- Claim C25, amended.  When all twelve toggles are off and no scoring model is loaded, the
report of the reduction analysis (set unless the history is empty) has no step, its `final`
equals its `initial` and its `eliminationPercent` is 0, whatever the samples; with a scoring
model loaded the report has exactly one step, named `AI Analysis`. -/
theorem reduction_all_filters_off (s : AppState) (oneYearAgo twoYearsAgo : Int)
    (shuffled : Nat → List Int) (hoff : anyFilterEnabled s.cfg = false) :
    (∃ r : ReductionAnalysis,
      handleCombinationReductionAnalysis s oneYearAgo twoYearsAgo none shuffled =
        (if s.validDraws.length = 0 then none else some r) ∧
      r.steps = [] ∧ r.final = r.initial ∧ r.eliminationPercent = 0) ∧
    (∀ probabilities : List ℚ, ∃ r : ReductionAnalysis,
      handleCombinationReductionAnalysis s oneYearAgo twoYearsAgo (some probabilities)
        shuffled = (if s.validDraws.length = 0 then none else some r) ∧
      r.steps.map (fun x => x.filter) = ["AI Analysis"]) := by
  unfold anyFilterEnabled at hoff
  simp only [Bool.or_eq_false_iff] at hoff
  obtain ⟨⟨⟨⟨⟨⟨⟨⟨⟨⟨⟨h1, h2⟩, h3⟩, h4⟩, h5⟩, h6⟩, h7⟩, h8⟩, h9⟩, h10⟩, h11⟩, h12⟩ := hoff
  have hpos := combinations_pos s.selectedGame
  have hne : ((combinations (gameProperties s.selectedGame).range
      (gameProperties s.selectedGame).standardSize : Int) : ℚ) ≠ 0 := by
    exact_mod_cast ne_of_gt hpos
  constructor
  · refine ⟨_, handleCombinationReductionAnalysis_eq s oneYearAgo twoYearsAgo none shuffled,
      ?_, ?_, ?_⟩
    · simp [reductionReport, processFilterCalls, processFilter, h1, h2, h3, h4, h5, h6, h7, h8,
        h9, h10, h11, h12]
    · simp [reductionReport, processFilterCalls, processFilter, h1, h2, h3, h4, h5, h6, h7, h8,
        h9, h10, h11, h12, mathRound_intCast]
    · simp [reductionReport, processFilterCalls, processFilter, h1, h2, h3, h4, h5, h6, h7, h8,
        h9, h10, h11, h12, hne]
  · intro probabilities
    refine ⟨_, handleCombinationReductionAnalysis_eq s oneYearAgo twoYearsAgo
      (some probabilities) shuffled, ?_⟩
    simp [reductionReport, processFilterCalls, processFilter, h1, h2, h3, h4, h5, h6, h7, h8,
      h9, h10, h11, h12]

/-- Claim C25, witness: the 6-of-49 game with twenty draws, all toggles off and no scoring
model. -/
theorem reduction_all_filters_off_witness :
    anyFilterEnabled (reductionState allFiltersOff).cfg = false ∧
    ∃ r : ReductionAnalysis,
      handleCombinationReductionAnalysis (reductionState allFiltersOff) 100 50 none
        alternatingShuffles =
        (if (reductionState allFiltersOff).validDraws.length = 0 then none else some r) ∧
      r.steps = [] ∧ r.final = r.initial ∧ r.eliminationPercent = 0 :=
  ⟨by decide, (reduction_all_filters_off (reductionState allFiltersOff) 100 50
    alternatingShuffles (by decide)).1⟩

/-- Claim C26.  The handler of `GET /api/data/:game` passes a text to `pool.query` only when
the lower-cased game name is `lottomax`, `lotto649` or `dailygrand`, and that text is
`SELECT * FROM <that name> ORDER BY draw_date ASC`; for every other game string it issues no
query and answers status 400 with the error body `Invalid game specified.`.  Every text that
reaches `pool.query` is one of three fixed texts. -/
theorem getData_queries_only_known_tables {Payload : Type} (toLowerCase : String → String)
    (runQuery : String → Option Payload) (game : String) :
    ((toLowerCase game = "lottomax" ∨ toLowerCase game = "lotto649" ∨
        toLowerCase game = "dailygrand") →
      (getData toLowerCase runQuery game).queries =
        ["SELECT * FROM " ++ toLowerCase game ++ " ORDER BY draw_date ASC"]) ∧
    (¬ (toLowerCase game = "lottomax" ∨ toLowerCase game = "lotto649" ∨
        toLowerCase game = "dailygrand") →
      (getData toLowerCase runQuery game).queries = [] ∧
      (getData toLowerCase runQuery game).status = 400 ∧
      (getData toLowerCase runQuery game).body = .error "Invalid game specified.") ∧
    (∀ text ∈ (getData toLowerCase runQuery game).queries,
      text = "SELECT * FROM lottomax ORDER BY draw_date ASC" ∨
      text = "SELECT * FROM lotto649 ORDER BY draw_date ASC" ∨
      text = "SELECT * FROM dailygrand ORDER BY draw_date ASC") := by
  have hmem : tableNames.contains (toLowerCase game) = true ↔
      (toLowerCase game = "lottomax" ∨ toLowerCase game = "lotto649" ∨
        toLowerCase game = "dailygrand") := by
    unfold tableNames
    simp
  have hyes : (toLowerCase game = "lottomax" ∨ toLowerCase game = "lotto649" ∨
        toLowerCase game = "dailygrand") →
      (getData toLowerCase runQuery game).queries =
        ["SELECT * FROM " ++ toLowerCase game ++ " ORDER BY draw_date ASC"] := by
    intro h
    unfold getData
    dsimp only
    rw [if_neg (by rw [hmem.2 h]; decide)]
    cases runQuery ("SELECT * FROM " ++ toLowerCase game ++ " ORDER BY draw_date ASC") <;> rfl
  have hno : ¬ (toLowerCase game = "lottomax" ∨ toLowerCase game = "lotto649" ∨
        toLowerCase game = "dailygrand") →
      (getData toLowerCase runQuery game).queries = [] ∧
      (getData toLowerCase runQuery game).status = 400 ∧
      (getData toLowerCase runQuery game).body = .error "Invalid game specified." := by
    intro h
    have hc : tableNames.contains (toLowerCase game) = false := by
      rw [← Bool.not_eq_true]
      exact fun hc => h (hmem.1 hc)
    unfold getData
    dsimp only
    rw [if_pos (by rw [hc]; rfl)]
    exact ⟨rfl, rfl, rfl⟩
  refine ⟨hyes, hno, ?_⟩
  intro text htext
  by_cases h : toLowerCase game = "lottomax" ∨ toLowerCase game = "lotto649" ∨
      toLowerCase game = "dailygrand"
  · rw [hyes h] at htext
    have ht : text = "SELECT * FROM " ++ toLowerCase game ++ " ORDER BY draw_date ASC" := by
      simpa using htext
    rcases h with h | h | h
    · left
      rw [ht, h]
      rfl
    · right; left
      rw [ht, h]
      rfl
    · right; right
      rw [ht, h]
      rfl
  · rw [(hno h).1] at htext
    exact absurd htext (List.not_mem_nil _)

/-- Claim C27, counterexample: with only the arithmetic and the sequential toggle on and
samples that alternate between `1 2 3 4 5 6` and `5 10 15 20 25 30`, every one of the 10,000
samples is attributed to an enabled filter, 5,000 to each, yet the report has
`eliminationPercent` 75, which is less than `100 * 10000 / 10000`. -/
theorem reduction_percent_below_attributed_share :
    ∃ r : ReductionAnalysis,
      handleCombinationReductionAnalysis (reductionState arithmeticAndSequentialOn) 100 50
        none alternatingShuffles = some r ∧
      r.eliminationPercent = 75 ∧
      attributedToEnabled arithmeticAndSequentialOn false
        (eliminationCountsAfter (reductionState arithmeticAndSequentialOn) 100 50 none
          alternatingShuffles sampleSize) = 10000 ∧
      r.eliminationPercent < 100 * ((attributedToEnabled arithmeticAndSequentialOn false
        (eliminationCountsAfter (reductionState arithmeticAndSequentialOn) 100 50 none
          alternatingShuffles sampleSize) : Nat) : ℚ) / (sampleSize : ℚ) := by
  have hc : eliminationCountsAfter (reductionState arithmeticAndSequentialOn) 100 50 none
      alternatingShuffles sampleSize =
      EliminationCounts.mk 5000 0 0 0 0 0 0 0 0 0 0 0 5000 := by
    decide!
  refine ⟨reductionReport 13983816 arithmeticAndSequentialOn false
    (EliminationCounts.mk 5000 0 0 0 0 0 0 0 0 0 0 0 5000), ?_, ?_, ?_, ?_⟩
  · rw [handleCombinationReductionAnalysis_eq, hc]
    decide!
  · decide!
  · rw [hc]
    decide!
  · rw [hc]
    decide!

/-- Claim C27, amended.  The report of the reduction analysis never over-reports the sampled
elimination: its `eliminationPercent` is at most `100 * a / 10000`, where `a` is the number of
samples attributed to an enabled filter (or to the scoring model when one is loaded), and this
number is at most 10,000. -/
theorem reduction_percent_le_attributed_share (s : AppState) (oneYearAgo twoYearsAgo : Int)
    (aiProbabilities : Option (List ℚ)) (shuffled : Nat → List Int) :
    ∃ r : ReductionAnalysis,
      handleCombinationReductionAnalysis s oneYearAgo twoYearsAgo aiProbabilities shuffled =
        (if s.validDraws.length = 0 then none else some r) ∧
      r.eliminationPercent ≤ 100 * ((attributedToEnabled s.cfg aiProbabilities.isSome
        (eliminationCountsAfter s oneYearAgo twoYearsAgo aiProbabilities shuffled
          sampleSize) : Nat) : ℚ) / (10000 : ℚ) ∧
      attributedSamples (eliminationCountsAfter s oneYearAgo twoYearsAgo aiProbabilities
        shuffled sampleSize) ≤ 10000 := by
  obtain ⟨-, -, -, -, -, h6⟩ := reductionReport_bounds
    (combinations (gameProperties s.selectedGame).range
      (gameProperties s.selectedGame).standardSize) s.cfg aiProbabilities.isSome
    (eliminationCountsAfter s oneYearAgo twoYearsAgo aiProbabilities shuffled sampleSize)
    (combinations_pos s.selectedGame)
    (eliminationCountsAfter_attributed s oneYearAgo twoYearsAgo aiProbabilities shuffled
      sampleSize)
  refine ⟨_, handleCombinationReductionAnalysis_eq s oneYearAgo twoYearsAgo aiProbabilities
    shuffled, ?_, eliminationCountsAfter_attributed s oneYearAgo twoYearsAgo aiProbabilities
      shuffled sampleSize⟩
  have hs : ((sampleSize : Nat) : ℚ) = 10000 := by norm_num [sampleSize]
  rw [hs] at h6
  exact h6
/-- Claim C28.  For a list of integers with least element `lo` and greatest element `hi` (so
the list is not empty), the delta sum that `deltaStats` and `isDeltaSumValid` compute, the sum
of the consecutive differences of the sorted list, is `hi - lo`; hence the Delta filter accepts
the list against statistics `st` exactly when `hi - lo` lies in
`[mean - 1.5 * stdDev, mean + 1.5 * stdDev]`, and `deltaStats` is the mean and standard
deviation of the spreads of the draws. -/
theorem deltaSum_eq_max_sub_min (numbers : List Int) (lo hi : Int) (hlo : lo ∈ numbers)
    (hhi : hi ∈ numbers) (hmin : ∀ x ∈ numbers, lo ≤ x) (hmax : ∀ x ∈ numbers, x ≤ hi) :
    deltaSumLoop (sortAsc numbers) 0 = hi - lo ∧
    (∀ st : MeanStdDev, isDeltaSumValid numbers (some st) = true ↔
      st.mean - 3 / 2 * st.stdDev ≤ ((hi - lo : Int) : ℚ) ∧
        ((hi - lo : Int) : ℚ) ≤ st.mean + 3 / 2 * st.stdDev) ∧
    (∀ (sqrt : ℚ → ℚ) (draws : List Draw) (spread : Draw → Int),
      (∀ d ∈ draws, ∃ a b : Int, a ∈ d.main ∧ b ∈ d.main ∧ (∀ x ∈ d.main, a ≤ x ∧ x ≤ b) ∧
        spread d = b - a) →
      deltaStats sqrt draws = if draws.length < 10 then none
        else some (toMeanStdDev (calculateMeanAndStdDev sqrt
          (draws.map (fun d : Draw => ((spread d : Int) : ℚ)))))) := by
  have h := deltaSum_sortAsc numbers lo hi hlo hhi hmin hmax
  refine ⟨h, ?_, ?_⟩
  · intro st
    unfold isDeltaSumValid
    dsimp only
    rw [h, withinBand_iff]
  · intro sqrt draws spread hspread
    unfold deltaStats
    have hmap : draws.map (fun draw : Draw => ((deltaSumLoop (sortAsc draw.main) 0 : Int) : ℚ))
        = draws.map (fun d : Draw => ((spread d : Int) : ℚ)) := by
      apply List.map_congr_left
      intro d hd
      obtain ⟨a, b, ha, hb, hab, hs⟩ := hspread d hd
      rw [deltaSum_sortAsc d.main a b ha hb (fun x hx => (hab x hx).1)
        (fun x hx => (hab x hx).2), hs]
    dsimp only
    rw [hmap]

/-- Claim C28, witness: the list `18 3 11 40`, with least element 3 and greatest element 40. -/
theorem deltaSum_eq_max_sub_min_witness :
    ((3 : Int) ∈ [18, 3, 11, 40] ∧ (40 : Int) ∈ [18, 3, 11, 40] ∧
      (∀ x ∈ ([18, 3, 11, 40] : List Int), 3 ≤ x) ∧
      (∀ x ∈ ([18, 3, 11, 40] : List Int), x ≤ 40)) ∧
    deltaSumLoop (sortAsc [18, 3, 11, 40]) 0 = 40 - 3 :=
  ⟨⟨by decide, by decide, by decide, by decide⟩,
    (deltaSum_eq_max_sub_min [18, 3, 11, 40] 3 40 (by decide) (by decide) (by decide)
      (by decide)).1⟩

/-- Claim C29.  For every non-empty combination, every window of draws and every threshold
`t > 0`, `isTooSimilar(combination, window, t)` is true if and only if
`calculateSimilarity(combination, window) >= t`, in exact arithmetic. -/
theorem isTooSimilar_iff_calculateSimilarity_ge (numbers : List Int) (draws : List Draw)
    (t : ℚ) (hne : numbers ≠ []) (ht : 0 < t) :
    isTooSimilar numbers draws t = true ↔ calculateSimilarity numbers draws ≥ t := by
  have hlen : (0 : ℚ) < (numbers.length : ℚ) := by
    have : 0 < numbers.length := List.length_pos.2 hne
    exact_mod_cast this
  have key : ∀ m : Nat, ⌈(numbers.length : ℚ) * t / 100⌉ ≤ ((m : Nat) : Int) ↔
      t ≤ ((m : Nat) : ℚ) / (numbers.length : ℚ) * 100 := by
    intro m
    rw [Int.ceil_le, div_mul_eq_mul_div, le_div_iff₀ hlen, div_le_iff₀ (by norm_num)]
    push_cast
    constructor <;> intro h <;> linarith
  rw [isTooSimilar_eq_true_iff, ge_iff_le, calculateSimilarity_ge_iff numbers draws t ht]
  constructor
  · rintro ⟨d, hd, h⟩
    exact ⟨d, hd, (key _).1 h⟩
  · rintro ⟨d, hd, h⟩
    exact ⟨d, hd, (key _).2 h⟩

/-- Claim C29, witness: the combination `1 2 3 4 5 6` against twenty draws, with the
threshold 10. -/
theorem isTooSimilar_iff_calculateSimilarity_ge_witness :
    (([1, 2, 3, 4, 5, 6] : List Int) ≠ [] ∧ (0 : ℚ) < 10) ∧
    (isTooSimilar [1, 2, 3, 4, 5, 6] twentyDraws 10 = true ↔
      calculateSimilarity [1, 2, 3, 4, 5, 6] twentyDraws ≥ 10) :=
  ⟨⟨by decide, by decide!⟩,
    isTooSimilar_iff_calculateSimilarity_ge [1, 2, 3, 4, 5, 6] twentyDraws 10 (by decide)
      (by decide!)⟩

/-- Claim C30.  For each of the three games, when the valid draws are at least 30, have
pairwise distinct dates and each consist of `standardSize` distinct numbers of `1..range`,
Phase 1 of the auto-tune ends with `maxSuccessfulDraws = 10`, the run completes, and the
ticket count that it sets is 5, whatever the draws contain and whatever frequencies
`calculateFrequencies` returns. -/
theorem autoTune_full_history_recommends_five_tickets
    (calculateFrequencies : List Draw → Nat → Int → Option Nat) (s : AppState)
    (history : List Draw) (oneYearAgo twoYearsAgo : Int)
    (hmemo : s.validDraws = validDraws (some history) (gameProperties s.selectedGame).standardSize)
    (hlen : 30 ≤ s.validDraws.length)
    (hdates : (s.validDraws.map (fun d => d.date)).Nodup)
    (hmain : ∀ d ∈ s.validDraws, d.main.length = (gameProperties s.selectedGame).standardSize ∧
      d.main.Nodup ∧ ∀ n ∈ d.main, 1 ≤ n ∧ n ≤ (gameProperties s.selectedGame).range) :
    (autoTunePhase1 calculateFrequencies s).maxSuccessfulDraws = 10 ∧
    ∃ r : AutoTuneResult,
      handleStrategicAutoTune calculateFrequencies s oneYearAgo twoYearsAgo = some r ∧
      r.maxSuccessfulDraws = 10 ∧ r.numSetsToGenerate = 5 := by
  have hsorted : s.validDraws.Sorted (fun a b => a.date ≤ b.date) := by
    rw [hmemo]
    exact validDraws_sorted history _
  have hpw := pairwise_date_lt s.validDraws hsorted hdates
  have hfull := successfulDrawsCount_full calculateFrequencies s.selectedGame s.validDraws hlen
    hpw (fun d hd => ⟨(hmain d hd).1, (hmain d hd).2.2⟩)
  have hrecent := recentDrawsToAnalyze_length s.validDraws (by omega)
  obtain ⟨h1, h2, h3, h4, -⟩ := poolSearch_spec
    (successfulDrawsCount calculateFrequencies s.selectedGame s.validDraws)
    (gameProperties s.selectedGame).standardSize (gameProperties s.selectedGame).range
    (standardSize_le_range s.selectedGame)
  have hmax : (autoTunePhase1 calculateFrequencies s).maxSuccessfulDraws = 10 := by
    unfold autoTunePhase1
    have hge := h4 (gameProperties s.selectedGame).range (standardSize_le_range s.selectedGame)
      le_rfl
    rw [hfull] at hge
    have hle := successfulDrawsCount_le calculateFrequencies s.selectedGame s.validDraws
      (poolSearch (successfulDrawsCount calculateFrequencies s.selectedGame s.validDraws)
        (gameProperties s.selectedGame).standardSize
        (gameProperties s.selectedGame).range).bestPoolSizeForStrategy
    rw [hrecent] at hle
    rw [h3]
    have hle2 : ((successfulDrawsCount calculateFrequencies s.selectedGame s.validDraws
      (poolSearch (successfulDrawsCount calculateFrequencies s.selectedGame s.validDraws)
        (gameProperties s.selectedGame).standardSize
        (gameProperties s.selectedGame).range).bestPoolSizeForStrategy : Nat) : Int) ≤ 10 := by
      exact_mod_cast hle
    rw [h3] at hge
    push_cast at hge
    omega
  refine ⟨hmax, ?_⟩
  have hrun : handleStrategicAutoTune calculateFrequencies s oneYearAgo twoYearsAgo = some
      { cfg := disableFailingFilters s.cfg
          (failedFilterCounts calculateFrequencies s oneYearAgo twoYearsAgo)
          (successfulDrawsInFinalPool calculateFrequencies s).length
        poolSize := (autoTunePhase1 calculateFrequencies s).bestPoolSizeForStrategy
        numSetsToGenerate := finalTickets (autoTunePhase1 calculateFrequencies s).maxSuccessfulDraws
        maxSuccessfulDraws := (autoTunePhase1 calculateFrequencies s).maxSuccessfulDraws } := by
    unfold handleStrategicAutoTune
    rw [if_neg (by omega), if_neg (by omega)]
  refine ⟨_, hrun, hmax, ?_⟩
  dsimp only
  rw [hmax]
  exact finalTickets_ten

/-- Claim C30, witness: thirty draws of the 6-of-49 game, one per day. -/
theorem autoTune_full_history_recommends_five_tickets_witness :
    (thirtyDrawsState.validDraws =
        validDraws (some thirtyDraws) (gameProperties thirtyDrawsState.selectedGame).standardSize ∧
      30 ≤ thirtyDrawsState.validDraws.length ∧
      (thirtyDrawsState.validDraws.map (fun d => d.date)).Nodup ∧
      (∀ d ∈ thirtyDrawsState.validDraws,
        d.main.length = (gameProperties thirtyDrawsState.selectedGame).standardSize ∧
        d.main.Nodup ∧
        ∀ n ∈ d.main, 1 ≤ n ∧ n ≤ (gameProperties thirtyDrawsState.selectedGame).range)) ∧
    (autoTunePhase1 (fun _ _ => sampleFrequencies) thirtyDrawsState).maxSuccessfulDraws = 10 :=
  ⟨⟨rfl, by decide!, by decide!, by decide!⟩,
    (autoTune_full_history_recommends_five_tickets (fun _ _ => sampleFrequencies)
      thirtyDrawsState thirtyDraws 25 10 rfl (by decide!) (by decide!) (by decide!)).1⟩

end MillionaireMaker


